import Mathlib

/-!
# ArduinoOcpp: connector status inference and the transaction meter-value store

A shallow embedding of

* `src/ArduinoOcpp/Tasks/ChargePointStatus/ConnectorStatus.cpp`
* `src/ArduinoOcpp/Tasks/Metering/MeterStore.cpp`

Conventions of the embedding.

* A sampler (`std::function<bool()>`) is embedded as its reading during the call under
  study: `none` is an empty `std::function`, `some b` a sampler that reports `b` every time
  it is consulted within that call.
* `const char *` results are `Option String`, `nullptr` being `none`.
* `std::unique_ptr<MeterValue>` is `Option MV`, `nullptr` being `none`.
* Stateful member functions return the updated object next to their result.
-/

namespace ArduinoOcpp

/-! ## ConnectorStatus.cpp -/

/-- Modelled from the spec: the status enumeration `OcppEvseState` is declared in a header
that is not among the source files. The eight values named in `ConnectorStatus.cpp`, plus
`Reserved` and `NOT_SET`, which no inference rule produces; they let the previous status
range over more than the inferred values. -/
inductive OcppEvseState where
  | Available
  | Preparing
  | Charging
  | SuspendedEVSE
  | SuspendedEV
  | Finishing
  | Reserved
  | Unavailable
  | Faulted
  | NOT_SET
  deriving DecidableEq, Repr

/-- Modelled from the spec: the `AVAILABILITY_*` constants are declared in a header that
is not among the source files; spec section 3 gives the durable field as an enum of three
values. -/
inductive Availability where
  | AVAILABILITY_OPERATIVE
  | AVAILABILITY_INOPERATIVE_SCHEDULED
  | AVAILABILITY_INOPERATIVE
  deriving DecidableEq, Repr

open Availability

/-- The members of `ConnectorStatus` read or written by the functions embedded below.
`saveCount` counts the calls of `saveState()` (`configuration_save()`). -/
structure ConnectorStatus where
  connectorId : Int
  transactionId : Int
  transactionIdSync : Int
  availability : Availability
  session : Bool
  idTag : List UInt8
  currentStatus : OcppEvseState
  connectorPluggedSampler : Option Bool
  evRequestsEnergySampler : Option Bool
  connectorEnergizedSampler : Option Bool
  connectorErrorCodeSamplers : List (Option String)
  saveCount : Nat
  deriving DecidableEq, Repr

/-- The outbound operations `loop()` allocates. -/
inductive OcppMessage where
  | StartTransaction (connectorId : Int)
  | StopTransaction (connectorId : Int)
  | StatusNotification (connectorId : Int) (status : OcppEvseState) (timestamp : Nat)
      (errorCode : Option String)
  deriving DecidableEq, Repr

namespace ConnectorStatus

/-- The `for` loop of `ConnectorStatus::getErrorCode` over the samplers that are left. -/
def getErrorCodeFrom : List (Option String) → Option String
  | [] => none
  | err :: rest => if err ≠ none then err else getErrorCodeFrom rest

/-- `ConnectorStatus::getErrorCode`: the first non-null result in sampler order. -/
def getErrorCode (s : ConnectorStatus) : Option String :=
  getErrorCodeFrom s.connectorErrorCodeSamplers

/-- `ConnectorStatus::getTransactionId`. -/
def getTransactionId (s : ConnectorStatus) : Int := s.transactionId

/-- `ConnectorStatus::getAvailability`. -/
def getAvailability (s : ConnectorStatus) : Availability := s.availability

/-- `ConnectorStatus::saveState`. -/
def saveState (s : ConnectorStatus) : ConnectorStatus :=
  { s with saveCount := s.saveCount + 1 }

/-- `ConnectorStatus::inferenceStatus`. -/
def inferenceStatus (s : ConnectorStatus) : OcppEvseState :=
  if s.connectorId = 0 then
    if s.getErrorCode ≠ none then
      OcppEvseState.Faulted
    else if s.availability = AVAILABILITY_INOPERATIVE then
      OcppEvseState.Unavailable
    else
      OcppEvseState.Available
  else if s.getErrorCode ≠ none then
    OcppEvseState.Faulted
  else if s.availability = AVAILABILITY_INOPERATIVE then
    OcppEvseState.Unavailable
  else if s.session = false ∧ s.getTransactionId < 0 ∧
      (s.connectorPluggedSampler = none ∨ s.connectorPluggedSampler = some false) then
    OcppEvseState.Available
  else if s.getTransactionId ≤ 0 then
    if s.connectorPluggedSampler = some true ∧
        (s.currentStatus = OcppEvseState.Finishing ∨
         s.currentStatus = OcppEvseState.Charging ∨
         s.currentStatus = OcppEvseState.SuspendedEV ∨
         s.currentStatus = OcppEvseState.SuspendedEVSE) then
      OcppEvseState.Finishing
    else
      OcppEvseState.Preparing
  else
    if s.evRequestsEnergySampler = some false then
      OcppEvseState.SuspendedEV
    else if s.connectorEnergizedSampler = some false then
      OcppEvseState.SuspendedEVSE
    else
      OcppEvseState.Charging

/-- `ConnectorStatus::ocppPermitsCharge`. -/
def ocppPermitsCharge (s : ConnectorStatus) : Bool :=
  if s.connectorId = 0 then
    false
  else
    let state := s.inferenceStatus
    decide (state = OcppEvseState.Charging ∨
      state = OcppEvseState.SuspendedEV ∨
      state = OcppEvseState.SuspendedEVSE)

/-- Lines 129-141 of `ConnectorStatus::loop`: recompute the status and report a change;
`now` is `context.getOcppTime().getOcppTimestampNow()`. -/
def loopStatus (s : ConnectorStatus) (now : Nat) : Option OcppMessage × ConnectorStatus :=
  let inferencedStatus := s.inferenceStatus
  if inferencedStatus ≠ s.currentStatus then
    let s2 := { s with currentStatus := inferencedStatus }
    (some (OcppMessage.StatusNotification s2.connectorId s2.currentStatus now s2.getErrorCode),
      s2)
  else
    (none, s)

/-- Lines 101-104 of `ConnectorStatus::loop`: commit a scheduled unavailability. -/
def loopCommit (s : ConnectorStatus) : ConnectorStatus :=
  if s.getTransactionId ≤ 0 ∧ s.availability = AVAILABILITY_INOPERATIVE_SCHEDULED then
    saveState { s with availability := AVAILABILITY_INOPERATIVE }
  else s

/-- `ConnectorStatus::loop`. -/
def loop (s : ConnectorStatus) (now : Nat) : Option OcppMessage × ConnectorStatus :=
  let s1 := s.loopCommit
  match s1.connectorPluggedSampler with
  | some plugged =>
    if s1.getTransactionId ≥ 0 then
      if plugged = false ∨ s1.session = false then
        (some (OcppMessage.StopTransaction s1.connectorId), s1)
      else
        s1.loopStatus now
    else
      if plugged = true ∧ s1.session = true ∧ s1.getErrorCode = none ∧
          s1.availability = AVAILABILITY_OPERATIVE then
        (some (OcppMessage.StartTransaction s1.connectorId), s1)
      else
        s1.loopStatus now
  | none => s1.loopStatus now

/-- The string that the `char`s at a `const char *` spell: the bytes before the first
NUL. -/
def cString (chars : List UInt8) : List UInt8 :=
  chars.takeWhile (fun b => b != 0)

/-- The bytes of the literal `"A0-00-00-00"`. -/
def defaultIdTag : List UInt8 := [65, 48, 45, 48, 48, 45, 48, 48, 45, 48, 48]

/-- `ConnectorStatus::beginSession`. The argument is `none` for `nullptr`, else the `char`s
it points to; `idTag` is the string the member buffer holds. `IDTAG_LEN_MAX` is declared
in a missing header; `snprintf` with the size `IDTAG_LEN_MAX + 1` keeps at most
`IDTAG_LEN_MAX` bytes of the string. -/
def beginSession (IDTAG_LEN_MAX : Nat) (s : ConnectorStatus)
    (sessionIdTag : Option (List UInt8)) : ConnectorStatus :=
  match sessionIdTag with
  | none => { s with idTag := defaultIdTag.take IDTAG_LEN_MAX, session := true }
  | some chars =>
    if cString chars = [] then
      { s with idTag := defaultIdTag.take IDTAG_LEN_MAX, session := true }
    else { s with idTag := (cString chars).take IDTAG_LEN_MAX, session := true }

/-- `ConnectorStatus::endSession`. -/
def endSession (s : ConnectorStatus) : ConnectorStatus :=
  if s.session = true then { s with idTag := [], session := false }
  else { s with session := false }

/-- `ConnectorStatus::getSessionIdTag`. -/
def getSessionIdTag (s : ConnectorStatus) : Option (List UInt8) :=
  if s.session = true then some s.idTag else none

/-- `ConnectorStatus::setTransactionIdSync`. -/
def setTransactionIdSync (s : ConnectorStatus) (id : Int) : ConnectorStatus :=
  { s with transactionIdSync := id }

/-- `ConnectorStatus::setTransactionId`. -/
def setTransactionId (s : ConnectorStatus) (id : Int) : ConnectorStatus :=
  let prevTxId := s.transactionId
  let s1 := { s with transactionId := id }
  if id ≠ 0 ∨ prevTxId > 0 then saveState s1 else s1

/-- `ConnectorStatus::setAvailability`. -/
def setAvailability (s : ConnectorStatus) (available : Bool) : ConnectorStatus :=
  if available = true then
    saveState { s with availability := AVAILABILITY_OPERATIVE }
  else if s.getTransactionId > 0 then
    saveState { s with availability := AVAILABILITY_INOPERATIVE_SCHEDULED }
  else
    saveState { s with availability := AVAILABILITY_INOPERATIVE }

/-- `ConnectorStatus::setConnectorPluggedSampler`. -/
def setConnectorPluggedSampler (s : ConnectorStatus) (connectorPlugged : Option Bool) :
    ConnectorStatus :=
  { s with connectorPluggedSampler := connectorPlugged }

/-- `ConnectorStatus::setEvRequestsEnergySampler`. -/
def setEvRequestsEnergySampler (s : ConnectorStatus) (evRequestsEnergy : Option Bool) :
    ConnectorStatus :=
  { s with evRequestsEnergySampler := evRequestsEnergy }

/-- `ConnectorStatus::setConnectorEnergizedSampler`: the right-hand side of the
assignment in the source is the member, not the parameter `connectorEnergized`. -/
def setConnectorEnergizedSampler (s : ConnectorStatus) (_connectorEnergized : Option Bool) :
    ConnectorStatus :=
  { s with connectorEnergizedSampler := s.connectorEnergizedSampler }

/-- `ConnectorStatus::addConnectorErrorCodeSampler`. -/
def addConnectorErrorCodeSampler (s : ConnectorStatus) (connectorErrorCode : Option String) :
    ConnectorStatus :=
  { s with connectorErrorCodeSamplers := s.connectorErrorCodeSamplers ++ [connectorErrorCode] }

end ConnectorStatus

/-! ## MeterStore.cpp

The storage adapter is external. It is embedded as a map from slot-file names to stored
documents, together with the list of calls made on it. A file that exists but does not
parse is a document that `deserializeSample` rejects: every reader in `MeterStore.cpp`
either only asks whether the file exists (`stat`) or treats a failed `loadJson` and a failed
`deserializeSample` alike. What is assumed of the adapter: a write that succeeds leaves
the document at its name, a failed write leaves anything there, a read returns what the
name holds, and `remove` deletes an existing file and returns whether there was one. An
operation touches no other name. -/

/-- `#define MAX_STOPTXDATA_LEN 10`. -/
def MAX_STOPTXDATA_LEN : Nat := 10

/-- `const uint MISSES_LIMIT = 3`. -/
def MISSES_LIMIT : Nat := 3

/-- The range of `unsigned int`. -/
def UINT_RANGE : Nat := 4294967296

/-- The file name `AO_METERSTORE_DIR "sd" "-%u-%u-%u.jsn"` for the three printed numbers.
Distinct triples print distinct names, so the triple stands for the name. -/
structure SdPath where
  connectorId : Nat
  txNr : Nat
  index : Nat
  deriving DecidableEq, Repr

/-- The members of `TransactionMeterData`. `filesystem` tells whether the adapter pointer
is non-null; the storage itself is passed to the member functions. -/
structure TransactionMeterData (MV : Type) where
  connectorId : Nat
  txNr : Nat
  filesystem : Bool
  mvCount : Nat
  txData : List MV
  finalized : Bool
  deriving DecidableEq, Repr

/-- What `MeterStore.cpp` uses from headers that are not among the source files: the
length of the string `AO_METERSTORE_DIR`, the buffer size `MAX_PATH_SIZE`,
`MeterValue::toJson` and `MeterValueBuilder::deserializeSample` (both may return null),
and the accessor `TransactionMeterData::getPathsCount`. -/
structure Platform (MV Doc : Type) where
  dirLen : Nat
  MAX_PATH_SIZE : Nat
  toJson : MV → Option Doc
  deserializeSample : Doc → Option MV
  getPathsCount : TransactionMeterData MV → Nat

/-- The number of characters `%u` prints. -/
def decimalLen (n : Nat) : Nat := (Nat.toDigits 10 n).length

/-- The value `snprintf` returns for the slot-file format: the length of the whole name. -/
def snprintfLen {MV Doc : Type} (P : Platform MV Doc) (fn : SdPath) : Nat :=
  P.dirLen + 3 + decimalLen fn.connectorId + 1 + decimalLen fn.txNr + 1 +
    decimalLen fn.index + 4

/-- A call on the storage adapter. -/
inductive FsCall where
  | stat (fn : SdPath)
  | load (fn : SdPath)
  | store (fn : SdPath)
  | remove (fn : SdPath)
  deriving DecidableEq, Repr

/-- The storage behind the adapter: the slot files, and the calls made so far, oldest
first. -/
structure Filesystem (Doc : Type) where
  files : SdPath → Option Doc
  calls : List FsCall

/-- What the environment decides about one `storeJson`: it succeeds, or it fails and leaves
`residue` at the name (`none`: no file). -/
inductive WriteOutcome (Doc : Type) where
  | ok
  | failed (residue : Option Doc)
  deriving DecidableEq, Repr

namespace Filesystem

variable {Doc : Type}

/-- The adapter call `stat(fn, &size) == 0`: the file exists. -/
def stat (fs : Filesystem Doc) (fn : SdPath) : Bool × Filesystem Doc :=
  ((fs.files fn).isSome, { fs with calls := fs.calls ++ [FsCall.stat fn] })

/-- The call `FilesystemUtils::loadJson`. -/
def loadJson (fs : Filesystem Doc) (fn : SdPath) : Option Doc × Filesystem Doc :=
  (fs.files fn, { fs with calls := fs.calls ++ [FsCall.load fn] })

/-- The call `FilesystemUtils::storeJson`. -/
def storeJson (fs : Filesystem Doc) (fn : SdPath) (doc : Doc) (outcome : WriteOutcome Doc) :
    Bool × Filesystem Doc :=
  match outcome with
  | WriteOutcome.ok =>
    (true, { files := fun p => if p = fn then some doc else fs.files p,
             calls := fs.calls ++ [FsCall.store fn] })
  | WriteOutcome.failed residue =>
    (false, { files := fun p => if p = fn then residue else fs.files p,
              calls := fs.calls ++ [FsCall.store fn] })

/-- The adapter call `remove(fn)`: deletes an existing file and reports whether there was
one. -/
def remove (fs : Filesystem Doc) (fn : SdPath) : Bool × Filesystem Doc :=
  ((fs.files fn).isSome, { files := fun p => if p = fn then none else fs.files p,
                           calls := fs.calls ++ [FsCall.remove fn] })

end Filesystem

namespace TransactionMeterData

variable {MV Doc : Type}

/-- The constructor `TransactionMeterData::TransactionMeterData`. -/
def new (connectorId txNr : Nat) (filesystem : Bool) : TransactionMeterData MV :=
  { connectorId := connectorId, txNr := txNr, filesystem := filesystem, mvCount := 0,
    txData := [], finalized := false }

/-- Modelled from the spec: `isFinalized()` is defined in `MeterStore.h`, which is missing;
it reads the finalized flag. -/
def isFinalized (t : TransactionMeterData MV) : Bool := t.finalized

/-- Modelled from the spec: `finalize()` is defined in `MeterStore.h`, which is missing;
idempotent, marks the log immutable without discarding the held content. -/
def finalize (t : TransactionMeterData MV) : TransactionMeterData MV :=
  { t with finalized := true }

/-- The name of the slot file with the given index. -/
def slot (t : TransactionMeterData MV) (index : Nat) : SdPath :=
  { connectorId := t.connectorId, txNr := t.txNr, index := index }

/-- Lines 60-68 of `addTxData`: append below the capacity, else overwrite `back()`. -/
def addTxDataMem (t : TransactionMeterData MV) (mv : MV) : TransactionMeterData MV :=
  if t.txData.length < MAX_STOPTXDATA_LEN then
    { t with txData := t.txData ++ [mv], mvCount := (t.mvCount + 1) % UINT_RANGE }
  else
    { t with txData := t.txData.set (t.txData.length - 1) mv }

/-- `TransactionMeterData::addTxData`. `outcome` is what the environment decides about the
`storeJson` call, should one be made. -/
def addTxData (P : Platform MV Doc) (t : TransactionMeterData MV) (fs : Filesystem Doc)
    (mv : Option MV) (outcome : WriteOutcome Doc) :
    Bool × TransactionMeterData MV × Filesystem Doc :=
  if t.isFinalized = true then
    (false, t, fs)
  else
    match mv with
    | none => (false, t, fs)
    | some m =>
      if t.filesystem = true then
        let fn := t.slot t.mvCount
        let ret := snprintfLen P fn
        if ret ≥ P.MAX_PATH_SIZE then
          (false, t, fs)
        else
          match P.toJson m with
          | none => (false, t, fs)
          | some mvDoc =>
            match fs.storeJson fn mvDoc outcome with
            | (false, fs1) => (false, t, fs1)
            | (true, fs1) => (true, t.addTxDataMem m, fs1)
      else
        (true, t.addTxDataMem m, fs)

/-- `TransactionMeterData::retrieveStopTxData`; the member is moved from and left empty. -/
def retrieveStopTxData (t : TransactionMeterData MV) : List MV × TransactionMeterData MV :=
  if t.isFinalized = true then
    ([], t)
  else
    let t1 := t.finalize
    (t1.txData, { t1 with txData := [] })

/-- The `while` loop of `TransactionMeterData::restore`, run for at most `fuel`
iterations; `none` when the iterations do not suffice. -/
def restoreLoop (P : Platform MV Doc) :
    Nat → Nat → TransactionMeterData MV → Filesystem Doc →
      Option (Bool × TransactionMeterData MV × Filesystem Doc)
  | 0, _, _, _ => none
  | fuel + 1, misses, t, fs =>
    if misses < MISSES_LIMIT then
      let fn := t.slot t.mvCount
      let ret := snprintfLen P fn
      if ret ≥ P.MAX_PATH_SIZE then
        some (false, t, fs)
      else
        match fs.loadJson fn with
        | (none, fs1) =>
          restoreLoop P fuel (misses + 1) { t with mvCount := (t.mvCount + 1) % UINT_RANGE } fs1
        | (some doc, fs1) =>
          match P.deserializeSample doc with
          | none =>
            restoreLoop P fuel (misses + 1)
              { t with mvCount := (t.mvCount + 1) % UINT_RANGE } fs1
          | some mv =>
            if t.txData.length ≥ MAX_STOPTXDATA_LEN then
              some (false, t, fs1)
            else
              restoreLoop P fuel 0
                { t with txData := t.txData ++ [mv], mvCount := (t.mvCount + 1) % UINT_RANGE }
                fs1
    else
      some (true, t, fs)

/-- Iterations that suffice for the loop of `restore` from the given log: every iteration
either adds a miss (at most `MISSES_LIMIT` in a row) or a record (at most
`MAX_STOPTXDATA_LEN` in all) or leaves the loop. -/
def restoreFuel (t : TransactionMeterData MV) : Nat :=
  (MISSES_LIMIT + 1) * (MAX_STOPTXDATA_LEN - t.txData.length + 1) + 1

/-- `TransactionMeterData::restore`. -/
def restore (P : Platform MV Doc) (t : TransactionMeterData MV) (fs : Filesystem Doc) :
    Bool × TransactionMeterData MV × Filesystem Doc :=
  if t.filesystem = false then
    (true, t, fs)
  else
    match restoreLoop P t.restoreFuel 0 t fs with
    | some r => r
    | none => (false, t, fs)

/-- A run of `addTxData` calls, one per input, in order: the results and the final log and
storage. -/
def addTxDataAll (P : Platform MV Doc) :
    TransactionMeterData MV → Filesystem Doc → List (Option MV × WriteOutcome Doc) →
      List Bool × TransactionMeterData MV × Filesystem Doc
  | t, fs, [] => ([], t, fs)
  | t, fs, (mv, outcome) :: rest =>
    match addTxData P t fs mv outcome with
    | (r, t1, fs1) =>
      match addTxDataAll P t1 fs1 rest with
      | (rs, t2, fs2) => (r :: rs, t2, fs2)

end TransactionMeterData

/-- The members of `MeterStore` (`filesystem`: whether the adapter pointer is non-null;
`txMeterData`: the weak pointers, each the allocation number of its pointee), the objects
made by `std::make_shared`, in allocation order, each with the number of `shared_ptr`
handles that callers still hold, and the storage behind the adapter. -/
structure MeterStore (MV Doc : Type) where
  filesystem : Bool
  txMeterData : List Nat
  objects : List (TransactionMeterData MV × Nat)
  fs : Filesystem Doc

namespace MeterStore

variable {MV Doc : Type}

/-- The constructor `MeterStore::MeterStore` over a given storage. -/
def new (filesystem : Bool) (fs : Filesystem Doc) : MeterStore MV Doc :=
  { filesystem := filesystem, txMeterData := [], objects := [], fs := fs }

/-- `weak_ptr::lock`: the pointee while some handle is held. -/
def lock (w : MeterStore MV Doc) (h : Nat) : Option (TransactionMeterData MV) :=
  match w.objects[h]? with
  | some (t, useCount) => if useCount > 0 then some t else none
  | none => none

/-- `weak_ptr::expired`. -/
def expired (w : MeterStore MV Doc) (h : Nat) : Bool := (w.lock h).isNone

/-- The predicate passed to `std::find_if` in `getTxMeterData` and in `remove`. -/
def isCached (w : MeterStore MV Doc) (connectorId txNr : Nat) (h : Nat) : Bool :=
  match w.lock h with
  | some txml => decide (txml.connectorId = connectorId ∧ txml.txNr = txNr)
  | none => false

/-- The statement `txMeterData.erase(std::remove_if(..expired..), txMeterData.end())`. -/
def prune (w : MeterStore MV Doc) : MeterStore MV Doc :=
  { w with txMeterData := w.txMeterData.filter (fun h => !w.expired h) }

/-- A caller receives one more handle of object `h`. -/
def retain (w : MeterStore MV Doc) (h : Nat) : MeterStore MV Doc :=
  { w with objects := w.objects.modify (fun o => (o.1, o.2 + 1)) h }

/-- A caller releases one handle of object `h`; the object is destroyed with the last. -/
def release (w : MeterStore MV Doc) (h : Nat) : MeterStore MV Doc :=
  { w with objects := w.objects.modify (fun o => (o.1, o.2 - 1)) h }

/-- Writes through a handle: the pointee of `h` becomes `t`. -/
def setObject (w : MeterStore MV Doc) (h : Nat) (t : TransactionMeterData MV) :
    MeterStore MV Doc :=
  { w with objects := w.objects.modify (fun o => (t, o.2)) h }

/-- The storage after calls on the adapter. -/
def setFs (w : MeterStore MV Doc) (fs : Filesystem Doc) : MeterStore MV Doc :=
  { w with fs := fs }

/-- `std::make_shared`: the new object gets the next allocation number and one holder,
the variable that receives it. -/
def allocate (w : MeterStore MV Doc) (tx : TransactionMeterData MV) : MeterStore MV Doc :=
  { w with objects := w.objects ++ [(tx, 1)] }

/-- `txMeterData.push_back(tx)`. -/
def register (w : MeterStore MV Doc) (h : Nat) : MeterStore MV Doc :=
  { w with txMeterData := w.txMeterData ++ [h] }

/-- The scan loop of `MeterStore::remove` (lines 222-241), for at most `fuel` iterations.
`none`: the iterations do not suffice; `some (none, _)`: the early `return false`;
`some (some mvCount, _)`: the loop was left with this count. -/
def removeScan (P : Platform MV Doc) (connectorId txNr : Nat) :
    Nat → Nat → Nat → Nat → Filesystem Doc → Option (Option Nat × Filesystem Doc)
  | 0, _, _, _, _ => none
  | fuel + 1, misses, i, mvCount, fs =>
    if misses < MISSES_LIMIT then
      let fn : SdPath := { connectorId := connectorId, txNr := txNr, index := i }
      let ret := snprintfLen P fn
      if ret ≥ P.MAX_PATH_SIZE then
        some (none, fs)
      else
        match fs.stat fn with
        | (false, fs1) =>
          removeScan P connectorId txNr fuel (misses + 1) ((i + 1) % UINT_RANGE) mvCount fs1
        | (true, fs1) =>
          removeScan P connectorId txNr fuel 0 ((i + 1) % UINT_RANGE) ((i + 1) % UINT_RANGE) fs1
    else
      some (some mvCount, fs)

/-- The deletion loop of `MeterStore::remove` (lines 246-257) with `k` iterations left.
`(none, _)`: the early `return false`; `(some success, _)`: the loop ran to its end. -/
def removeFiles (P : Platform MV Doc) (connectorId txNr mvCount : Nat) :
    Nat → Nat → Bool → Filesystem Doc → Option Bool × Filesystem Doc
  | 0, _, success, fs => (some success, fs)
  | k + 1, i, success, fs =>
    let sd := mvCount - 1 - i
    let fn : SdPath := { connectorId := connectorId, txNr := txNr, index := sd }
    let ret := snprintfLen P fn
    if ret ≥ P.MAX_PATH_SIZE then
      (none, fs)
    else
      match fs.remove fn with
      | (removed, fs1) => removeFiles P connectorId txNr mvCount k (i + 1) (success && removed) fs1

/-- `MeterStore::remove`; `fuel` bounds the scan loop, `none` when it does not suffice. -/
def remove (P : Platform MV Doc) (fuel : Nat) (w : MeterStore MV Doc)
    (connectorId txNr : Nat) : Option (Bool × MeterStore MV Doc) :=
  let cached := w.txMeterData.find? (w.isCached connectorId txNr)
  let found : Nat × MeterStore MV Doc :=
    match cached with
    | some h =>
      match w.lock h with
      | some cachedl => (P.getPathsCount cachedl, w.setObject h cachedl.finalize)
      | none => (0, w)
    | none => (0, w)
  let w1 := found.2
  if w1.filesystem = true then
    let scanned : Option (Option Nat × Filesystem Doc) :=
      if found.1 = 0 then removeScan P connectorId txNr fuel 0 0 0 w1.fs
      else some (some found.1, w1.fs)
    match scanned with
    | none => none
    | some (none, fs1) => some (false, w1.setFs fs1)
    | some (some mvCount, fs1) =>
      match removeFiles P connectorId txNr mvCount mvCount 0 true fs1 with
      | (none, fs2) => some (false, w1.setFs fs2)
      | (some success, fs2) => some (success, (w1.setFs fs2).prune)
  else
    some (true, w1.prune)

/-- `MeterStore::getTxMeterData`: the returned handle (`none`: `nullptr`) and the new state;
`fuel` bounds the scan loop of a nested `remove`, `none` when it does not suffice. -/
def getTxMeterData (P : Platform MV Doc) (fuel : Nat) (w : MeterStore MV Doc)
    (connectorId txNr : Nat) : Option (Option Nat × MeterStore MV Doc) :=
  match w.txMeterData.find? (w.isCached connectorId txNr) with
  | some h => some (some h, w.retain h)
  | none =>
    let w1 := w.prune
    let h := w1.objects.length
    let tx : TransactionMeterData MV := TransactionMeterData.new connectorId txNr w1.filesystem
    let w2 := w1.allocate tx
    if w2.filesystem = true then
      let fn : SdPath := { connectorId := connectorId, txNr := txNr, index := 0 }
      let ret := snprintfLen P fn
      if ret ≥ P.MAX_PATH_SIZE then
        some (none, w2.release h)
      else
        match w2.fs.stat fn with
        | (false, fs1) => some (some h, (w2.setFs fs1).register h)
        | (true, fs1) =>
          match tx.restore P fs1 with
          | (true, tx1, fs2) => some (some h, ((w2.setFs fs2).setObject h tx1).register h)
          | (false, tx1, fs2) =>
            match remove P fuel ((w2.setFs fs2).setObject h tx1) connectorId txNr with
            | none => none
            | some (_, w4) => some (some h, w4.register h)
    else
      some (some h, w2.register h)

/-- The call `addTxData` through handle `h`; nothing happens on a handle that is not held. -/
def addTxData (P : Platform MV Doc) (w : MeterStore MV Doc) (h : Nat) (mv : Option MV)
    (outcome : WriteOutcome Doc) : Bool × MeterStore MV Doc :=
  match w.lock h with
  | some t =>
    match t.addTxData P w.fs mv outcome with
    | (r, t1, fs1) => (r, (w.setFs fs1).setObject h t1)
  | none => (false, w)

/-- A run of `addTxData` calls through handle `h`, one per input, in order. -/
def addTxDataAll (P : Platform MV Doc) (h : Nat) :
    MeterStore MV Doc → List (Option MV × WriteOutcome Doc) → List Bool × MeterStore MV Doc
  | w, [] => ([], w)
  | w, (mv, outcome) :: rest =>
    match addTxData P w h mv outcome with
    | (r, w1) =>
      match addTxDataAll P h w1 rest with
      | (rs, w2) => (r :: rs, w2)

end MeterStore

/-! ## Calls through handles, reachable states and the registry invariant -/

namespace MeterStore

variable {MV Doc : Type}

/-- The call `retrieveStopTxData` through handle `h`; nothing happens on a handle that is
not held. -/
def retrieveStopTxData (w : MeterStore MV Doc) (h : Nat) : List MV × MeterStore MV Doc :=
  match w.lock h with
  | some t => (t.retrieveStopTxData.1, w.setObject h t.retrieveStopTxData.2)
  | none => ([], w)

/-- The call `finalize` through handle `h`. -/
def finalize (w : MeterStore MV Doc) (h : Nat) : MeterStore MV Doc :=
  match w.lock h with
  | some t => w.setObject h t.finalize
  | none => w

/-- The states of a store and its logs that calls can produce from a new store: lookups,
removals, calls through handles that are held, callers copying and releasing handles, and
the environment changing the storage. -/
inductive Reachable (P : Platform MV Doc) : MeterStore MV Doc → Prop where
  | new (filesystem : Bool) (fs : Filesystem Doc) : Reachable P (MeterStore.new filesystem fs)
  | getTxMeterData {w w1 : MeterStore MV Doc} {fuel connectorId txNr : Nat} {r : Option Nat} :
      Reachable P w → getTxMeterData P fuel w connectorId txNr = some (r, w1) → Reachable P w1
  | remove {w w1 : MeterStore MV Doc} {fuel connectorId txNr : Nat} {r : Bool} :
      Reachable P w → remove P fuel w connectorId txNr = some (r, w1) → Reachable P w1
  | addTxData {w : MeterStore MV Doc} (h : Nat) (mv : Option MV) (outcome : WriteOutcome Doc) :
      Reachable P w → Reachable P (addTxData P w h mv outcome).2
  | retrieveStopTxData {w : MeterStore MV Doc} (h : Nat) :
      Reachable P w → Reachable P (w.retrieveStopTxData h).2
  | finalize {w : MeterStore MV Doc} (h : Nat) : Reachable P w → Reachable P (w.finalize h)
  | retain {w : MeterStore MV Doc} (h : Nat) :
      Reachable P w → w.lock h ≠ none → Reachable P (w.retain h)
  | release {w : MeterStore MV Doc} (h : Nat) : Reachable P w → Reachable P (w.release h)
  | storage {w : MeterStore MV Doc} (fs : Filesystem Doc) :
      Reachable P w → Reachable P (w.setFs fs)

/-- The registry invariant: weak pointers point to allocated objects, no weak pointer
occurs twice, every object with a holder is registered, and two objects with holders
differ in their key. -/
structure Consistent (w : MeterStore MV Doc) : Prop where
  inRange : ∀ h ∈ w.txMeterData, h < w.objects.length
  nodup : w.txMeterData.Nodup
  registered : ∀ h t, w.lock h = some t → h ∈ w.txMeterData
  uniqueKey : ∀ a b ta tb, w.lock a = some ta → w.lock b = some tb →
    ta.connectorId = tb.connectorId → ta.txNr = tb.txNr → a = b

/-- A step that allocates nothing: the objects with holders afterwards had holders and the
same key before, and the registry lost at most entries whose object has no holder. -/
structure Quiet (w w1 : MeterStore MV Doc) : Prop where
  filesystem : w1.filesystem = w.filesystem
  length : w.objects.length ≤ w1.objects.length
  live : ∀ h t1, w1.lock h = some t1 →
    ∃ t, w.lock h = some t ∧ t.connectorId = t1.connectorId ∧ t.txNr = t1.txNr
  sublist : w1.txMeterData.Sublist w.txMeterData
  keeps : ∀ h ∈ w.txMeterData, w1.lock h ≠ none → h ∈ w1.txMeterData

/-- The state after `std::make_shared`: the new object has allocation number
`w.objects.length`, key `(c, n)` and one holder; registry and older objects as in a quiet
step. -/
structure Allocated (c n : Nat) (w w1 : MeterStore MV Doc) : Prop where
  filesystem : w1.filesystem = w.filesystem
  length : w.objects.length < w1.objects.length
  live : ∀ x t1, w1.lock x = some t1 →
    (x = w.objects.length ∧ t1.connectorId = c ∧ t1.txNr = n) ∨
    (∃ t, w.lock x = some t ∧ t.connectorId = t1.connectorId ∧ t.txNr = t1.txNr)
  sublist : w1.txMeterData.Sublist w.txMeterData
  keeps : ∀ x ∈ w.txMeterData, w1.lock x ≠ none → x ∈ w1.txMeterData

end MeterStore

/-! ## Definitions of the specification -/

/-- The ordered decision table of spec section 4.1, in the spec's words: the first matching
rule gives the status. `errorPresent`: some error sampler reports a code; `plug`,
`energyDemand`, `energized`: the sampler is absent (`none`) or reports the given value;
`previous`: the status emitted last. -/
def specInferenceTable (connectorId transactionId : Int) (errorPresent : Bool)
    (availability : Availability) (session : Bool) (plug energyDemand energized : Option Bool)
    (previous : OcppEvseState) : OcppEvseState :=
  if connectorId = 0 then
    match errorPresent, availability with
    | true, _ => OcppEvseState.Faulted
    | false, AVAILABILITY_INOPERATIVE => OcppEvseState.Unavailable
    | false, _ => OcppEvseState.Available
  else
    match errorPresent, availability with
    | true, _ => OcppEvseState.Faulted
    | false, AVAILABILITY_INOPERATIVE => OcppEvseState.Unavailable
    | false, _ =>
      if session = false ∧ transactionId < 0 ∧ (plug = none ∨ plug = some false) then
        OcppEvseState.Available
      else if transactionId < 0 then
        if plug = some true ∧ previous ∈ [OcppEvseState.Finishing, OcppEvseState.Charging,
            OcppEvseState.SuspendedEV, OcppEvseState.SuspendedEVSE] then
          OcppEvseState.Finishing
        else
          OcppEvseState.Preparing
      else
        match energyDemand, energized with
        | some false, _ => OcppEvseState.SuspendedEV
        | _, some false => OcppEvseState.SuspendedEVSE
        | _, _ => OcppEvseState.Charging

/-- Whether some error sampler of the connector reports a code. -/
def ConnectorStatus.errorPresent (s : ConnectorStatus) : Bool :=
  s.connectorErrorCodeSamplers.any Option.isSome

/-- The calls that change a connector; `resample` is the environment changing what the
samplers report (the first error samplers report `errors`, their number stays). -/
inductive ConnectorStatus.Call where
  | loop (now : Nat)
  | beginSession (IDTAG_LEN_MAX : Nat) (sessionIdTag : Option (List UInt8))
  | endSession
  | setTransactionId (id : Int)
  | setTransactionIdSync (id : Int)
  | setAvailability (available : Bool)
  | setConnectorPluggedSampler (connectorPlugged : Option Bool)
  | setEvRequestsEnergySampler (evRequestsEnergy : Option Bool)
  | setConnectorEnergizedSampler (connectorEnergized : Option Bool)
  | addConnectorErrorCodeSampler (connectorErrorCode : Option String)
  | resample (plug energyDemand energized : Option Bool) (errors : List (Option String))
  deriving DecidableEq, Repr

/-- The connector after one call. -/
def ConnectorStatus.call (s : ConnectorStatus) : ConnectorStatus.Call → ConnectorStatus
  | .loop now => (s.loop now).2
  | .beginSession n tag => s.beginSession n tag
  | .endSession => s.endSession
  | .setTransactionId id => s.setTransactionId id
  | .setTransactionIdSync id => s.setTransactionIdSync id
  | .setAvailability available => s.setAvailability available
  | .setConnectorPluggedSampler r => s.setConnectorPluggedSampler r
  | .setEvRequestsEnergySampler r => s.setEvRequestsEnergySampler r
  | .setConnectorEnergizedSampler r => s.setConnectorEnergizedSampler r
  | .addConnectorErrorCodeSampler r => s.addConnectorErrorCodeSampler r
  | .resample plug energyDemand energized errors =>
    { s with connectorPluggedSampler := plug, evRequestsEnergySampler := energyDemand,
             connectorEnergizedSampler := energized,
             connectorErrorCodeSamplers :=
               errors.take s.connectorErrorCodeSamplers.length ++
                 s.connectorErrorCodeSamplers.drop errors.length }

/-- The inputs of successful appends of the records `ms`: each record is present and its
write succeeds. -/
def okAppends {MV Doc : Type} (ms : List MV) : List (Option MV × WriteOutcome Doc) :=
  ms.map (fun m => (some m, WriteOutcome.ok))

/-- The slots `j, j + 1, ..` of the key `(c, n)` hold documents that deserialize to the
records `ms`, in order. -/
def Stored {MV Doc : Type} (P : Platform MV Doc) (fs : Filesystem Doc) (c n : Nat) :
    Nat → List MV → Prop
  | _, [] => True
  | j, m :: ms =>
    (∃ doc, fs.files ⟨c, n, j⟩ = some doc ∧ P.deserializeSample doc = some m) ∧
      Stored P fs c n (j + 1) ms

/-! ## Concrete inputs -/

/-- A platform over numbers: records and documents are numbers, serialisation always
succeeds, names of up to 63 characters fit. -/
def natPlatform : Platform Nat Nat :=
  { dirLen := 0, MAX_PATH_SIZE := 64, toJson := some, deserializeSample := some,
    getPathsCount := fun t => t.mvCount }

/-- A storage without files, on which no call was made. -/
def emptyFs : Filesystem Nat := { files := fun _ => none, calls := [] }

/-- The inputs of `n` appends of the records `100, 101, ..`, every write succeeding. -/
def okInputs (n : Nat) : List (Option Nat × WriteOutcome Nat) :=
  (List.range n).map (fun i => (some (100 + i), WriteOutcome.ok))

/-- A connector 1 with a plug sampler that reports a plug, a session, no error sampler,
Operative, without a transaction. -/
def pluggedConnector : ConnectorStatus :=
  { connectorId := 1, transactionId := -1, transactionIdSync := -1,
    availability := AVAILABILITY_OPERATIVE, session := true, idTag := ConnectorStatus.defaultIdTag,
    currentStatus := OcppEvseState.Preparing, connectorPluggedSampler := some true,
    evRequestsEnergySampler := none, connectorEnergizedSampler := none,
    connectorErrorCodeSamplers := [], saveCount := 0 }

/-- A connector 1 in transaction 5, Operative, with a session and a plug. -/
def chargingConnector : ConnectorStatus :=
  { connectorId := 1, transactionId := 5, transactionIdSync := 5,
    availability := AVAILABILITY_OPERATIVE, session := true, idTag := ConnectorStatus.defaultIdTag,
    currentStatus := OcppEvseState.Charging, connectorPluggedSampler := some true,
    evRequestsEnergySampler := none, connectorEnergizedSampler := none,
    connectorErrorCodeSamplers := [], saveCount := 0 }

/-- The store over an empty storage after the first `getTxMeterData` for connector 1,
transaction 7; the log has handle 0. -/
def openedStore : MeterStore Nat Nat :=
  match MeterStore.getTxMeterData natPlatform 0 (MeterStore.new true emptyFs) 1 7 with
  | some (_, w) => w
  | none => MeterStore.new true emptyFs

/-- The store `openedStore` after `n` successful appends through handle 0. -/
def appendedStore (n : Nat) : MeterStore Nat Nat :=
  (MeterStore.addTxDataAll natPlatform 0 openedStore (okInputs n)).2

/-- The log of connector 1, transaction 7 after its first append. -/
def oneRecordLog : TransactionMeterData Nat :=
  { connectorId := 1, txNr := 7, filesystem := true, mvCount := 1, txData := [100],
    finalized := false }

/-- A connector 1 whose transaction id is the transitional 0, with a session and a plug
sampler that reports no plug. -/
def pendingConnector : ConnectorStatus :=
  { connectorId := 1, transactionId := 0, transactionIdSync := -1,
    availability := AVAILABILITY_OPERATIVE, session := true, idTag := ConnectorStatus.defaultIdTag,
    currentStatus := OcppEvseState.Preparing, connectorPluggedSampler := some false,
    evRequestsEnergySampler := none, connectorEnergizedSampler := none,
    connectorErrorCodeSamplers := [], saveCount := 0 }

/-- A connector 1 without a transaction or session whose status was never reported; the
plug sampler reports no plug. -/
def idleConnector : ConnectorStatus :=
  { connectorId := 1, transactionId := -1, transactionIdSync := -1,
    availability := AVAILABILITY_OPERATIVE, session := false, idTag := [],
    currentStatus := OcppEvseState.NOT_SET, connectorPluggedSampler := some false,
    evRequestsEnergySampler := none, connectorEnergizedSampler := none,
    connectorErrorCodeSamplers := [none, some "GroundFailure"], saveCount := 0 }

/-- The calls `loadJson` on the `k` slots `j, j + 1, ..` of the key `(c, n)`, in order. -/
def loadCalls (c n : Nat) : Nat → Nat → List FsCall
  | _, 0 => []
  | j, k + 1 => FsCall.load ⟨c, n, j⟩ :: loadCalls c n (j + 1) k

/-- The storage after three successful appends of the records 100, 101, 102 to a fresh log
of connector 1, transaction 7: the slots 0, 1, 2. -/
def threeSlotFs : Filesystem Nat :=
  (TransactionMeterData.addTxDataAll natPlatform (TransactionMeterData.new 1 7 true) emptyFs
    (okInputs 3)).2.2

/-- The result of `restore` on a new log of connector 1, transaction 7 over `threeSlotFs`. -/
def restoredThree : Bool × TransactionMeterData Nat × Filesystem Nat :=
  (TransactionMeterData.new 1 7 true).restore natPlatform threeSlotFs

/-- The result of a successful append of the record 103 to the restored log. -/
def appendedAfterRestore : Bool × TransactionMeterData Nat × Filesystem Nat :=
  restoredThree.2.1.addTxData natPlatform restoredThree.2.2 (some 103) WriteOutcome.ok

/-- The record a slot of the key `(c, n)` yields to the scan of `restore`: `none` when the
slot is missing or its document does not deserialize. -/
def slotRecord {MV Doc : Type} (P : Platform MV Doc) (files : SdPath → Option Doc)
    (c n i : Nat) : Option MV :=
  (files ⟨c, n, i⟩).bind P.deserializeSample

/-- Three consecutive slots from `g` on that are missing or do not deserialize. -/
def gapAt {MV Doc : Type} (P : Platform MV Doc) (files : SdPath → Option Doc)
    (c n g : Nat) : Prop :=
  slotRecord P files c n g = none ∧ slotRecord P files c n (g + 1) = none ∧
    slotRecord P files c n (g + 2) = none

/-- The records of the deserializable slots below `j`, in slot order. -/
def recordsBelow {MV Doc : Type} (P : Platform MV Doc) (files : SdPath → Option Doc)
    (c n j : Nat) : List MV :=
  (List.range j).filterMap (slotRecord P files c n)

/-- The invariant of the loop of `restore` on a new log of the key `(c, n)`: the log holds
the records of the slots below the slot counter, the last `misses` slots below it gave no
record and the one before them did, there is no gap of three below the counter but one
that ends at it, and the counter is bounded by the held records and the misses. -/
structure ScanInv {MV Doc : Type} (P : Platform MV Doc) (files : SdPath → Option Doc)
    (c n misses : Nat) (t : TransactionMeterData MV) : Prop where
  connectorId : t.connectorId = c
  txNr : t.txNr = n
  records : t.txData = recordsBelow P files c n t.mvCount
  missesLe : misses ≤ t.mvCount
  trailing : ∀ i, t.mvCount - misses ≤ i → i < t.mvCount → slotRecord P files c n i = none
  before : misses < t.mvCount → slotRecord P files c n (t.mvCount - misses - 1) ≠ none
  nogap : ∀ g, g + 3 ≤ t.mvCount → gapAt P files c n g → 3 ≤ misses ∧ g + 3 = t.mvCount
  bound : t.mvCount ≤ 3 * t.txData.length + misses
  room : t.txData.length ≤ MAX_STOPTXDATA_LEN

/-- The storage after eleven successful appends to a fresh log of connector 1,
transaction 7: the slots 0 to 10. -/
def elevenSlotFs : Filesystem Nat :=
  (TransactionMeterData.addTxDataAll natPlatform (TransactionMeterData.new 1 7 true) emptyFs
    (okInputs 11)).2.2

/-- A storage with infinitely many slots of every key: every third slot, from slot 2 on,
holds a record. -/
def everyThirdFs : Filesystem Nat :=
  { files := fun p => if p.index % 3 = 2 then some p.index else none, calls := [] }

/-- The storage `elevenSlotFs` with one more slot of the key behind three missing ones:
slot 14 holds the record 114. -/
def elevenAndStraySlotFs : Filesystem Nat :=
  (elevenSlotFs.storeJson ⟨1, 7, 14⟩ 114 WriteOutcome.ok).2

/-! ## Theorems: status inference -/

theorem ConnectorStatus.getErrorCodeFrom_ne_none (l : List (Option String)) :
    ConnectorStatus.getErrorCodeFrom l ≠ none ↔ l.any Option.isSome = true := by
  induction l with
  | nil => simp [ConnectorStatus.getErrorCodeFrom]
  | cons err rest ih =>
    cases err with
    | none => simpa [ConnectorStatus.getErrorCodeFrom] using ih
    | some e => simp [ConnectorStatus.getErrorCodeFrom]

theorem ConnectorStatus.getErrorCode_ne_none (s : ConnectorStatus) :
    s.getErrorCode ≠ none ↔ s.errorPresent = true := by
  unfold ConnectorStatus.getErrorCode ConnectorStatus.errorPresent
  exact ConnectorStatus.getErrorCodeFrom_ne_none _

theorem ConnectorStatus.getErrorCode_eq_none (s : ConnectorStatus) :
    s.getErrorCode = none ↔ s.errorPresent = false := by
  have h := ConnectorStatus.getErrorCode_ne_none s
  constructor
  · intro h1
    cases hp : s.errorPresent with
    | false => rfl
    | true => exact absurd h1 (h.mpr hp)
  · intro h1
    by_contra h2
    rw [h.mp h2] at h1
    cases h1

/-- C1: for connector 0, and for a connector with a positive id and a transaction id other
than 0, `inferenceStatus` returns what the ordered decision table of the specification
gives; for connector 0 that is Available, Unavailable or Faulted. -/
theorem inferenceStatus_eq_specInferenceTable (s : ConnectorStatus)
    (h : s.connectorId = 0 ∨ (s.connectorId > 0 ∧ s.transactionId ≠ 0)) :
    s.inferenceStatus =
        specInferenceTable s.connectorId s.transactionId s.errorPresent s.availability
          s.session s.connectorPluggedSampler s.evRequestsEnergySampler
          s.connectorEnergizedSampler s.currentStatus ∧
      (s.connectorId = 0 →
        s.inferenceStatus = OcppEvseState.Available ∨
        s.inferenceStatus = OcppEvseState.Unavailable ∨
        s.inferenceStatus = OcppEvseState.Faulted) := by
  have he := ConnectorStatus.getErrorCode_ne_none s
  have he0 := ConnectorStatus.getErrorCode_eq_none s
  simp only [ConnectorStatus.inferenceStatus, ConnectorStatus.getTransactionId,
    specInferenceTable]
  by_cases hc : s.connectorId = 0
  · cases hp : s.errorPresent
    · have h1 : s.getErrorCode = none := he0.mpr hp
      cases hav : s.availability <;> simp [hc, h1]
    · have h1 : s.getErrorCode ≠ none := he.mpr hp
      simp [hc, h1]
  · have htx : s.transactionId ≠ 0 := by
      rcases h with h | h
      · exact absurd h hc
      · exact h.2
    have hle : s.transactionId ≤ 0 ↔ s.transactionId < 0 := by omega
    refine ⟨?_, fun h0 => absurd h0 hc⟩
    cases hp : s.errorPresent
    · have h1 : s.getErrorCode = none := he0.mpr hp
      simp only [hc, h1, hle, if_false, ne_eq, not_true_eq_false]
      cases hav : s.availability <;> simp only [reduceCtorEq, if_false, if_true]
      all_goals
        by_cases h0 : s.transactionId < 0 <;>
          rcases hpl : s.connectorPluggedSampler with _ | _ | _ <;>
          rcases hd : s.evRequestsEnergySampler with _ | _ | _ <;>
          rcases hen : s.connectorEnergizedSampler with _ | _ | _ <;>
          simp [h0]
    · have h1 : s.getErrorCode ≠ none := he.mpr hp
      simp [hc, h1]

/-- Witness for C1: connector 1 without a transaction (id -1). -/
theorem inferenceStatus_eq_specInferenceTable_witness :
    (pluggedConnector.connectorId = 0 ∨
        (pluggedConnector.connectorId > 0 ∧ pluggedConnector.transactionId ≠ 0)) ∧
      pluggedConnector.inferenceStatus = OcppEvseState.Preparing :=
  ⟨by decide, by
    rw [(inferenceStatus_eq_specInferenceTable pluggedConnector (by decide)).1]; decide⟩

/-! ## Theorems: appending to a transaction log -/

namespace TransactionMeterData

variable {MV Doc : Type}

theorem addTxDataMem_length_le (t : TransactionMeterData MV) (mv : MV)
    (h : t.txData.length ≤ MAX_STOPTXDATA_LEN) :
    (t.addTxDataMem mv).txData.length ≤ MAX_STOPTXDATA_LEN := by
  unfold addTxDataMem
  split
  · simp only [List.length_append, List.length_singleton]; omega
  · simpa using h

theorem addTxData_finalized (P : Platform MV Doc) (t : TransactionMeterData MV)
    (fs : Filesystem Doc) (mv : Option MV) (outcome : WriteOutcome Doc)
    (hf : t.finalized = true) : t.addTxData P fs mv outcome = (false, t, fs) := by
  simp [addTxData, isFinalized, hf]

theorem addTxData_null (P : Platform MV Doc) (t : TransactionMeterData MV)
    (fs : Filesystem Doc) (outcome : WriteOutcome Doc) :
    t.addTxData P fs none outcome = (false, t, fs) := by
  simp [addTxData]

theorem addTxData_volatile (P : Platform MV Doc) (t : TransactionMeterData MV)
    (fs : Filesystem Doc) (m : MV) (outcome : WriteOutcome Doc)
    (hf : t.finalized = false) (hfs : t.filesystem = false) :
    t.addTxData P fs (some m) outcome = (true, t.addTxDataMem m, fs) := by
  simp [addTxData, isFinalized, hf, hfs]

theorem addTxData_too_long (P : Platform MV Doc) (t : TransactionMeterData MV)
    (fs : Filesystem Doc) (m : MV) (outcome : WriteOutcome Doc)
    (hfs : t.filesystem = true) (hret : P.MAX_PATH_SIZE ≤ snprintfLen P (t.slot t.mvCount)) :
    t.addTxData P fs (some m) outcome = (false, t, fs) := by
  simp [addTxData, hfs, hret]

theorem addTxData_not_ready (P : Platform MV Doc) (t : TransactionMeterData MV)
    (fs : Filesystem Doc) (m : MV) (outcome : WriteOutcome Doc)
    (hfs : t.filesystem = true) (hj : P.toJson m = none) :
    t.addTxData P fs (some m) outcome = (false, t, fs) := by
  simp [addTxData, hfs, hj]

theorem addTxData_stored (P : Platform MV Doc) (t : TransactionMeterData MV)
    (fs : Filesystem Doc) (m : MV) (doc : Doc)
    (hf : t.finalized = false) (hfs : t.filesystem = true)
    (hret : snprintfLen P (t.slot t.mvCount) < P.MAX_PATH_SIZE) (hj : P.toJson m = some doc) :
    t.addTxData P fs (some m) WriteOutcome.ok =
      (true, t.addTxDataMem m, (fs.storeJson (t.slot t.mvCount) doc WriteOutcome.ok).2) := by
  have hret1 : ¬ P.MAX_PATH_SIZE ≤ snprintfLen P (t.slot t.mvCount) := by omega
  simp [addTxData, isFinalized, hf, hfs, hret1, hj, Filesystem.storeJson]

theorem addTxData_write_failed (P : Platform MV Doc) (t : TransactionMeterData MV)
    (fs : Filesystem Doc) (m : MV) (doc : Doc) (residue : Option Doc)
    (hf : t.finalized = false) (hfs : t.filesystem = true)
    (hret : snprintfLen P (t.slot t.mvCount) < P.MAX_PATH_SIZE) (hj : P.toJson m = some doc) :
    t.addTxData P fs (some m) (WriteOutcome.failed residue) =
      (false, t,
        (fs.storeJson (t.slot t.mvCount) doc (WriteOutcome.failed residue)).2) := by
  have hret1 : ¬ P.MAX_PATH_SIZE ≤ snprintfLen P (t.slot t.mvCount) := by omega
  simp [addTxData, isFinalized, hf, hfs, hret1, hj, Filesystem.storeJson]

/-- What a call of `addTxData` that returns `true` has done. -/
theorem addTxData_true (P : Platform MV Doc) (t : TransactionMeterData MV)
    (fs : Filesystem Doc) (mv : Option MV) (outcome : WriteOutcome Doc)
    (h : (t.addTxData P fs mv outcome).1 = true) :
    ∃ m, mv = some m ∧ t.finalized = false ∧
      (t.addTxData P fs mv outcome).2.1 = t.addTxDataMem m ∧
      (t.filesystem = false → (t.addTxData P fs mv outcome).2.2 = fs) ∧
      (t.filesystem = true →
        snprintfLen P (t.slot t.mvCount) < P.MAX_PATH_SIZE ∧
        ∃ doc, P.toJson m = some doc ∧ outcome = WriteOutcome.ok ∧
          (t.addTxData P fs mv outcome).2.2 =
            (fs.storeJson (t.slot t.mvCount) doc WriteOutcome.ok).2) := by
  cases hf : t.finalized
  · cases mv with
    | none => rw [addTxData_null] at h; cases h
    | some m =>
      refine ⟨m, rfl, rfl, ?_⟩
      cases hfs : t.filesystem
      · rw [addTxData_volatile P t fs m outcome hf hfs]
        simp
      · by_cases hret : P.MAX_PATH_SIZE ≤ snprintfLen P (t.slot t.mvCount)
        · rw [addTxData_too_long P t fs m outcome hfs hret] at h; cases h
        · have hret1 : snprintfLen P (t.slot t.mvCount) < P.MAX_PATH_SIZE := by omega
          cases hj : P.toJson m with
          | none => rw [addTxData_not_ready P t fs m outcome hfs hj] at h; cases h
          | some doc =>
            cases outcome with
            | ok =>
              rw [addTxData_stored P t fs m doc hf hfs hret1 hj]
              exact ⟨rfl, fun hc => Bool.noConfusion hc, fun _ => ⟨hret1, doc, rfl, rfl, rfl⟩⟩
            | failed r =>
              rw [addTxData_write_failed P t fs m doc r hf hfs hret1 hj] at h; cases h
  · rw [addTxData_finalized P t fs mv outcome hf] at h; cases h

/-- A call of `addTxData` that returns `false` leaves the log as it was. -/
theorem addTxData_false (P : Platform MV Doc) (t : TransactionMeterData MV)
    (fs : Filesystem Doc) (mv : Option MV) (outcome : WriteOutcome Doc)
    (h : (t.addTxData P fs mv outcome).1 = false) :
    (t.addTxData P fs mv outcome).2.1 = t := by
  cases hf : t.finalized
  · cases mv with
    | none => rw [addTxData_null]
    | some m =>
      cases hfs : t.filesystem
      · rw [addTxData_volatile P t fs m outcome hf hfs] at h; cases h
      · by_cases hret : P.MAX_PATH_SIZE ≤ snprintfLen P (t.slot t.mvCount)
        · rw [addTxData_too_long P t fs m outcome hfs hret]
        · have hret1 : snprintfLen P (t.slot t.mvCount) < P.MAX_PATH_SIZE := by omega
          cases hj : P.toJson m with
          | none => rw [addTxData_not_ready P t fs m outcome hfs hj]
          | some doc =>
            cases outcome with
            | ok => rw [addTxData_stored P t fs m doc hf hfs hret1 hj] at h; cases h
            | failed r => rw [addTxData_write_failed P t fs m doc r hf hfs hret1 hj]
  · rw [addTxData_finalized P t fs mv outcome hf]

theorem addTxData_length_le (P : Platform MV Doc) (t : TransactionMeterData MV)
    (fs : Filesystem Doc) (mv : Option MV) (outcome : WriteOutcome Doc)
    (h : t.txData.length ≤ MAX_STOPTXDATA_LEN) :
    (t.addTxData P fs mv outcome).2.1.txData.length ≤ MAX_STOPTXDATA_LEN := by
  cases hr : (t.addTxData P fs mv outcome).1
  · rw [addTxData_false P t fs mv outcome hr]; exact h
  · obtain ⟨m, -, -, hm, -⟩ := addTxData_true P t fs mv outcome hr
    rw [hm]; exact addTxDataMem_length_le t m h

theorem addTxDataAll_length_le (P : Platform MV Doc)
    (inputs : List (Option MV × WriteOutcome Doc)) :
    ∀ (t : TransactionMeterData MV) (fs : Filesystem Doc),
      t.txData.length ≤ MAX_STOPTXDATA_LEN →
      (addTxDataAll P t fs inputs).2.1.txData.length ≤ MAX_STOPTXDATA_LEN := by
  induction inputs with
  | nil => intro t fs h; simpa [addTxDataAll] using h
  | cons x rest ih =>
    intro t fs h
    obtain ⟨mv, outcome⟩ := x
    have h1 := addTxData_length_le P t fs mv outcome h
    have h2 := ih (t.addTxData P fs mv outcome).2.1 (t.addTxData P fs mv outcome).2.2 h1
    simpa [addTxDataAll] using h2

end TransactionMeterData

/-- C2: from a log that holds at most 10 records, no run of `addTxData` calls makes the
held sequence longer than 10; a call that returns `true` on a log of length below 10
appends the record, and on a log of length 10 keeps the length, puts the record at index 9
and keeps the elements at the indices 0 to 8. -/
theorem addTxData_capacity {MV Doc : Type} (P : Platform MV Doc)
    (t : TransactionMeterData MV) (fs : Filesystem Doc)
    (hlen : t.txData.length ≤ MAX_STOPTXDATA_LEN) :
    (∀ inputs, (TransactionMeterData.addTxDataAll P t fs inputs).2.1.txData.length ≤ 10) ∧
    (∀ mv outcome, (t.addTxData P fs mv outcome).1 = true →
      ∃ m, mv = some m ∧
        (t.txData.length < 10 →
          (t.addTxData P fs mv outcome).2.1.txData = t.txData ++ [m]) ∧
        (t.txData.length = 10 →
          (t.addTxData P fs mv outcome).2.1.txData.length = 10 ∧
          (t.addTxData P fs mv outcome).2.1.txData[9]? = some m ∧
          ∀ i, i < 9 → (t.addTxData P fs mv outcome).2.1.txData[i]? = t.txData[i]?)) := by
  refine ⟨fun inputs => TransactionMeterData.addTxDataAll_length_le P inputs t fs hlen, ?_⟩
  intro mv outcome h
  obtain ⟨m, hmv, -, hm, -⟩ := TransactionMeterData.addTxData_true P t fs mv outcome h
  refine ⟨m, hmv, ?_, ?_⟩
  · intro hlt
    rw [hm]
    simp [TransactionMeterData.addTxDataMem, MAX_STOPTXDATA_LEN, hlt]
  · intro heq
    rw [hm]
    have hnlt : ¬ t.txData.length < MAX_STOPTXDATA_LEN := by
      simp [MAX_STOPTXDATA_LEN, heq]
    rw [TransactionMeterData.addTxDataMem, if_neg hnlt]
    refine ⟨?_, ?_, ?_⟩
    · simp [heq]
    · simp [List.getElem?_set, heq]
    · intro i hi
      have hne : ¬ (9 = i) := by omega
      simp [List.getElem?_set, heq, hne]

/-- Witness for C2: a fresh storage-backed log, twelve appends, and its first append. -/
theorem addTxData_capacity_witness :
    (TransactionMeterData.new 1 7 true : TransactionMeterData Nat).txData.length
        ≤ MAX_STOPTXDATA_LEN ∧
      (TransactionMeterData.addTxDataAll natPlatform (TransactionMeterData.new 1 7 true)
        emptyFs (okInputs 12)).2.1.txData.length ≤ 10 ∧
      ((TransactionMeterData.new 1 7 true).addTxData natPlatform emptyFs (some 100)
        WriteOutcome.ok).2.1.txData = [100] :=
  ⟨by decide,
    (addTxData_capacity natPlatform (TransactionMeterData.new 1 7 true) emptyFs
      (by decide)).1 (okInputs 12),
    by
      obtain ⟨m, hm, h1, -⟩ :=
        (addTxData_capacity natPlatform (TransactionMeterData.new 1 7 true) emptyFs
          (by decide)).2 (some 100) WriteOutcome.ok (by decide)
      cases hm
      exact h1 (by decide)⟩

/-- C3: on a fresh storage-backed log of connector 1, transaction 7, the eleventh
successful `addTxData` stores its record (110) in slot 10; slot 9 keeps the tenth record
(109), while the held sequence has the new record at index 9. -/
theorem addTxData_eleventh_slot :
    (TransactionMeterData.addTxDataAll natPlatform (TransactionMeterData.new 1 7 true)
        emptyFs (okInputs 11)).1 = List.replicate 11 true ∧
      (TransactionMeterData.addTxDataAll natPlatform (TransactionMeterData.new 1 7 true)
        emptyFs (okInputs 11)).2.2.files ⟨1, 7, 10⟩ = some 110 ∧
      (TransactionMeterData.addTxDataAll natPlatform (TransactionMeterData.new 1 7 true)
        emptyFs (okInputs 11)).2.2.files ⟨1, 7, 9⟩ = some 109 ∧
      (TransactionMeterData.addTxDataAll natPlatform (TransactionMeterData.new 1 7 true)
        emptyFs (okInputs 11)).2.1.txData[9]? = some 110 ∧
      (TransactionMeterData.addTxDataAll natPlatform (TransactionMeterData.new 1 7 true)
        emptyFs (okInputs 11)).2.2.calls.getLast? = some (FsCall.store ⟨1, 7, 10⟩) := by
  decide

/-- C4: after eleven successful appends to a fresh storage-backed log of connector 1,
transaction 7, `restore` on a new log of that key returns `false`, and what it holds
(the records 100 to 109) is not what the first log held (100 to 108, then 110). -/
theorem restore_after_eleven_appends :
    ((TransactionMeterData.new 1 7 true).restore natPlatform
        (TransactionMeterData.addTxDataAll natPlatform (TransactionMeterData.new 1 7 true)
          emptyFs (okInputs 11)).2.2).1 = false ∧
      ((TransactionMeterData.new 1 7 true).restore natPlatform
        (TransactionMeterData.addTxDataAll natPlatform (TransactionMeterData.new 1 7 true)
          emptyFs (okInputs 11)).2.2).2.1.txData
        = [100, 101, 102, 103, 104, 105, 106, 107, 108, 109] ∧
      (TransactionMeterData.addTxDataAll natPlatform (TransactionMeterData.new 1 7 true)
        emptyFs (okInputs 11)).2.1.txData
        = [100, 101, 102, 103, 104, 105, 106, 107, 108, 110] ∧
      (TransactionMeterData.addTxDataAll natPlatform (TransactionMeterData.new 1 7 true)
        emptyFs (okInputs 11)).1 = List.replicate 11 true := by
  decide

/-! ## Theorems: retrieving and rejecting -/

theorem TransactionMeterData.retrieveStopTxData_finalized {MV : Type}
    (t : TransactionMeterData MV) (h : t.finalized = true) :
    t.retrieveStopTxData = ([], t) := by
  simp [TransactionMeterData.retrieveStopTxData, TransactionMeterData.isFinalized, h]

theorem TransactionMeterData.retrieveStopTxData_iterate {MV : Type}
    (t : TransactionMeterData MV) (h : t.finalized = true) (k : Nat) :
    (fun x : TransactionMeterData MV => x.retrieveStopTxData.2)^[k] t = t := by
  induction k with
  | zero => rfl
  | succ k ih =>
    rw [Function.iterate_succ_apply,
      TransactionMeterData.retrieveStopTxData_finalized t h]
    exact ih

/-- C5: on a log that is not finalized, `retrieveStopTxData` returns the held records in
order and leaves the log finalized; every later call, after any number `k` of calls in
between, returns the empty sequence and leaves the log (held sequence, slot counter,
finalized flag) as it was. -/
theorem retrieveStopTxData_once {MV : Type} (t : TransactionMeterData MV)
    (h : t.finalized = false) :
    t.retrieveStopTxData.1 = t.txData ∧
      t.retrieveStopTxData.2.isFinalized = true ∧
      ∀ k : Nat,
        ((fun x : TransactionMeterData MV => x.retrieveStopTxData.2)^[k]
            t.retrieveStopTxData.2).retrieveStopTxData
          = ([], t.retrieveStopTxData.2) := by
  have h1 : t.retrieveStopTxData.2.finalized = true := by
    simp [TransactionMeterData.retrieveStopTxData, TransactionMeterData.isFinalized, h,
      TransactionMeterData.finalize]
  refine ⟨?_, h1, ?_⟩
  · simp [TransactionMeterData.retrieveStopTxData, TransactionMeterData.isFinalized, h,
      TransactionMeterData.finalize]
  · intro k
    rw [TransactionMeterData.retrieveStopTxData_iterate _ h1 k]
    exact TransactionMeterData.retrieveStopTxData_finalized _ h1

/-- Witness for C5: the log after three appends; the first retrieval returns the three
records, the next one nothing. -/
theorem retrieveStopTxData_once_witness :
    (TransactionMeterData.addTxDataAll natPlatform (TransactionMeterData.new 1 7 true)
        emptyFs (okInputs 3)).2.1.finalized = false ∧
      (TransactionMeterData.addTxDataAll natPlatform (TransactionMeterData.new 1 7 true)
        emptyFs (okInputs 3)).2.1.retrieveStopTxData.1 = [100, 101, 102] ∧
      (TransactionMeterData.addTxDataAll natPlatform (TransactionMeterData.new 1 7 true)
        emptyFs (okInputs 3)).2.1.retrieveStopTxData.2.retrieveStopTxData.1 = [] :=
  ⟨by decide,
    by
      rw [(retrieveStopTxData_once (TransactionMeterData.addTxDataAll natPlatform
        (TransactionMeterData.new 1 7 true) emptyFs (okInputs 3)).2.1 (by decide)).1]
      decide,
    by
      have h := (retrieveStopTxData_once (TransactionMeterData.addTxDataAll natPlatform
        (TransactionMeterData.new 1 7 true) emptyFs (okInputs 3)).2.1 (by decide)).2.2 0
      exact congrArg Prod.fst h⟩

/-- C6: `addTxData` returns `false` exactly when the log is finalized, or the record is
null, or the adapter is present and the name does not fit the buffer, the record has no
document, or the write fails. When it returns `false` the log is as before, and when the
log is finalized or the record null the storage is as before and no call was made on it. -/
theorem addTxData_rejects {MV Doc : Type} (P : Platform MV Doc)
    (t : TransactionMeterData MV) (fs : Filesystem Doc) (mv : Option MV)
    (outcome : WriteOutcome Doc) :
    ((t.addTxData P fs mv outcome).1 = false ↔
        t.isFinalized = true ∨ mv = none ∨
        (t.filesystem = true ∧ ∃ m, mv = some m ∧
          (P.MAX_PATH_SIZE ≤ snprintfLen P (t.slot t.mvCount) ∨ P.toJson m = none ∨
            outcome ≠ WriteOutcome.ok))) ∧
      ((t.addTxData P fs mv outcome).1 = false → (t.addTxData P fs mv outcome).2.1 = t) ∧
      (t.isFinalized = true ∨ mv = none →
        (t.addTxData P fs mv outcome).2.2.files = fs.files ∧
        (t.addTxData P fs mv outcome).2.2.calls = fs.calls) := by
  refine ⟨?_, TransactionMeterData.addTxData_false P t fs mv outcome, ?_⟩
  · constructor
    · intro h
      cases hf : t.finalized
      · right
        cases mv with
        | none => left; rfl
        | some m =>
          right
          cases hfs : t.filesystem
          · rw [TransactionMeterData.addTxData_volatile P t fs m outcome hf hfs] at h
            cases h
          · refine ⟨rfl, m, rfl, ?_⟩
            by_cases hret : P.MAX_PATH_SIZE ≤ snprintfLen P (t.slot t.mvCount)
            · exact Or.inl hret
            · right
              have hret1 : snprintfLen P (t.slot t.mvCount) < P.MAX_PATH_SIZE := by omega
              cases hj : P.toJson m with
              | none => exact Or.inl rfl
              | some doc =>
                right
                intro ho
                subst ho
                rw [TransactionMeterData.addTxData_stored P t fs m doc hf hfs hret1 hj] at h
                cases h
      · left; exact hf
    · intro h
      by_contra hne
      have htrue : (t.addTxData P fs mv outcome).1 = true := by
        cases hb : (t.addTxData P fs mv outcome).1
        · exact absurd hb hne
        · rfl
      obtain ⟨m, hmv, hfin, -, -, hst⟩ :=
        TransactionMeterData.addTxData_true P t fs mv outcome htrue
      rcases h with h | h | ⟨hfs, m', hm', h⟩
      · rw [TransactionMeterData.isFinalized, hfin] at h; cases h
      · rw [h] at hmv; cases hmv
      · obtain ⟨hlen, doc, hdoc, hok, -⟩ := hst hfs
        rw [hmv] at hm'
        cases hm'
        rcases h with h | h | h
        · omega
        · rw [h] at hdoc; cases hdoc
        · exact h hok
  · intro h
    rcases h with h | h
    · rw [TransactionMeterData.addTxData_finalized P t fs mv outcome h]
      exact ⟨rfl, rfl⟩
    · subst h
      rw [TransactionMeterData.addTxData_null]
      exact ⟨rfl, rfl⟩

/-- Witness for C6: a finalized log rejects a record, stays as it is and leaves the
storage untouched. -/
theorem addTxData_rejects_witness :
    ((TransactionMeterData.new 1 7 true : TransactionMeterData Nat).finalize.addTxData
        natPlatform emptyFs (some 100) WriteOutcome.ok).1 = false ∧
      ((TransactionMeterData.new 1 7 true : TransactionMeterData Nat).finalize.addTxData
        natPlatform emptyFs (some 100) WriteOutcome.ok).2.1
        = (TransactionMeterData.new 1 7 true).finalize ∧
      ((TransactionMeterData.new 1 7 true : TransactionMeterData Nat).finalize.addTxData
        natPlatform emptyFs (some 100) WriteOutcome.ok).2.2.calls = [] :=
  ⟨(addTxData_rejects natPlatform (TransactionMeterData.new 1 7 true).finalize emptyFs
      (some 100) WriteOutcome.ok).1.mpr (Or.inl (by decide)),
    (addTxData_rejects natPlatform (TransactionMeterData.new 1 7 true).finalize emptyFs
      (some 100) WriteOutcome.ok).2.1
      ((addTxData_rejects natPlatform (TransactionMeterData.new 1 7 true).finalize emptyFs
        (some 100) WriteOutcome.ok).1.mpr (Or.inl (by decide))),
    ((addTxData_rejects natPlatform (TransactionMeterData.new 1 7 true).finalize emptyFs
      (some 100) WriteOutcome.ok).2.2 (Or.inl (by decide))).2⟩

/-! ## Theorems: the connector state machine -/

namespace ConnectorStatus

theorem loopStatus_availability (s : ConnectorStatus) (now : Nat) :
    (s.loopStatus now).2.availability = s.availability ∧
      (s.loopStatus now).2.transactionId = s.transactionId := by
  unfold loopStatus
  simp only
  split <;> exact ⟨rfl, rfl⟩

theorem loopStatus_ne_start (s : ConnectorStatus) (now : Nat) (c : Int) :
    (s.loopStatus now).1 ≠ some (OcppMessage.StartTransaction c) := by
  unfold loopStatus
  simp only
  split <;> simp

theorem loop_availability (s : ConnectorStatus) (now : Nat) :
    (s.loop now).2.availability = s.loopCommit.availability ∧
      (s.loop now).2.transactionId = s.loopCommit.transactionId := by
  unfold loop
  simp only
  split
  · split
    · split
      · exact ⟨rfl, rfl⟩
      · exact loopStatus_availability _ _
    · split
      · exact ⟨rfl, rfl⟩
      · exact loopStatus_availability _ _
  · exact loopStatus_availability _ _

theorem loopCommit_transactionId (s : ConnectorStatus) :
    s.loopCommit.transactionId = s.transactionId := by
  unfold loopCommit
  split <;> rfl

end ConnectorStatus

/-- C9: with a transaction running (`transactionId > 0`), `setAvailability(false)` sets
InoperativeScheduled; `loop` keeps InoperativeScheduled and the transaction id while the
id is positive; after `setTransactionId(-1)` the next `loop` sets Inoperative; and no call
turns InoperativeScheduled into Inoperative from a state whose transaction id is
positive. -/
theorem setAvailability_deferred (s : ConnectorStatus) (htx : s.transactionId > 0) :
    (s.setAvailability false).availability = AVAILABILITY_INOPERATIVE_SCHEDULED ∧
      (s.setAvailability false).transactionId = s.transactionId ∧
      (∀ (x : ConnectorStatus) (now : Nat), x.transactionId > 0 →
        x.availability = AVAILABILITY_INOPERATIVE_SCHEDULED →
        (x.loop now).2.availability = AVAILABILITY_INOPERATIVE_SCHEDULED ∧
        (x.loop now).2.transactionId = x.transactionId) ∧
      (∀ (x : ConnectorStatus) (now : Nat),
        x.availability = AVAILABILITY_INOPERATIVE_SCHEDULED →
        ((x.setTransactionId (-1)).loop now).2.availability = AVAILABILITY_INOPERATIVE) ∧
      (∀ (x : ConnectorStatus) (op : ConnectorStatus.Call),
        x.availability = AVAILABILITY_INOPERATIVE_SCHEDULED →
        (x.call op).availability = AVAILABILITY_INOPERATIVE → x.transactionId ≤ 0) := by
  refine ⟨?_, ?_, ?_, ?_, ?_⟩
  · have h : ¬ s.transactionId ≤ 0 := by omega
    simp [ConnectorStatus.setAvailability, ConnectorStatus.getTransactionId, htx,
      ConnectorStatus.saveState]
  · simp [ConnectorStatus.setAvailability, ConnectorStatus.getTransactionId, htx,
      ConnectorStatus.saveState]
  · intro x now hx hav
    have hc : x.loopCommit = x := by
      have h : ¬ x.transactionId ≤ 0 := by omega
      simp [ConnectorStatus.loopCommit, ConnectorStatus.getTransactionId, h]
    have h := ConnectorStatus.loop_availability x now
    rw [hc] at h
    exact ⟨h.1.trans hav, h.2⟩
  · intro x now hav
    have h := (ConnectorStatus.loop_availability (x.setTransactionId (-1)) now).1
    rw [h]
    simp [ConnectorStatus.loopCommit, ConnectorStatus.getTransactionId,
      ConnectorStatus.setTransactionId, ConnectorStatus.saveState, hav]
  · intro x op hav hop
    by_contra hpos
    have hx : ¬ x.transactionId ≤ 0 := hpos
    have hne : AVAILABILITY_INOPERATIVE_SCHEDULED ≠ AVAILABILITY_INOPERATIVE := by decide
    cases op with
    | loop now =>
      have h := (ConnectorStatus.loop_availability x now).1
      have hc : x.loopCommit = x := by
        simp [ConnectorStatus.loopCommit, ConnectorStatus.getTransactionId, hx]
      rw [hc, hav] at h
      simp only [ConnectorStatus.call] at hop
      rw [hop] at h
      exact hne h.symm
    | beginSession n tag =>
      simp only [ConnectorStatus.call, ConnectorStatus.beginSession] at hop
      split at hop
      · exact hne (hav.symm.trans hop)
      · split at hop <;> exact hne (hav.symm.trans hop)
    | endSession =>
      simp only [ConnectorStatus.call, ConnectorStatus.endSession] at hop
      split at hop <;> exact hne (hav.symm.trans hop)
    | setTransactionId id =>
      simp only [ConnectorStatus.call, ConnectorStatus.setTransactionId,
        ConnectorStatus.saveState] at hop
      split at hop <;> exact hne (hav.symm.trans hop)
    | setTransactionIdSync id => exact hne (hav.symm.trans hop)
    | setAvailability available =>
      have hgt : x.transactionId > 0 := by omega
      cases available <;>
        simp [ConnectorStatus.call, ConnectorStatus.setAvailability,
          ConnectorStatus.getTransactionId, ConnectorStatus.saveState, hgt] at hop
    | setConnectorPluggedSampler r => exact hne (hav.symm.trans hop)
    | setEvRequestsEnergySampler r => exact hne (hav.symm.trans hop)
    | setConnectorEnergizedSampler r => exact hne (hav.symm.trans hop)
    | addConnectorErrorCodeSampler r => exact hne (hav.symm.trans hop)
    | resample plug energyDemand energized errors => exact hne (hav.symm.trans hop)

/-- Witness for C9: the scenario of the specification, `transactionId = 5`. -/
theorem setAvailability_deferred_witness :
    chargingConnector.transactionId > 0 ∧
      (chargingConnector.setAvailability false).availability
        = AVAILABILITY_INOPERATIVE_SCHEDULED ∧
      ((chargingConnector.setAvailability false).loop 0).2.availability
        = AVAILABILITY_INOPERATIVE_SCHEDULED ∧
      (((chargingConnector.setAvailability false).setTransactionId (-1)).loop 0).2.availability
        = AVAILABILITY_INOPERATIVE :=
  ⟨by decide,
    (setAvailability_deferred chargingConnector (by decide)).1,
    ((setAvailability_deferred chargingConnector (by decide)).2.2.1
      (chargingConnector.setAvailability false) 0 (by decide) (by decide)).1,
    (setAvailability_deferred chargingConnector (by decide)).2.2.2.1
      (chargingConnector.setAvailability false) 0 (by decide)⟩

/-- C10: without a transaction (`transactionId < 0`), `loop` returns a StartTransaction
exactly when a plug sampler is set and reports a plug, the session is active, no error
code is present and the availability is Operative; it is then the StartTransaction of
this connector. -/
theorem loop_startTransaction_iff (s : ConnectorStatus) (now : Nat)
    (htx : s.transactionId < 0) :
    ((∃ c, (s.loop now).1 = some (OcppMessage.StartTransaction c)) ↔
        (s.connectorPluggedSampler = some true ∧ s.session = true ∧
          s.getErrorCode = none ∧ s.availability = AVAILABILITY_OPERATIVE)) ∧
      ((s.connectorPluggedSampler = some true ∧ s.session = true ∧
          s.getErrorCode = none ∧ s.availability = AVAILABILITY_OPERATIVE) →
        (s.loop now).1 = some (OcppMessage.StartTransaction s.connectorId)) := by
  have hge : ¬ s.transactionId ≥ 0 := by omega
  have hle : s.transactionId ≤ 0 := by omega
  have hfwd : (s.connectorPluggedSampler = some true ∧ s.session = true ∧
      s.getErrorCode = none ∧ s.availability = AVAILABILITY_OPERATIVE) →
      (s.loop now).1 = some (OcppMessage.StartTransaction s.connectorId) := by
    rintro ⟨hp, hs, he, ha⟩
    have hc : s.loopCommit = s := by
      simp [ConnectorStatus.loopCommit, ha]
    simp [ConnectorStatus.loop, hc, hp, ConnectorStatus.getTransactionId, hge, hs, he, ha]
  refine ⟨⟨?_, fun h => ⟨_, hfwd h⟩⟩, hfwd⟩
  rintro ⟨c, hc⟩
  have hcp : s.loopCommit.connectorPluggedSampler = s.connectorPluggedSampler := by
    unfold ConnectorStatus.loopCommit; split <;> rfl
  have hcs : s.loopCommit.session = s.session := by
    unfold ConnectorStatus.loopCommit; split <;> rfl
  have hce : s.loopCommit.getErrorCode = s.getErrorCode := by
    unfold ConnectorStatus.loopCommit; split <;> rfl
  have hct := ConnectorStatus.loopCommit_transactionId s
  have hca : s.loopCommit.availability = AVAILABILITY_OPERATIVE →
      s.availability = AVAILABILITY_OPERATIVE := by
    unfold ConnectorStatus.loopCommit
    split
    · intro h; cases h
    · exact id
  unfold ConnectorStatus.loop at hc
  simp only [ConnectorStatus.getTransactionId, hct, hge, if_false] at hc
  split at hc
  · rename_i plugged hpl
    split at hc
    · rename_i hcond
      rw [hcp] at hpl
      rw [hcs, hce] at hcond
      exact ⟨by rw [hpl, hcond.1], hcond.2.1, hcond.2.2.1, hca hcond.2.2.2⟩
    · exact absurd hc (ConnectorStatus.loopStatus_ne_start _ _ _)
  · exact absurd hc (ConnectorStatus.loopStatus_ne_start _ _ _)

/-- Witness for C10: the scenario of the specification (plug reported, session started,
no error, Operative, `transactionId = -1`). -/
theorem loop_startTransaction_iff_witness :
    pluggedConnector.transactionId < 0 ∧
      (pluggedConnector.loop 0).1 = some (OcppMessage.StartTransaction 1) :=
  ⟨by decide,
    (loop_startTransaction_iff pluggedConnector 0 (by decide)).2
      ⟨by decide, by decide, by decide, by decide⟩⟩

/-! ## Theorems: the registry -/

namespace MeterStore

variable {MV Doc : Type}

theorem lock_lt (w : MeterStore MV Doc) (h : Nat) (t : TransactionMeterData MV)
    (hl : w.lock h = some t) : h < w.objects.length := by
  unfold lock at hl
  by_contra hge
  have : w.objects[h]? = none := List.getElem?_eq_none (by omega)
  rw [this] at hl
  cases hl

theorem lock_congr (w w1 : MeterStore MV Doc) (h : Nat) (ho : w1.objects = w.objects) :
    w1.lock h = w.lock h := by
  unfold lock
  rw [ho]

theorem lock_setObject (w : MeterStore MV Doc) (h x : Nat) (t : TransactionMeterData MV) :
    (w.setObject h t).lock x = if h = x then (w.lock x).map (fun _ => t) else w.lock x := by
  unfold lock setObject
  simp only [List.getElem?_modify]
  cases hx : w.objects[x]? with
  | none => simp
  | some o =>
    obtain ⟨t0, k⟩ := o
    by_cases hk : k > 0 <;> by_cases hh : h = x <;> simp [hk, hh]

theorem lock_retain (w : MeterStore MV Doc) (h x : Nat) (hl : w.lock h ≠ none) :
    (w.retain h).lock x = w.lock x := by
  unfold lock retain at *
  simp only [List.getElem?_modify]
  cases hx : w.objects[x]? with
  | none => simp
  | some o =>
    obtain ⟨t0, k⟩ := o
    by_cases hh : h = x
    · subst hh
      rw [hx] at hl
      by_cases hk : k > 0
      · simp [hk]
      · simp [hk] at hl
    · simp [hh]

theorem lock_release (w : MeterStore MV Doc) (h x : Nat) (t : TransactionMeterData MV)
    (hl : (w.release h).lock x = some t) : w.lock x = some t := by
  unfold lock release at *
  simp only [List.getElem?_modify] at hl
  cases hx : w.objects[x]? with
  | none => simp [hx] at hl
  | some o =>
    obtain ⟨t0, k⟩ := o
    rw [hx] at hl
    by_cases hh : h = x
    · simp only [hh, if_true, Option.map_eq_map, Option.map_some'] at hl
      by_cases hk : k - 1 > 0
      · have hk1 : k > 0 := by omega
        simpa [hk, hk1] using hl
      · simp [hk] at hl
    · simpa [hh] using hl

theorem isCached_iff (w : MeterStore MV Doc) (c n h : Nat) :
    w.isCached c n h = true ↔ ∃ t, w.lock h = some t ∧ t.connectorId = c ∧ t.txNr = n := by
  unfold isCached
  cases hl : w.lock h with
  | none => simp
  | some t => simp

namespace Quiet

theorem quiet_refl (w : MeterStore MV Doc) : Quiet w w :=
  ⟨rfl, le_refl _, fun _ t1 h => ⟨t1, h, rfl, rfl⟩, List.Sublist.refl _, fun _ hm _ => hm⟩

theorem quiet_trans {w w1 w2 : MeterStore MV Doc} (h1 : Quiet w w1) (h2 : Quiet w1 w2) :
    Quiet w w2 := by
  refine ⟨h2.filesystem.trans h1.filesystem, h1.length.trans h2.length, ?_,
    h2.sublist.trans h1.sublist, ?_⟩
  · intro h t2 hl
    obtain ⟨t1, hl1, hc1, hn1⟩ := h2.live h t2 hl
    obtain ⟨t, hl0, hc0, hn0⟩ := h1.live h t1 hl1
    exact ⟨t, hl0, hc0.trans hc1, hn0.trans hn1⟩
  · intro h hm hl
    have hl1 : w1.lock h ≠ none := by
      cases hq : w2.lock h with
      | none => exact absurd hq hl
      | some t2 =>
        obtain ⟨t1, hl1, -, -⟩ := h2.live h t2 hq
        rw [hl1]; simp
    exact h2.keeps h (h1.keeps h hm hl1) hl

/-- A quiet step keeps the registry invariant. -/
theorem keeps_consistent {w w1 : MeterStore MV Doc} (hq : Quiet w w1) (hc : Consistent w) :
    Consistent w1 := by
  refine ⟨?_, hc.nodup.sublist hq.sublist, ?_, ?_⟩
  · intro h hm
    exact lt_of_lt_of_le (hc.inRange h (hq.sublist.subset hm)) hq.length
  · intro h t1 hl
    obtain ⟨t, hl0, -, -⟩ := hq.live h t1 hl
    exact hq.keeps h (hc.registered h t hl0) (by rw [hl]; simp)
  · intro a b ta tb hla hlb hcid hnr
    obtain ⟨ta0, hla0, hca, hna⟩ := hq.live a ta hla
    obtain ⟨tb0, hlb0, hcb, hnb⟩ := hq.live b tb hlb
    exact hc.uniqueKey a b ta0 tb0 hla0 hlb0 (by rw [hca, hcb, hcid]) (by rw [hna, hnb, hnr])

end Quiet

theorem quiet_of_objects_eq (w w1 : MeterStore MV Doc) (hf : w1.filesystem = w.filesystem)
    (ho : w1.objects = w.objects) (hr : w1.txMeterData = w.txMeterData) : Quiet w w1 := by
  refine ⟨hf, by rw [ho], ?_, by rw [hr], ?_⟩
  · intro h t1 hl
    rw [lock_congr w w1 h ho] at hl
    exact ⟨t1, hl, rfl, rfl⟩
  · intro h hm _
    rw [hr]; exact hm

theorem quiet_prune (w : MeterStore MV Doc) : Quiet w w.prune := by
  refine ⟨rfl, le_refl _, fun h t1 hl => ⟨t1, hl, rfl, rfl⟩, List.filter_sublist _, ?_⟩
  intro h hm hl
  have hl0 : w.lock h ≠ none := hl
  simp only [prune, List.mem_filter, expired]
  refine ⟨hm, ?_⟩
  cases hq : w.lock h with
  | none => exact absurd hq hl0
  | some t => simp

theorem quiet_setObject (w : MeterStore MV Doc) (h : Nat) (t t1 : TransactionMeterData MV)
    (hl : w.lock h = some t) (hc : t1.connectorId = t.connectorId) (hn : t1.txNr = t.txNr) :
    Quiet w (w.setObject h t1) := by
  refine ⟨rfl, by simp [setObject], ?_, List.Sublist.refl _, ?_⟩
  · intro x tx hx
    rw [lock_setObject] at hx
    by_cases hh : h = x
    · subst hh
      rw [if_pos rfl, hl] at hx
      simp only [Option.map_some', Option.some.injEq] at hx
      subst hx
      exact ⟨t, hl, hc.symm, hn.symm⟩
    · rw [if_neg hh] at hx
      exact ⟨tx, hx, rfl, rfl⟩
  · intro x hm _
    exact hm

theorem quiet_retain (w : MeterStore MV Doc) (h : Nat) (hl : w.lock h ≠ none) :
    Quiet w (w.retain h) := by
  refine ⟨rfl, by simp [retain], ?_, List.Sublist.refl _, fun x hm _ => hm⟩
  intro x tx hx
  rw [lock_retain w h x hl] at hx
  exact ⟨tx, hx, rfl, rfl⟩

theorem quiet_release (w : MeterStore MV Doc) (h : Nat) : Quiet w (w.release h) := by
  refine ⟨rfl, by simp [release], ?_, List.Sublist.refl _, fun x hm _ => hm⟩
  intro x tx hx
  exact ⟨tx, lock_release w h x tx hx, rfl, rfl⟩

theorem quiet_setFs (w : MeterStore MV Doc) (fs : Filesystem Doc) : Quiet w (w.setFs fs) :=
  quiet_of_objects_eq w (w.setFs fs) rfl rfl rfl

theorem quiet_remove (P : Platform MV Doc) (fuel : Nat) (w w1 : MeterStore MV Doc)
    (c n : Nat) (r : Bool) (h : remove P fuel w c n = some (r, w1)) : Quiet w w1 := by
  unfold remove at h
  simp only at h
  have hfound : Quiet w
      (match w.txMeterData.find? (w.isCached c n) with
        | some h =>
          match w.lock h with
          | some cachedl => (P.getPathsCount cachedl, w.setObject h cachedl.finalize)
          | none => (0, w)
        | none => (0, w)).2 := by
    split
    · split
      · rename_i hl
        exact quiet_setObject w _ _ _ hl rfl rfl
      · exact Quiet.quiet_refl w
    · exact Quiet.quiet_refl w
  generalize (match w.txMeterData.find? (w.isCached c n) with
        | some h =>
          match w.lock h with
          | some cachedl => (P.getPathsCount cachedl, w.setObject h cachedl.finalize)
          | none => (0, w)
        | none => (0, w)) = found at h hfound
  split at h
  · split at h
    · cases h
    · simp only [Option.some.injEq, Prod.mk.injEq] at h
      rw [← h.2]
      exact hfound.quiet_trans (quiet_setFs _ _)
    · split at h
      · simp only [Option.some.injEq, Prod.mk.injEq] at h
        rw [← h.2]
        exact hfound.quiet_trans (quiet_setFs _ _)
      · simp only [Option.some.injEq, Prod.mk.injEq] at h
        rw [← h.2]
        exact hfound.quiet_trans ((quiet_setFs _ _).quiet_trans (quiet_prune _))
  · simp only [Option.some.injEq, Prod.mk.injEq] at h
    rw [← h.2]
    exact hfound.quiet_trans (quiet_prune _)

end MeterStore

namespace TransactionMeterData

variable {MV Doc : Type}

theorem addTxDataMem_key (t : TransactionMeterData MV) (m : MV) :
    (t.addTxDataMem m).connectorId = t.connectorId ∧ (t.addTxDataMem m).txNr = t.txNr := by
  unfold addTxDataMem
  split <;> exact ⟨rfl, rfl⟩

theorem addTxData_key (P : Platform MV Doc) (t : TransactionMeterData MV)
    (fs : Filesystem Doc) (mv : Option MV) (outcome : WriteOutcome Doc) :
    (t.addTxData P fs mv outcome).2.1.connectorId = t.connectorId ∧
      (t.addTxData P fs mv outcome).2.1.txNr = t.txNr := by
  cases hr : (t.addTxData P fs mv outcome).1
  · rw [addTxData_false P t fs mv outcome hr]; exact ⟨rfl, rfl⟩
  · obtain ⟨m, -, -, hm, -⟩ := addTxData_true P t fs mv outcome hr
    rw [hm]; exact addTxDataMem_key t m

theorem retrieveStopTxData_key (t : TransactionMeterData MV) :
    t.retrieveStopTxData.2.connectorId = t.connectorId ∧
      t.retrieveStopTxData.2.txNr = t.txNr := by
  unfold retrieveStopTxData
  split <;> exact ⟨rfl, rfl⟩

theorem restoreLoop_key (P : Platform MV Doc) (fuel : Nat) :
    ∀ (misses : Nat) (t : TransactionMeterData MV) (fs : Filesystem Doc)
      (r : Bool) (t1 : TransactionMeterData MV) (fs1 : Filesystem Doc),
      restoreLoop P fuel misses t fs = some (r, t1, fs1) →
      t1.connectorId = t.connectorId ∧ t1.txNr = t.txNr := by
  induction fuel with
  | zero => intro misses t fs r t1 fs1 h; simp [restoreLoop] at h
  | succ fuel ih =>
    intro misses t fs r t1 fs1 h
    unfold restoreLoop at h
    simp only at h
    split at h
    · split at h
      · simp only [Option.some.injEq, Prod.mk.injEq] at h
        rw [← h.2.1]; exact ⟨rfl, rfl⟩
      · split at h
        · have h2 := ih _ _ _ _ _ _ h; exact h2
        · split at h
          · have h2 := ih _ _ _ _ _ _ h; exact h2
          · split at h
            · simp only [Option.some.injEq, Prod.mk.injEq] at h
              rw [← h.2.1]; exact ⟨rfl, rfl⟩
            · have h2 := ih _ _ _ _ _ _ h; exact h2
    · simp only [Option.some.injEq, Prod.mk.injEq] at h
      rw [← h.2.1]; exact ⟨rfl, rfl⟩

theorem restore_key (P : Platform MV Doc) (t : TransactionMeterData MV)
    (fs : Filesystem Doc) :
    (t.restore P fs).2.1.connectorId = t.connectorId ∧ (t.restore P fs).2.1.txNr = t.txNr := by
  unfold restore
  split
  · exact ⟨rfl, rfl⟩
  · split
    · rename_i r heq
      obtain ⟨b, t1, fs1⟩ := r
      exact restoreLoop_key P _ _ _ _ _ _ _ heq
    · exact ⟨rfl, rfl⟩

/-- The loop of `restore` ends within the iterations counted by its measure: a miss uses
up one of at most three in a row, a record one of at most ten places. -/
theorem restoreLoop_isSome (P : Platform MV Doc) (fuel : Nat) :
    ∀ (misses : Nat) (t : TransactionMeterData MV) (fs : Filesystem Doc),
      (MISSES_LIMIT + 1) * (MAX_STOPTXDATA_LEN - t.txData.length) + (MISSES_LIMIT - misses)
        < fuel →
      (restoreLoop P fuel misses t fs).isSome = true := by
  induction fuel with
  | zero => intro misses t fs h; omega
  | succ fuel ih =>
    intro misses t fs h
    unfold restoreLoop
    simp only [MISSES_LIMIT, MAX_STOPTXDATA_LEN] at h ⊢
    split
    · rename_i hm
      split
      · rfl
      · split
        · apply ih
          simp only [MISSES_LIMIT, MAX_STOPTXDATA_LEN]
          omega
        · split
          · apply ih
            simp only [MISSES_LIMIT, MAX_STOPTXDATA_LEN]
            omega
          · split
            · rfl
            · rename_i hlen
              apply ih
              simp only [MISSES_LIMIT, MAX_STOPTXDATA_LEN, List.length_append,
                List.length_singleton]
              omega
    · rfl

/-- The iterations granted to the loop in `restore` suffice: `restore` is the result of
the loop. -/
theorem restore_eq_restoreLoop (P : Platform MV Doc) (t : TransactionMeterData MV)
    (fs : Filesystem Doc) (hfs : t.filesystem = true) :
    restoreLoop P t.restoreFuel 0 t fs = some (t.restore P fs) := by
  have h := restoreLoop_isSome P t.restoreFuel 0 t fs
    (by simp only [restoreFuel, MISSES_LIMIT, MAX_STOPTXDATA_LEN]; omega)
  unfold restore
  simp only [hfs, Bool.true_eq_false, if_false]
  cases hr : restoreLoop P t.restoreFuel 0 t fs with
  | none => rw [hr] at h; cases h
  | some r => rfl

end TransactionMeterData

namespace MeterStore

variable {MV Doc : Type}

theorem quiet_addTxData (P : Platform MV Doc) (w : MeterStore MV Doc) (h : Nat)
    (mv : Option MV) (outcome : WriteOutcome Doc) :
    Quiet w (addTxData P w h mv outcome).2 := by
  unfold addTxData
  split
  · rename_i t hl
    have hk := TransactionMeterData.addTxData_key P t w.fs mv outcome
    refine Quiet.quiet_trans (quiet_setFs w (t.addTxData P w.fs mv outcome).2.2) ?_
    exact quiet_setObject _ h t _ hl hk.1 hk.2
  · exact Quiet.quiet_refl w

theorem quiet_retrieveStopTxData (w : MeterStore MV Doc) (h : Nat) :
    Quiet w (w.retrieveStopTxData h).2 := by
  unfold retrieveStopTxData
  split
  · rename_i t hl
    have hk := TransactionMeterData.retrieveStopTxData_key t
    exact quiet_setObject _ h t _ hl hk.1 hk.2
  · exact Quiet.quiet_refl w

theorem quiet_finalize (w : MeterStore MV Doc) (h : Nat) : Quiet w (w.finalize h) := by
  unfold finalize
  split
  · rename_i t hl
    exact quiet_setObject _ h t _ hl rfl rfl
  · exact Quiet.quiet_refl w

theorem lock_allocate (w : MeterStore MV Doc) (tx : TransactionMeterData MV) (x : Nat) :
    (w.allocate tx).lock x = if x = w.objects.length then some tx else w.lock x := by
  unfold lock allocate
  simp only
  by_cases hx : x = w.objects.length
  · subst hx
    simp
  · rw [if_neg hx]
    by_cases hlt : x < w.objects.length
    · rw [List.getElem?_append_left hlt]
    · have h1 : (w.objects ++ [(tx, 1)])[x]? = none :=
        List.getElem?_eq_none (by simp; omega)
      have h2 : w.objects[x]? = none := List.getElem?_eq_none (by omega)
      rw [h1, h2]

theorem allocated_allocate (w : MeterStore MV Doc) (c n : Nat) (f : Bool) :
    Allocated c n w (w.allocate (TransactionMeterData.new c n f)) := by
  refine ⟨rfl, by simp [allocate], ?_, List.Sublist.refl _, fun x hm _ => hm⟩
  intro x t1 hl
  rw [lock_allocate] at hl
  by_cases hx : x = w.objects.length
  · rw [if_pos hx] at hl
    simp only [Option.some.injEq] at hl
    subst hl
    exact Or.inl ⟨hx, rfl, rfl⟩
  · rw [if_neg hx] at hl
    exact Or.inr ⟨t1, hl, rfl, rfl⟩

theorem Allocated.then_quiet {c n : Nat} {w w1 w2 : MeterStore MV Doc}
    (h1 : Allocated c n w w1) (h2 : Quiet w1 w2) : Allocated c n w w2 := by
  refine ⟨h2.filesystem.trans h1.filesystem, lt_of_lt_of_le h1.length h2.length, ?_,
    h2.sublist.trans h1.sublist, ?_⟩
  · intro x t2 hl
    obtain ⟨t1, hl1, hc1, hn1⟩ := h2.live x t2 hl
    rcases h1.live x t1 hl1 with ⟨hx, hc, hn⟩ | ⟨t, hl0, hc0, hn0⟩
    · exact Or.inl ⟨hx, hc1 ▸ hc, hn1 ▸ hn⟩
    · exact Or.inr ⟨t, hl0, hc0.trans hc1, hn0.trans hn1⟩
  · intro x hm hl
    have hl1 : w1.lock x ≠ none := by
      cases hq : w2.lock x with
      | none => exact absurd hq hl
      | some t2 =>
        obtain ⟨t1, hl1, -, -⟩ := h2.live x t2 hq
        rw [hl1]; simp
    exact h2.keeps x (h1.keeps x hm hl1) hl

/-- Registering the new object keeps the registry invariant when no object with a
holder had the key before. -/
theorem Allocated.register_consistent {c n : Nat} {w w1 : MeterStore MV Doc}
    (ha : Allocated c n w w1) (hc : Consistent w)
    (hfree : ∀ x t, w.lock x = some t → ¬ (t.connectorId = c ∧ t.txNr = n)) :
    Consistent (w1.register w.objects.length) := by
  have hlock : ∀ x, (w1.register w.objects.length).lock x = w1.lock x :=
    fun x => lock_congr _ _ x rfl
  have hnotin : w.objects.length ∉ w1.txMeterData := by
    intro hm
    have := hc.inRange _ (ha.sublist.subset hm)
    omega
  refine ⟨?_, ?_, ?_, ?_⟩
  · intro h hm
    have hm : h ∈ w1.txMeterData ++ [w.objects.length] := hm
    simp only [List.mem_append, List.mem_singleton] at hm
    show h < w1.objects.length
    have hlen := ha.length
    rcases hm with hm | hm
    · have := hc.inRange h (ha.sublist.subset hm); omega
    · omega
  · show (w1.txMeterData ++ [w.objects.length]).Nodup
    rw [List.nodup_append]
    refine ⟨hc.nodup.sublist ha.sublist, List.nodup_singleton _, ?_⟩
    intro a ha1 ha2
    simp only [List.mem_singleton] at ha2
    subst ha2
    exact hnotin ha1
  · intro h t1 hl
    rw [hlock] at hl
    show h ∈ w1.txMeterData ++ [w.objects.length]
    simp only [List.mem_append, List.mem_singleton]
    rcases ha.live h t1 hl with ⟨hx, -, -⟩ | ⟨t, hl0, -, -⟩
    · exact Or.inr hx
    · exact Or.inl (ha.keeps h (hc.registered h t hl0) (by rw [hl]; simp))
  · intro a b ta tb hla hlb hcid hnr
    rw [hlock] at hla hlb
    rcases ha.live a ta hla with ⟨hxa, hca, hna⟩ | ⟨ta0, hla0, hca0, hna0⟩
    · rcases ha.live b tb hlb with ⟨hxb, -, -⟩ | ⟨tb0, hlb0, hcb0, hnb0⟩
      · rw [hxa, hxb]
      · exact absurd ⟨by rw [hcb0, ← hcid, hca], by rw [hnb0, ← hnr, hna]⟩ (hfree b tb0 hlb0)
    · rcases ha.live b tb hlb with ⟨hxb, hcb, hnb⟩ | ⟨tb0, hlb0, hcb0, hnb0⟩
      · exact absurd ⟨by rw [hca0, hcid, hcb], by rw [hna0, hnr, hnb]⟩ (hfree a ta0 hla0)
      · exact hc.uniqueKey a b ta0 tb0 hla0 hlb0 (by rw [hca0, hcb0, hcid])
          (by rw [hna0, hnb0, hnr])

end MeterStore

namespace MeterStore

variable {MV Doc : Type}

theorem quiet_allocate_release (w : MeterStore MV Doc) (tx : TransactionMeterData MV) :
    Quiet w ((w.allocate tx).release w.objects.length) := by
  refine ⟨rfl, by simp [release, allocate], ?_, List.Sublist.refl _, fun x hm _ => hm⟩
  intro x t1 hl
  by_cases hx : x = w.objects.length
  · subst hx
    exfalso
    unfold lock release allocate at hl
    simp at hl
  · have h1 := lock_release _ _ _ _ hl
    rw [lock_allocate, if_neg hx] at h1
    exact ⟨t1, h1, rfl, rfl⟩

theorem getTxMeterData_cached (P : Platform MV Doc) (fuel : Nat) (w : MeterStore MV Doc)
    (c n h : Nat) (hfind : w.txMeterData.find? (w.isCached c n) = some h) :
    getTxMeterData P fuel w c n = some (some h, w.retain h) := by
  unfold getTxMeterData
  rw [hfind]

theorem getTxMeterData_volatile (P : Platform MV Doc) (fuel : Nat) (w : MeterStore MV Doc)
    (c n : Nat) (hfind : w.txMeterData.find? (w.isCached c n) = none)
    (hfs : w.filesystem = false) :
    getTxMeterData P fuel w c n =
      some (some w.objects.length,
        (w.prune.allocate (TransactionMeterData.new c n false)).register w.objects.length) := by
  unfold getTxMeterData
  rw [hfind]
  simp [prune, allocate, hfs]

theorem getTxMeterData_too_long (P : Platform MV Doc) (fuel : Nat) (w : MeterStore MV Doc)
    (c n : Nat) (hfind : w.txMeterData.find? (w.isCached c n) = none)
    (hfs : w.filesystem = true)
    (hret : P.MAX_PATH_SIZE ≤ snprintfLen P ⟨c, n, 0⟩) :
    getTxMeterData P fuel w c n =
      some (none,
        (w.prune.allocate (TransactionMeterData.new c n true)).release w.objects.length) := by
  unfold getTxMeterData
  rw [hfind]
  simp [prune, allocate, hfs, hret]

theorem getTxMeterData_fresh (P : Platform MV Doc) (fuel : Nat) (w : MeterStore MV Doc)
    (c n : Nat) (hfind : w.txMeterData.find? (w.isCached c n) = none)
    (hfs : w.filesystem = true)
    (hret : snprintfLen P ⟨c, n, 0⟩ < P.MAX_PATH_SIZE)
    (hstat : w.fs.files ⟨c, n, 0⟩ = none) :
    getTxMeterData P fuel w c n =
      some (some w.objects.length,
        ((w.prune.allocate (TransactionMeterData.new c n true)).setFs
          (w.fs.stat ⟨c, n, 0⟩).2).register w.objects.length) := by
  have hret1 : ¬ P.MAX_PATH_SIZE ≤ snprintfLen P ⟨c, n, 0⟩ := by omega
  unfold getTxMeterData
  rw [hfind]
  simp [prune, allocate, hfs, hret1, Filesystem.stat, hstat]

theorem getTxMeterData_restore (P : Platform MV Doc) (fuel : Nat) (w : MeterStore MV Doc)
    (c n : Nat) (hfind : w.txMeterData.find? (w.isCached c n) = none)
    (hfs : w.filesystem = true)
    (hret : snprintfLen P ⟨c, n, 0⟩ < P.MAX_PATH_SIZE)
    (hstat : (w.fs.files ⟨c, n, 0⟩).isSome = true) :
    getTxMeterData P fuel w c n =
      match (TransactionMeterData.new c n true).restore P (w.fs.stat ⟨c, n, 0⟩).2 with
      | (true, tx1, fs2) =>
        some (some w.objects.length,
          (((w.prune.allocate (TransactionMeterData.new c n true)).setFs fs2).setObject
            w.objects.length tx1).register w.objects.length)
      | (false, tx1, fs2) =>
        match remove P fuel
          (((w.prune.allocate (TransactionMeterData.new c n true)).setFs fs2).setObject
            w.objects.length tx1) c n with
        | none => none
        | some (_, w4) => some (some w.objects.length, w4.register w.objects.length) := by
  have hret1 : ¬ P.MAX_PATH_SIZE ≤ snprintfLen P ⟨c, n, 0⟩ := by omega
  unfold getTxMeterData
  rw [hfind]
  simp only [prune, allocate, hfs, Filesystem.stat, hstat, ge_iff_le, hret1, if_true, if_false]

/-- What `getTxMeterData` does when the registry has no held log of the key: it returns
`nullptr` after a quiet step, or the handle of a newly allocated and registered object. -/
theorem getTxMeterData_new (P : Platform MV Doc) (fuel : Nat) (w w1 : MeterStore MV Doc)
    (c n : Nat) (r : Option Nat)
    (hfind : w.txMeterData.find? (w.isCached c n) = none)
    (h : getTxMeterData P fuel w c n = some (r, w1)) :
    (r = none ∧ Quiet w w1) ∨
      (r = some w.objects.length ∧ ∃ wa, Allocated c n w.prune wa ∧
        w1 = wa.register w.objects.length) := by
  cases hfs : w.filesystem
  · rw [getTxMeterData_volatile P fuel w c n hfind hfs] at h
    simp only [Option.some.injEq, Prod.mk.injEq] at h
    exact Or.inr ⟨h.1.symm, _, allocated_allocate w.prune c n false, h.2.symm⟩
  · by_cases hret : P.MAX_PATH_SIZE ≤ snprintfLen P ⟨c, n, 0⟩
    · rw [getTxMeterData_too_long P fuel w c n hfind hfs hret] at h
      simp only [Option.some.injEq, Prod.mk.injEq] at h
      refine Or.inl ⟨h.1.symm, ?_⟩
      rw [← h.2]
      exact (quiet_prune w).quiet_trans (quiet_allocate_release w.prune _)
    · have hret1 : snprintfLen P ⟨c, n, 0⟩ < P.MAX_PATH_SIZE := by omega
      have hal := allocated_allocate w.prune c n true
      cases hstat : w.fs.files ⟨c, n, 0⟩ with
      | none =>
        rw [getTxMeterData_fresh P fuel w c n hfind hfs hret1 hstat] at h
        simp only [Option.some.injEq, Prod.mk.injEq] at h
        exact Or.inr ⟨h.1.symm, _, hal.then_quiet (quiet_setFs _ _), h.2.symm⟩
      | some doc =>
        rw [getTxMeterData_restore P fuel w c n hfind hfs hret1 (by rw [hstat]; rfl)] at h
        have hk := TransactionMeterData.restore_key P
          (TransactionMeterData.new c n true : TransactionMeterData MV)
          (w.fs.stat ⟨c, n, 0⟩).2
        rcases hres : (TransactionMeterData.new c n true : TransactionMeterData MV).restore P
            (w.fs.stat ⟨c, n, 0⟩).2 with ⟨b, tx1, fs2⟩
        rw [hres] at h hk
        have hq3 : Allocated c n w.prune
            (((w.prune.allocate (TransactionMeterData.new c n true)).setFs fs2).setObject
              w.objects.length tx1) := by
          refine (hal.then_quiet (quiet_setFs _ fs2)).then_quiet
            (quiet_setObject _ w.objects.length (TransactionMeterData.new c n true) tx1
              ?_ hk.1 hk.2)
          rw [lock_congr (w.prune.allocate (TransactionMeterData.new c n true))
            ((w.prune.allocate (TransactionMeterData.new c n true)).setFs fs2) _ rfl,
            lock_allocate]
          simp [prune]
        cases b
        · simp only at h
          split at h
          · cases h
          · rename_i b w4 hrem
            simp only [Option.some.injEq, Prod.mk.injEq] at h
            exact Or.inr ⟨h.1.symm, w4, hq3.then_quiet (quiet_remove P fuel _ w4 c n b hrem),
              h.2.symm⟩
        · simp only [Option.some.injEq, Prod.mk.injEq] at h
          exact Or.inr ⟨h.1.symm, _, hq3, h.2.symm⟩

theorem find_none_free (w : MeterStore MV Doc) (c n : Nat) (hc : Consistent w)
    (hfind : w.txMeterData.find? (w.isCached c n) = none) :
    ∀ x t, w.lock x = some t → ¬ (t.connectorId = c ∧ t.txNr = n) := by
  intro x t hl hk
  have hm := hc.registered x t hl
  rw [List.find?_eq_none] at hfind
  exact hfind x hm ((isCached_iff w c n x).mpr ⟨t, hl, hk.1, hk.2⟩)

/-- `getTxMeterData` keeps the registry invariant. -/
theorem getTxMeterData_consistent (P : Platform MV Doc) (fuel : Nat)
    (w w1 : MeterStore MV Doc) (c n : Nat) (r : Option Nat) (hc : Consistent w)
    (h : getTxMeterData P fuel w c n = some (r, w1)) : Consistent w1 := by
  cases hfind : w.txMeterData.find? (w.isCached c n) with
  | some h0 =>
    rw [getTxMeterData_cached P fuel w c n h0 hfind] at h
    simp only [Option.some.injEq, Prod.mk.injEq] at h
    rw [← h.2]
    have hcached := List.find?_some hfind
    obtain ⟨t, hl, -, -⟩ := (isCached_iff w c n h0).mp hcached
    exact (quiet_retain w h0 (by rw [hl]; simp)).keeps_consistent hc
  | none =>
    rcases getTxMeterData_new P fuel w w1 c n r hfind h with ⟨-, hq⟩ | ⟨-, wa, ha, hw1⟩
    · exact hq.keeps_consistent hc
    · rw [hw1]
      have hcp : Consistent w.prune := (quiet_prune w).keeps_consistent hc
      refine ha.register_consistent hcp ?_
      intro x t hl
      exact find_none_free w c n hc hfind x t hl

theorem consistent_new (filesystem : Bool) (fs : Filesystem Doc) :
    Consistent (MeterStore.new filesystem fs : MeterStore MV Doc) := by
  refine ⟨?_, ?_, ?_, ?_⟩
  · intro h hm; simp [MeterStore.new] at hm
  · simp [MeterStore.new]
  · intro h t hl; simp [MeterStore.new, lock] at hl
  · intro a b ta tb hla; simp [MeterStore.new, lock] at hla

/-- Every reachable state satisfies the registry invariant. -/
theorem Reachable.is_consistent {P : Platform MV Doc} {w : MeterStore MV Doc}
    (hw : Reachable P w) : Consistent w := by
  induction hw with
  | new filesystem fs => exact consistent_new filesystem fs
  | getTxMeterData _ hstep ih => exact getTxMeterData_consistent P _ _ _ _ _ _ ih hstep
  | remove _ hstep ih => exact (quiet_remove P _ _ _ _ _ _ hstep).keeps_consistent ih
  | addTxData h mv outcome _ ih => exact (quiet_addTxData P _ h mv outcome).keeps_consistent ih
  | retrieveStopTxData h _ ih => exact (quiet_retrieveStopTxData _ h).keeps_consistent ih
  | finalize h _ ih => exact (quiet_finalize _ h).keeps_consistent ih
  | retain h _ hl ih => exact (quiet_retain _ h hl).keeps_consistent ih
  | release h _ ih => exact (quiet_release _ h).keeps_consistent ih
  | storage fs _ ih => exact (quiet_setFs _ fs).keeps_consistent ih

theorem length_le_one_of_all_eq {α : Type} (l : List α) (hn : l.Nodup)
    (h : ∀ a ∈ l, ∀ b ∈ l, a = b) : l.length ≤ 1 := by
  match l, hn, h with
  | [], _, _ => simp
  | [_], _, _ => simp
  | a :: b :: rest, hn, h =>
    exfalso
    have hab : a = b := h a (by simp) b (by simp)
    subst hab
    simp at hn

end MeterStore

/-- C7: in every reachable state of the store, while a handle of the log `h` with key
`(connectorId, txNr)` is held, `getTxMeterData` for that key returns `h` itself, with one
more holder: the storage and the calls made on it are as before (no access, no restore),
every held log is as before, the registry is as before, and for no key does the registry
list two logs that are held. -/
theorem getTxMeterData_shared {MV Doc : Type} (P : Platform MV Doc)
    (w : MeterStore MV Doc) (hw : MeterStore.Reachable P w) (fuel h : Nat)
    (t : TransactionMeterData MV) (hheld : w.lock h = some t) :
    MeterStore.getTxMeterData P fuel w t.connectorId t.txNr = some (some h, w.retain h) ∧
      (w.retain h).fs.files = w.fs.files ∧
      (w.retain h).fs.calls = w.fs.calls ∧
      (∀ x, (w.retain h).lock x = w.lock x) ∧
      (w.retain h).txMeterData = w.txMeterData ∧
      (∀ c n, (w.txMeterData.filter (w.isCached c n)).length ≤ 1) := by
  have hc := hw.is_consistent
  have hlive : w.lock h ≠ none := by rw [hheld]; simp
  refine ⟨?_, rfl, rfl, fun x => MeterStore.lock_retain w h x hlive, rfl, ?_⟩
  · cases hfind : w.txMeterData.find? (w.isCached t.connectorId t.txNr) with
    | none =>
      exact absurd ⟨rfl, rfl⟩
        (MeterStore.find_none_free w t.connectorId t.txNr hc hfind h t hheld)
    | some h0 =>
      obtain ⟨t0, hl0, hc0, hn0⟩ :=
        (MeterStore.isCached_iff w t.connectorId t.txNr h0).mp (List.find?_some hfind)
      have heq : h0 = h := hc.uniqueKey h0 h t0 t hl0 hheld hc0 hn0
      subst heq
      exact MeterStore.getTxMeterData_cached P fuel w _ _ h0 hfind
  · intro c n
    refine MeterStore.length_le_one_of_all_eq _ (hc.nodup.filter _) ?_
    intro a ha b hb
    simp only [List.mem_filter] at ha hb
    obtain ⟨ta, hla, hca, hna⟩ := (MeterStore.isCached_iff w c n a).mp ha.2
    obtain ⟨tb, hlb, hcb, hnb⟩ := (MeterStore.isCached_iff w c n b).mp hb.2
    exact hc.uniqueKey a b ta tb hla hlb (hca.trans hcb.symm) (hna.trans hnb.symm)

/-- Witness for C7: after the first lookup for connector 1, transaction 7 and one append
through its handle 0, a second lookup returns handle 0 and makes no call on the storage. -/
theorem getTxMeterData_shared_witness :
    (appendedStore 1).lock 0 = some oneRecordLog ∧
      MeterStore.getTxMeterData natPlatform 0 (appendedStore 1) 1 7
        = some (some 0, (appendedStore 1).retain 0) ∧
      ((appendedStore 1).retain 0).fs.calls = (appendedStore 1).fs.calls :=
  ⟨by decide,
    (getTxMeterData_shared natPlatform (appendedStore 1)
      (MeterStore.Reachable.addTxData 0 (some 100) WriteOutcome.ok
        (MeterStore.Reachable.getTxMeterData (MeterStore.Reachable.new true emptyFs)
          (rfl : MeterStore.getTxMeterData natPlatform 0 (MeterStore.new true emptyFs) 1 7
            = some (some 0, openedStore))))
      0 0 oneRecordLog (by decide)).1,
    (getTxMeterData_shared natPlatform (appendedStore 1)
      (MeterStore.Reachable.addTxData 0 (some 100) WriteOutcome.ok
        (MeterStore.Reachable.getTxMeterData (MeterStore.Reachable.new true emptyFs)
          (rfl : MeterStore.getTxMeterData natPlatform 0 (MeterStore.new true emptyFs) 1 7
            = some (some 0, openedStore))))
      0 0 oneRecordLog (by decide)).2.2.1⟩

/-- C8: after eleven successful appends to the fresh storage-backed log of connector 1,
transaction 7, `MeterStore::remove` for that key returns `true` and deletes the slots 9
down to 0, ten files; the slot 10 written by the eleventh append, with the record 110,
remains in the storage. A lookup after the handle is released still finds no slot 0 and
returns a new log without records. -/
theorem remove_after_eleven_appends :
    (MeterStore.addTxDataAll natPlatform 0 openedStore (okInputs 11)).1
        = List.replicate 11 true ∧
      (MeterStore.remove natPlatform 0 (appendedStore 11) 1 7).map
          (fun r => (r.1, r.2.fs.calls.drop 12, r.2.fs.files ⟨1, 7, 10⟩))
        = some (true,
            [FsCall.remove ⟨1, 7, 9⟩, FsCall.remove ⟨1, 7, 8⟩, FsCall.remove ⟨1, 7, 7⟩,
             FsCall.remove ⟨1, 7, 6⟩, FsCall.remove ⟨1, 7, 5⟩, FsCall.remove ⟨1, 7, 4⟩,
             FsCall.remove ⟨1, 7, 3⟩, FsCall.remove ⟨1, 7, 2⟩, FsCall.remove ⟨1, 7, 1⟩,
             FsCall.remove ⟨1, 7, 0⟩],
            some 110) ∧
      ((MeterStore.remove natPlatform 0 (appendedStore 11) 1 7).bind
          (fun r => MeterStore.getTxMeterData natPlatform 0 (r.2.release 0) 1 7)).map
          (fun r => (r.1, r.1.bind r.2.lock, r.2.fs.files ⟨1, 7, 10⟩))
        = some (some 1, some (TransactionMeterData.new 1 7 true), some 110) := by
  decide

/-- At the capacity the removal is complete: after ten successful appends to the fresh
storage-backed log of connector 1, transaction 7, `MeterStore::remove` deletes the slots 9
down to 0 and no slot of the key is left. -/
theorem remove_after_ten_appends :
    (MeterStore.remove natPlatform 0 (appendedStore 10) 1 7).map
        (fun r => (r.1, r.2.fs.calls.drop 11,
          (List.range 14).all (fun i => (r.2.fs.files ⟨1, 7, i⟩).isNone)))
      = some (true,
          [FsCall.remove ⟨1, 7, 9⟩, FsCall.remove ⟨1, 7, 8⟩, FsCall.remove ⟨1, 7, 7⟩,
           FsCall.remove ⟨1, 7, 6⟩, FsCall.remove ⟨1, 7, 5⟩, FsCall.remove ⟨1, 7, 4⟩,
           FsCall.remove ⟨1, 7, 3⟩, FsCall.remove ⟨1, 7, 2⟩, FsCall.remove ⟨1, 7, 1⟩,
           FsCall.remove ⟨1, 7, 0⟩],
          true) := by
  decide

/-! ## Theorems: what the appends store and what `restore` reads back -/

namespace TransactionMeterData

variable {MV Doc : Type}

theorem stored_congr (P : Platform MV Doc) (fs fs1 : Filesystem Doc) (c n : Nat)
    (ms : List MV) :
    ∀ j, (∀ i, j ≤ i → fs1.files ⟨c, n, i⟩ = fs.files ⟨c, n, i⟩) →
      Stored P fs c n j ms → Stored P fs1 c n j ms := by
  induction ms with
  | nil => intro j _ _; trivial
  | cons m ms ih =>
    intro j hfs hst
    obtain ⟨⟨doc, hdoc, hde⟩, hrest⟩ := hst
    refine ⟨⟨doc, ?_, hde⟩, ih (j + 1) (fun i hi => hfs i (by omega)) hrest⟩
    rw [hfs j (le_refl j)]; exact hdoc

/-- Successful appends to a storage-backed log with room for them: the records are
appended in memory, the slot counter advances by their number, and each record is stored
in the slot of its index; other slots of the key are untouched. -/
theorem addTxDataAll_okAppends (P : Platform MV Doc) (ms : List MV) :
    ∀ (t : TransactionMeterData MV) (fs : Filesystem Doc),
      t.filesystem = true → t.finalized = false →
      t.txData.length + ms.length ≤ MAX_STOPTXDATA_LEN →
      t.mvCount + ms.length < UINT_RANGE →
      (∀ i, i < ms.length → snprintfLen P (t.slot (t.mvCount + i)) < P.MAX_PATH_SIZE) →
      (∀ m ∈ ms, ∃ doc, P.toJson m = some doc ∧ P.deserializeSample doc = some m) →
      (addTxDataAll P t fs (okAppends ms)).1 = List.replicate ms.length true ∧
      (addTxDataAll P t fs (okAppends ms)).2.1 =
        { t with txData := t.txData ++ ms, mvCount := t.mvCount + ms.length } ∧
      Stored P (addTxDataAll P t fs (okAppends ms)).2.2 t.connectorId t.txNr t.mvCount ms ∧
      (∀ i, i < t.mvCount ∨ t.mvCount + ms.length ≤ i →
        (addTxDataAll P t fs (okAppends ms)).2.2.files (t.slot i) = fs.files (t.slot i)) := by
  induction ms with
  | nil =>
    intro t fs _ _ _ _ _ _
    simp [okAppends, addTxDataAll, Stored]
  | cons m ms ih =>
    intro t fs hfs hfin hlen hcount hfit hrt
    simp only [List.length_cons] at hlen hcount hfit
    obtain ⟨doc, hdoc, hde⟩ := hrt m (by simp)
    have hfit0 : snprintfLen P (t.slot t.mvCount) < P.MAX_PATH_SIZE := by
      have := hfit 0 (by omega)
      simpa using this
    have hstep := addTxData_stored P t fs m doc hfin hfs hfit0 hdoc
    have hroom : t.txData.length < MAX_STOPTXDATA_LEN := by omega
    have hmem : t.addTxDataMem m =
        { t with txData := t.txData ++ [m], mvCount := t.mvCount + 1 } := by
      have hmod : (t.mvCount + 1) % UINT_RANGE = t.mvCount + 1 :=
        Nat.mod_eq_of_lt (by omega)
      simp [addTxDataMem, hroom, hmod]
    have ih1 := ih (t.addTxDataMem m) (fs.storeJson (t.slot t.mvCount) doc WriteOutcome.ok).2
      (by rw [hmem]; exact hfs) (by rw [hmem]; exact hfin)
      (by rw [hmem]; simp only [List.length_append, List.length_singleton]; omega)
      (by rw [hmem]; simp only; omega)
      (by
        intro i hi
        rw [hmem]
        have := hfit (i + 1) (by omega)
        simpa [slot, Nat.add_assoc, Nat.add_comm 1 i] using this)
      (fun m1 hm1 => hrt m1 (by simp [hm1]))
    have hall : addTxDataAll P t fs (okAppends (m :: ms)) =
        (true :: (addTxDataAll P (t.addTxDataMem m)
            (fs.storeJson (t.slot t.mvCount) doc WriteOutcome.ok).2 (okAppends ms)).1,
          (addTxDataAll P (t.addTxDataMem m)
            (fs.storeJson (t.slot t.mvCount) doc WriteOutcome.ok).2 (okAppends ms)).2) := by
      simp only [okAppends, List.map_cons, addTxDataAll, hstep]
    rw [hall]
    obtain ⟨h1, h2, h3, h4⟩ := ih1
    have hkey : (t.addTxDataMem m).connectorId = t.connectorId ∧
        (t.addTxDataMem m).txNr = t.txNr ∧ (t.addTxDataMem m).mvCount = t.mvCount + 1 := by
      rw [hmem]; exact ⟨rfl, rfl, rfl⟩
    rw [hkey.1, hkey.2.1, hkey.2.2] at h3
    have hslot : ∀ i, (t.addTxDataMem m).slot i = t.slot i := by
      intro i; simp [slot, hkey.1, hkey.2.1]
    refine ⟨?_, ?_, ⟨⟨doc, ?_, hde⟩, h3⟩, ?_⟩
    · simp [h1, List.replicate_succ]
    · rw [h2, hmem]
      simp [List.append_assoc, Nat.add_assoc, Nat.add_comm 1 ms.length]
    · have := h4 t.mvCount (Or.inl (by rw [hkey.2.2]; omega))
      rw [hslot] at this
      show (addTxDataAll P (t.addTxDataMem m)
        (fs.storeJson (t.slot t.mvCount) doc WriteOutcome.ok).2 (okAppends ms)).2.2.files
          (t.slot t.mvCount) = some doc
      rw [this]
      simp [Filesystem.storeJson]
    · intro i hi
      simp only [List.length_cons] at hi
      have hk := hkey.2.2
      have := h4 i (by omega)
      rw [hslot] at this
      show (addTxDataAll P (t.addTxDataMem m)
        (fs.storeJson (t.slot t.mvCount) doc WriteOutcome.ok).2 (okAppends ms)).2.2.files
          (t.slot i) = fs.files (t.slot i)
      rw [this]
      have hne : t.slot i ≠ t.slot t.mvCount := by
        intro heq
        have : i = t.mvCount := by simpa [slot] using heq
        omega
      simp [Filesystem.storeJson, hne]

end TransactionMeterData

namespace TransactionMeterData

variable {MV Doc : Type}

theorem restoreLoop_done (P : Platform MV Doc) (fuel misses : Nat)
    (t : TransactionMeterData MV) (fs : Filesystem Doc) (hm : MISSES_LIMIT ≤ misses) :
    restoreLoop P (fuel + 1) misses t fs = some (true, t, fs) := by
  have hm1 : ¬ misses < MISSES_LIMIT := by omega
  simp [restoreLoop, hm1]

theorem restoreLoop_too_long (P : Platform MV Doc) (fuel misses : Nat)
    (t : TransactionMeterData MV) (fs : Filesystem Doc) (hm : misses < MISSES_LIMIT)
    (hret : P.MAX_PATH_SIZE ≤ snprintfLen P (t.slot t.mvCount)) :
    restoreLoop P (fuel + 1) misses t fs = some (false, t, fs) := by
  simp [restoreLoop, hm, hret]

theorem restoreLoop_miss (P : Platform MV Doc) (fuel misses : Nat)
    (t : TransactionMeterData MV) (fs : Filesystem Doc) (hm : misses < MISSES_LIMIT)
    (hret : snprintfLen P (t.slot t.mvCount) < P.MAX_PATH_SIZE)
    (hmiss : (fs.files (t.slot t.mvCount)).bind P.deserializeSample = none) :
    restoreLoop P (fuel + 1) misses t fs =
      restoreLoop P fuel (misses + 1) { t with mvCount := (t.mvCount + 1) % UINT_RANGE }
        (fs.loadJson (t.slot t.mvCount)).2 := by
  have hret1 : ¬ P.MAX_PATH_SIZE ≤ snprintfLen P (t.slot t.mvCount) := by omega
  cases hf : fs.files (t.slot t.mvCount) with
  | none => simp [restoreLoop, hm, hret1, Filesystem.loadJson, hf]
  | some doc =>
    rw [hf] at hmiss
    simp only [Option.some_bind] at hmiss
    simp [restoreLoop, hm, hret1, Filesystem.loadJson, hf, hmiss]

theorem restoreLoop_hit (P : Platform MV Doc) (fuel misses : Nat)
    (t : TransactionMeterData MV) (fs : Filesystem Doc) (doc : Doc) (m : MV)
    (hm : misses < MISSES_LIMIT)
    (hret : snprintfLen P (t.slot t.mvCount) < P.MAX_PATH_SIZE)
    (hf : fs.files (t.slot t.mvCount) = some doc) (hde : P.deserializeSample doc = some m)
    (hroom : t.txData.length < MAX_STOPTXDATA_LEN) :
    restoreLoop P (fuel + 1) misses t fs =
      restoreLoop P fuel 0
        { t with txData := t.txData ++ [m], mvCount := (t.mvCount + 1) % UINT_RANGE }
        (fs.loadJson (t.slot t.mvCount)).2 := by
  have hret1 : ¬ P.MAX_PATH_SIZE ≤ snprintfLen P (t.slot t.mvCount) := by omega
  have hroom1 : ¬ MAX_STOPTXDATA_LEN ≤ t.txData.length := by omega
  simp [restoreLoop, hm, hret1, Filesystem.loadJson, hf, hde, hroom1]

theorem restoreLoop_overflow (P : Platform MV Doc) (fuel misses : Nat)
    (t : TransactionMeterData MV) (fs : Filesystem Doc) (doc : Doc) (m : MV)
    (hm : misses < MISSES_LIMIT)
    (hret : snprintfLen P (t.slot t.mvCount) < P.MAX_PATH_SIZE)
    (hf : fs.files (t.slot t.mvCount) = some doc) (hde : P.deserializeSample doc = some m)
    (hfull : MAX_STOPTXDATA_LEN ≤ t.txData.length) :
    restoreLoop P (fuel + 1) misses t fs =
      some (false, t, (fs.loadJson (t.slot t.mvCount)).2) := by
  have hret1 : ¬ P.MAX_PATH_SIZE ≤ snprintfLen P (t.slot t.mvCount) := by omega
  simp [restoreLoop, hm, hret1, Filesystem.loadJson, hf, hde, hfull]

/-- The loop of `restore` over slots that hold the records `ms`: after one iteration per
record the log holds them and the loop goes on behind them with no miss counted. The
storage keeps its files. -/
theorem restoreLoop_stored (P : Platform MV Doc) (ms : List MV) :
    ∀ (fuel misses : Nat) (t : TransactionMeterData MV) (fs : Filesystem Doc),
      misses < MISSES_LIMIT → (ms = [] → misses = 0) →
      Stored P fs t.connectorId t.txNr t.mvCount ms →
      t.txData.length + ms.length ≤ MAX_STOPTXDATA_LEN →
      t.mvCount + ms.length < UINT_RANGE →
      (∀ i, i < ms.length → snprintfLen P (t.slot (t.mvCount + i)) < P.MAX_PATH_SIZE) →
      ∃ fs1, fs1.files = fs.files ∧
        restoreLoop P (ms.length + fuel) misses t fs =
          restoreLoop P fuel 0
            { t with txData := t.txData ++ ms, mvCount := t.mvCount + ms.length } fs1 := by
  induction ms with
  | nil =>
    intro fuel misses t fs _ h0 _ _ _ _
    refine ⟨fs, rfl, ?_⟩
    simp [h0 rfl]
  | cons m ms ih =>
    intro fuel misses t fs hm _ hst hlen hcount hfit
    simp only [List.length_cons] at hlen hcount hfit
    obtain ⟨⟨doc, hdoc, hde⟩, hrest⟩ := hst
    have hfit0 : snprintfLen P (t.slot t.mvCount) < P.MAX_PATH_SIZE := by
      have := hfit 0 (by omega)
      simpa using this
    have hmod : (t.mvCount + 1) % UINT_RANGE = t.mvCount + 1 := Nat.mod_eq_of_lt (by omega)
    have hstep := restoreLoop_hit P (ms.length + fuel) misses t fs doc m hm hfit0 hdoc hde
      (by omega)
    rw [hmod] at hstep
    obtain ⟨fs1, hfs1, hloop⟩ := ih fuel 0
      { t with txData := t.txData ++ [m], mvCount := t.mvCount + 1 }
      (fs.loadJson (t.slot t.mvCount)).2 (by decide) (fun _ => rfl)
      (stored_congr P fs (fs.loadJson (t.slot t.mvCount)).2 t.connectorId t.txNr ms
        (t.mvCount + 1) (fun _ _ => rfl) hrest)
      (by simp only [List.length_append, List.length_singleton]; omega)
      (by simp only; omega)
      (by
        intro i hi
        have := hfit (i + 1) (by omega)
        simpa [slot, Nat.add_assoc, Nat.add_comm 1 i] using this)
    refine ⟨fs1, hfs1, ?_⟩
    have hfuel : (m :: ms).length + fuel = (ms.length + fuel) + 1 := by
      simp only [List.length_cons]; omega
    rw [hfuel, hstep, hloop]
    simp [List.append_assoc, Nat.add_assoc, Nat.add_comm 1 ms.length]

/-- The loop of `restore` over three missing slots: it ends with `true` and the log as it
was, the slot counter three further. -/
theorem restoreLoop_gap (P : Platform MV Doc) (fuel : Nat) (t : TransactionMeterData MV)
    (fs : Filesystem Doc)
    (hgap : ∀ i, i < 3 → (fs.files (t.slot (t.mvCount + i))).bind P.deserializeSample = none)
    (hcount : t.mvCount + 3 < UINT_RANGE)
    (hfit : ∀ i, i < 3 → snprintfLen P (t.slot (t.mvCount + i)) < P.MAX_PATH_SIZE) :
    ∃ fs1, fs1.files = fs.files ∧
      restoreLoop P (fuel + 4) 0 t fs = some (true, { t with mvCount := t.mvCount + 3 }, fs1) := by
  have hm0 : (t.mvCount + 1) % UINT_RANGE = t.mvCount + 1 := Nat.mod_eq_of_lt (by omega)
  have hm1 : (t.mvCount + 1 + 1) % UINT_RANGE = t.mvCount + 2 := Nat.mod_eq_of_lt (by omega)
  have hm2 : (t.mvCount + 2 + 1) % UINT_RANGE = t.mvCount + 3 := Nat.mod_eq_of_lt (by omega)
  have s0 := restoreLoop_miss P (fuel + 3) 0 t fs (by decide)
    (by simpa using hfit 0 (by omega)) (by simpa using hgap 0 (by omega))
  rw [hm0] at s0
  have s1 := restoreLoop_miss P (fuel + 2) 1 { t with mvCount := t.mvCount + 1 }
    (fs.loadJson (t.slot t.mvCount)).2 (by decide)
    (by simpa [slot] using hfit 1 (by omega))
    (by simpa [slot, Filesystem.loadJson] using hgap 1 (by omega))
  simp only [hm1] at s1
  have s2 := restoreLoop_miss P (fuel + 1) 2 { t with mvCount := t.mvCount + 2 }
    ((fs.loadJson (t.slot t.mvCount)).2.loadJson
      (TransactionMeterData.slot { t with mvCount := t.mvCount + 1 } (t.mvCount + 1))).2
    (by decide)
    (by simpa [slot] using hfit 2 (by omega))
    (by simpa [slot, Filesystem.loadJson] using hgap 2 (by omega))
  simp only [hm2] at s2
  have s3 := restoreLoop_done P fuel 3 { t with mvCount := t.mvCount + 3 }
    (((fs.loadJson (t.slot t.mvCount)).2.loadJson
      (TransactionMeterData.slot { t with mvCount := t.mvCount + 1 } (t.mvCount + 1))).2.loadJson
      (TransactionMeterData.slot { t with mvCount := t.mvCount + 2 } (t.mvCount + 2))).2
    (by decide)
  refine ⟨_, ?_, s0.trans (s1.trans (s2.trans s3))⟩
  rfl

/-- Round trip up to the capacity: at most ten records whose documents deserialize back,
appended to a fresh storage-backed log over a storage without slots of its key, are
returned by `restore` on a new log of the key, in order, and `restore` returns `true`. -/
theorem restore_addTxDataAll (P : Platform MV Doc) (c n : Nat) (ms : List MV)
    (fs : Filesystem Doc) (hlen : ms.length ≤ MAX_STOPTXDATA_LEN)
    (hrt : ∀ m ∈ ms, ∃ doc, P.toJson m = some doc ∧ P.deserializeSample doc = some m)
    (hfit : ∀ i, i < ms.length + 3 → snprintfLen P ⟨c, n, i⟩ < P.MAX_PATH_SIZE)
    (hfresh : ∀ i, fs.files ⟨c, n, i⟩ = none) :
    (addTxDataAll P (TransactionMeterData.new c n true) fs (okAppends ms)).1
        = List.replicate ms.length true ∧
      (addTxDataAll P (TransactionMeterData.new c n true) fs (okAppends ms)).2.1.txData = ms ∧
      ((TransactionMeterData.new c n true : TransactionMeterData MV).restore P
        (addTxDataAll P (TransactionMeterData.new c n true) fs (okAppends ms)).2.2).1 = true ∧
      ((TransactionMeterData.new c n true : TransactionMeterData MV).restore P
        (addTxDataAll P (TransactionMeterData.new c n true) fs (okAppends ms)).2.2).2.1.txData
        = ms := by
  have hlen' : ms.length ≤ 10 := hlen
  obtain ⟨h1, h2, h3, h4⟩ := addTxDataAll_okAppends P ms (TransactionMeterData.new c n true) fs
    rfl rfl (by simpa [TransactionMeterData.new] using hlen)
    (by simp only [TransactionMeterData.new, UINT_RANGE]; omega)
    (fun i hi => by simpa [TransactionMeterData.new, slot] using hfit i (by omega)) hrt
  refine ⟨h1, by rw [h2]; simp [TransactionMeterData.new], ?_⟩
  generalize (addTxDataAll P (TransactionMeterData.new c n true) fs (okAppends ms)).2.2 = fs1
    at h3 h4
  obtain ⟨fs2, hfs2, hloop⟩ := restoreLoop_stored P ms
    ((TransactionMeterData.new c n true : TransactionMeterData MV).restoreFuel - ms.length) 0
    (TransactionMeterData.new c n true) fs1 (by decide) (fun _ => rfl) h3
    (by simpa [TransactionMeterData.new] using hlen)
    (by simp only [TransactionMeterData.new, UINT_RANGE]; omega)
    (fun i hi => by simpa [TransactionMeterData.new, slot] using hfit i (by omega))
  have hfuel : ms.length + ((TransactionMeterData.new c n true :
      TransactionMeterData MV).restoreFuel - ms.length) =
      (TransactionMeterData.new c n true : TransactionMeterData MV).restoreFuel := by
    simp only [restoreFuel, TransactionMeterData.new, MISSES_LIMIT, MAX_STOPTXDATA_LEN,
      List.length_nil]
    omega
  rw [hfuel] at hloop
  obtain ⟨fs3, -, hgap⟩ := restoreLoop_gap P
    ((TransactionMeterData.new c n true : TransactionMeterData MV).restoreFuel - ms.length - 4)
    { (TransactionMeterData.new c n true : TransactionMeterData MV) with
      txData := (TransactionMeterData.new c n true : TransactionMeterData MV).txData ++ ms,
      mvCount := (TransactionMeterData.new c n true : TransactionMeterData MV).mvCount
        + ms.length }
    fs2
    (by
      intro i hi
      have := h4 (ms.length + i) (Or.inr (by simp [TransactionMeterData.new]))
      simp only [TransactionMeterData.new, slot, Nat.zero_add] at this ⊢
      rw [hfs2, this, hfresh]
      rfl)
    (by simp only [TransactionMeterData.new, UINT_RANGE]; omega)
    (fun i hi => by simpa [TransactionMeterData.new, slot] using hfit (ms.length + i) (by omega))
  have hfuel2 : (TransactionMeterData.new c n true : TransactionMeterData MV).restoreFuel
      - ms.length - 4 + 4 =
      (TransactionMeterData.new c n true : TransactionMeterData MV).restoreFuel - ms.length := by
    simp only [restoreFuel, TransactionMeterData.new, MISSES_LIMIT, MAX_STOPTXDATA_LEN,
      List.length_nil]
    omega
  rw [hfuel2] at hgap
  rw [hgap] at hloop
  have hres := restore_eq_restoreLoop P (TransactionMeterData.new c n true) fs1 rfl
  rw [hloop] at hres
  simp only [Option.some.injEq] at hres
  rw [← hres]
  simp [TransactionMeterData.new]

/-- The slot of an append to a full log, on every platform: after ten successful appends
to a fresh storage-backed log, a further successful append overwrites index 9 of the held
sequence, stores its document in slot 10 and leaves slot 9 as it was. -/
theorem addTxData_after_ten (P : Platform MV Doc) (c n : Nat) (ms : List MV) (m : MV)
    (doc : Doc) (fs : Filesystem Doc) (hlen : ms.length = 10)
    (hrt : ∀ m1 ∈ ms, ∃ d, P.toJson m1 = some d ∧ P.deserializeSample d = some m1)
    (hfit : ∀ i, i < 11 → snprintfLen P ⟨c, n, i⟩ < P.MAX_PATH_SIZE)
    (hdoc : P.toJson m = some doc) :
    ((addTxDataAll P (TransactionMeterData.new c n true) fs (okAppends ms)).2.1.addTxData P
        (addTxDataAll P (TransactionMeterData.new c n true) fs (okAppends ms)).2.2
        (some m) WriteOutcome.ok).1 = true ∧
      ((addTxDataAll P (TransactionMeterData.new c n true) fs (okAppends ms)).2.1.addTxData P
        (addTxDataAll P (TransactionMeterData.new c n true) fs (okAppends ms)).2.2
        (some m) WriteOutcome.ok).2.1.txData = ms.set 9 m ∧
      ((addTxDataAll P (TransactionMeterData.new c n true) fs (okAppends ms)).2.1.addTxData P
        (addTxDataAll P (TransactionMeterData.new c n true) fs (okAppends ms)).2.2
        (some m) WriteOutcome.ok).2.2.files ⟨c, n, 10⟩ = some doc ∧
      ((addTxDataAll P (TransactionMeterData.new c n true) fs (okAppends ms)).2.1.addTxData P
        (addTxDataAll P (TransactionMeterData.new c n true) fs (okAppends ms)).2.2
        (some m) WriteOutcome.ok).2.2.files ⟨c, n, 9⟩ =
        (addTxDataAll P (TransactionMeterData.new c n true) fs (okAppends ms)).2.2.files
          ⟨c, n, 9⟩ := by
  obtain ⟨-, h2, -, -⟩ := addTxDataAll_okAppends P ms (TransactionMeterData.new c n true) fs
    rfl rfl (by simp [TransactionMeterData.new, MAX_STOPTXDATA_LEN, hlen])
    (by simp [TransactionMeterData.new, UINT_RANGE, hlen])
    (fun i hi => by simpa [TransactionMeterData.new, slot] using hfit i (by omega)) hrt
  generalize (addTxDataAll P (TransactionMeterData.new c n true) fs (okAppends ms)).2.2 = fs1
  rw [h2]
  have hstep := addTxData_stored P
    { (TransactionMeterData.new c n true : TransactionMeterData MV) with
      txData := (TransactionMeterData.new c n true : TransactionMeterData MV).txData ++ ms,
      mvCount := (TransactionMeterData.new c n true : TransactionMeterData MV).mvCount
        + ms.length }
    fs1 m doc rfl rfl
    (by simpa [TransactionMeterData.new, slot, hlen] using hfit 10 (by omega)) hdoc
  rw [hstep]
  refine ⟨rfl, ?_, ?_, ?_⟩
  · simp [addTxDataMem, TransactionMeterData.new, MAX_STOPTXDATA_LEN, hlen]
  · simp [Filesystem.storeJson, TransactionMeterData.new, slot, hlen]
  · simp [Filesystem.storeJson, TransactionMeterData.new, slot, hlen]

end TransactionMeterData

/-! ## Theorems: intents of `loop` and permission to charge -/

namespace ConnectorStatus

theorem loopStatus_ne_stop (s : ConnectorStatus) (now : Nat) (c : Int) :
    (s.loopStatus now).1 ≠ some (OcppMessage.StopTransaction c) := by
  unfold loopStatus
  simp only
  split <;> simp

theorem loopCommit_fields (s : ConnectorStatus) :
    s.loopCommit.connectorId = s.connectorId ∧
      s.loopCommit.transactionId = s.transactionId ∧
      s.loopCommit.session = s.session ∧
      s.loopCommit.currentStatus = s.currentStatus ∧
      s.loopCommit.connectorPluggedSampler = s.connectorPluggedSampler ∧
      s.loopCommit.evRequestsEnergySampler = s.evRequestsEnergySampler ∧
      s.loopCommit.connectorEnergizedSampler = s.connectorEnergizedSampler ∧
      s.loopCommit.connectorErrorCodeSamplers = s.connectorErrorCodeSamplers := by
  unfold loopCommit
  split <;> exact ⟨rfl, rfl, rfl, rfl, rfl, rfl, rfl, rfl⟩

theorem loopCommit_getErrorCode (s : ConnectorStatus) :
    s.loopCommit.getErrorCode = s.getErrorCode := by
  unfold getErrorCode
  rw [(loopCommit_fields s).2.2.2.2.2.2.2]

/-- The three ways through `loop` after the commit of step 1. -/
theorem loop_cases (s : ConnectorStatus) (now : Nat) :
    (s.loop now = (some (OcppMessage.StopTransaction s.connectorId), s.loopCommit) ∧
        s.connectorPluggedSampler ≠ none ∧ s.transactionId ≥ 0 ∧
        (s.connectorPluggedSampler = some false ∨ s.session = false)) ∨
      (s.loop now = (some (OcppMessage.StartTransaction s.connectorId), s.loopCommit) ∧
        s.transactionId < 0 ∧ s.connectorPluggedSampler = some true ∧ s.session = true ∧
        s.getErrorCode = none ∧ s.loopCommit.availability = AVAILABILITY_OPERATIVE) ∨
      (s.loop now = s.loopCommit.loopStatus now ∧
        ¬ (s.connectorPluggedSampler ≠ none ∧ s.transactionId ≥ 0 ∧
          (s.connectorPluggedSampler = some false ∨ s.session = false)) ∧
        ¬ (s.transactionId < 0 ∧ s.connectorPluggedSampler = some true ∧ s.session = true ∧
          s.getErrorCode = none ∧ s.loopCommit.availability = AVAILABILITY_OPERATIVE)) := by
  obtain ⟨hid, htx, hs, -, hp, -, -, -⟩ := loopCommit_fields s
  have he := loopCommit_getErrorCode s
  cases hplug : s.connectorPluggedSampler with
  | none =>
    right; right
    refine ⟨?_, fun h => h.1 rfl, fun h => by simp at h⟩
    simp [loop, hp, hplug]
  | some plugged =>
    by_cases hge : s.transactionId ≥ 0
    · have hlt : ¬ s.transactionId < 0 := by omega
      by_cases hstop : plugged = false ∨ s.session = false
      · left
        refine ⟨?_, by simp, hge, ?_⟩
        · simp [loop, hp, hplug, getTransactionId, htx, hge, hs, hstop, hid]
        · rcases hstop with h | h
          · left; rw [h]
          · right; exact h
      · right; right
        refine ⟨?_, ?_, fun h => hlt h.1⟩
        · simp [loop, hp, hplug, getTransactionId, htx, hge, hs, hstop]
        · rintro ⟨-, -, h⟩
          apply hstop
          rcases h with h | h
          · left; exact Option.some.inj h
          · right; exact h
    · have hlt : s.transactionId < 0 := by omega
      by_cases hstart : plugged = true ∧ s.session = true ∧ s.getErrorCode = none ∧
          s.loopCommit.availability = AVAILABILITY_OPERATIVE
      · right; left
        refine ⟨?_, hlt, by rw [hstart.1], hstart.2.1, hstart.2.2.1, hstart.2.2.2⟩
        simp [loop, hp, hplug, getTransactionId, htx, hge, hs, he, hstart, hid]
      · right; right
        refine ⟨?_, fun h => hge h.2.1, ?_⟩
        · simp only [loop, hp, hplug, getTransactionId, htx, hge, hs, he, if_false]
          rw [if_neg hstart]
        · rintro ⟨-, h1, h2, h3, h4⟩
          exact hstart ⟨Option.some.inj h1, h2, h3, h4⟩

end ConnectorStatus

/-- C11, counterexample: with the transitional transaction id 0 (no transaction active),
a plug sampler that reports no plug makes `loop` return a StopTransaction. -/
theorem loop_stopTransaction_pending :
    pendingConnector.transactionId ≤ 0 ∧ ¬ pendingConnector.transactionId > 0 ∧
      (pendingConnector.loop 0).1 = some (OcppMessage.StopTransaction 1) := by
  decide

/-- C11, amended: `loop` returns a StopTransaction exactly when a plug sampler is set,
the transaction id is not negative (a transaction is running or, with id 0, pending), and
the plug is not reported or the session has ended; it is then the StopTransaction of this
connector, and with a negative transaction id `loop` never returns a StopTransaction. -/
theorem loop_stopTransaction_iff (s : ConnectorStatus) (now : Nat) :
    ((∃ c, (s.loop now).1 = some (OcppMessage.StopTransaction c)) ↔
        (s.connectorPluggedSampler ≠ none ∧ s.transactionId ≥ 0 ∧
          (s.connectorPluggedSampler = some false ∨ s.session = false))) ∧
      ((s.connectorPluggedSampler ≠ none ∧ s.transactionId ≥ 0 ∧
          (s.connectorPluggedSampler = some false ∨ s.session = false)) →
        (s.loop now).1 = some (OcppMessage.StopTransaction s.connectorId)) ∧
      (s.transactionId < 0 → ∀ c, (s.loop now).1 ≠ some (OcppMessage.StopTransaction c)) := by
  have hfwd : (s.connectorPluggedSampler ≠ none ∧ s.transactionId ≥ 0 ∧
      (s.connectorPluggedSampler = some false ∨ s.session = false)) →
      (s.loop now).1 = some (OcppMessage.StopTransaction s.connectorId) := by
    intro hc
    rcases ConnectorStatus.loop_cases s now with ⟨h, -⟩ | ⟨-, hlt, -⟩ | ⟨-, hn, -⟩
    · rw [h]
    · have := hc.2.1; omega
    · exact absurd hc hn
  have hbwd : (∃ c, (s.loop now).1 = some (OcppMessage.StopTransaction c)) →
      (s.connectorPluggedSampler ≠ none ∧ s.transactionId ≥ 0 ∧
        (s.connectorPluggedSampler = some false ∨ s.session = false)) := by
    rintro ⟨c, hc⟩
    rcases ConnectorStatus.loop_cases s now with ⟨-, h⟩ | ⟨h, -⟩ | ⟨h, -, -⟩
    · exact h
    · rw [h] at hc; simp at hc
    · rw [h] at hc
      exact absurd hc (ConnectorStatus.loopStatus_ne_stop _ _ _)
  refine ⟨⟨hbwd, fun h => ⟨_, hfwd h⟩⟩, hfwd, ?_⟩
  intro hlt c hc
  have := (hbwd ⟨c, hc⟩).2.1
  omega

/-- Witness for C11: the running transaction 5 is stopped when the session ends, and the
connector without a transaction gets no StopTransaction. -/
theorem loop_stopTransaction_iff_witness :
    (chargingConnector.endSession.loop 0).1 = some (OcppMessage.StopTransaction 1) ∧
      (idleConnector.loop 0).1 ≠ some (OcppMessage.StopTransaction 1) :=
  ⟨(loop_stopTransaction_iff chargingConnector.endSession 0).2.1
      ⟨by decide, by decide, Or.inr (by decide)⟩,
    (loop_stopTransaction_iff idleConnector 0).2.2 (by decide) 1⟩

namespace ConnectorStatus

theorem getErrorCodeFrom_eq_findSome (l : List (Option String)) :
    getErrorCodeFrom l = l.findSome? id := by
  induction l with
  | nil => rfl
  | cons err rest ih =>
    cases err with
    | none => simpa [getErrorCodeFrom, List.findSome?] using ih
    | some e => simp [getErrorCodeFrom, List.findSome?]

/-- The status inferred after the inferred status was stored is the same status. -/
theorem inferenceStatus_stored (s : ConnectorStatus) :
    ({ s with currentStatus := s.inferenceStatus } : ConnectorStatus).inferenceStatus
      = s.inferenceStatus := by
  generalize hst : s.inferenceStatus = st
  simp only [inferenceStatus, getErrorCode, getTransactionId] at hst ⊢
  split_ifs at hst ⊢ <;> subst hst <;> simp_all

theorem loopStatus_changed (s : ConnectorStatus) (now : Nat)
    (h : s.inferenceStatus ≠ s.currentStatus) :
    s.loopStatus now =
      (some (OcppMessage.StatusNotification s.connectorId s.inferenceStatus now s.getErrorCode),
       { s with currentStatus := s.inferenceStatus }) := by
  unfold loopStatus
  simp only
  rw [if_pos h]
  rfl

theorem loopStatus_unchanged (s : ConnectorStatus) (now : Nat)
    (h : s.inferenceStatus = s.currentStatus) : s.loopStatus now = (none, s) := by
  unfold loopStatus
  simp only
  rw [if_neg (fun hne => hne h)]

theorem loopCommit_idem (s : ConnectorStatus) : s.loopCommit.loopCommit = s.loopCommit := by
  by_cases h : s.getTransactionId ≤ 0 ∧ s.availability = AVAILABILITY_INOPERATIVE_SCHEDULED
  · have h1 : s.loopCommit = saveState { s with availability := AVAILABILITY_INOPERATIVE } := by
      unfold loopCommit
      rw [if_pos h]
    rw [h1]
    simp [loopCommit, saveState, getTransactionId]
  · have h1 : s.loopCommit = s := by
      unfold loopCommit
      rw [if_neg h]
    rw [h1, h1]

end ConnectorStatus

/-- C17: when `loop` returns neither a StartTransaction nor a StopTransaction, it compares
the status inferred from the state after step 1 with `currentStatus`: if they differ it
stores the inferred status and returns the StatusNotification with the connector id, that
status, the current time and the current error code, which is the first non-null result
of the error samplers; if they are equal it returns nothing and leaves the status. -/
theorem loop_statusNotification (s : ConnectorStatus) (now : Nat)
    (hstart : ∀ c, (s.loop now).1 ≠ some (OcppMessage.StartTransaction c))
    (hstop : ∀ c, (s.loop now).1 ≠ some (OcppMessage.StopTransaction c)) :
    (s.loopCommit.inferenceStatus ≠ s.currentStatus →
        s.loop now =
          (some (OcppMessage.StatusNotification s.connectorId s.loopCommit.inferenceStatus now
            s.getErrorCode),
           { s.loopCommit with currentStatus := s.loopCommit.inferenceStatus })) ∧
      (s.loopCommit.inferenceStatus = s.currentStatus →
        s.loop now = (none, s.loopCommit) ∧ (s.loop now).2.currentStatus = s.currentStatus) ∧
      s.getErrorCode = s.connectorErrorCodeSamplers.findSome? id := by
  obtain ⟨hid, -, -, hcur, -, -, -, -⟩ := ConnectorStatus.loopCommit_fields s
  have he := ConnectorStatus.loopCommit_getErrorCode s
  have hloop : s.loop now = s.loopCommit.loopStatus now := by
    rcases ConnectorStatus.loop_cases s now with ⟨h, -⟩ | ⟨h, -⟩ | ⟨h, -⟩
    · exact absurd (by rw [h]) (hstop s.connectorId)
    · exact absurd (by rw [h]) (hstart s.connectorId)
    · exact h
  refine ⟨?_, ?_, ConnectorStatus.getErrorCodeFrom_eq_findSome _⟩
  · intro hne
    rw [hloop]
    have hne1 : s.loopCommit.inferenceStatus ≠ s.loopCommit.currentStatus := by
      rw [hcur]; exact hne
    rw [ConnectorStatus.loopStatus_changed _ _ hne1, he]
    simp only [hid]
  · intro heq
    rw [hloop]
    have heq1 : s.loopCommit.inferenceStatus = s.loopCommit.currentStatus := by
      rw [hcur]; exact heq
    rw [ConnectorStatus.loopStatus_unchanged _ _ heq1]
    exact ⟨rfl, hcur⟩

/-- Witness for C17: the idle connector, whose status was never reported and whose second
error sampler reports GroundFailure, reports Faulted with that code. -/
theorem loop_statusNotification_witness :
    (idleConnector.loop 9).1 =
      some (OcppMessage.StatusNotification 1 OcppEvseState.Faulted 9 (some "GroundFailure")) :=
  congrArg Prod.fst
    ((loop_statusNotification idleConnector 9
      (fun c h => by
        rw [show (idleConnector.loop 9).1 = some (OcppMessage.StatusNotification 1
          OcppEvseState.Faulted 9 (some "GroundFailure")) from by decide] at h
        cases h)
      (fun c h => by
        rw [show (idleConnector.loop 9).1 = some (OcppMessage.StatusNotification 1
          OcppEvseState.Faulted 9 (some "GroundFailure")) from by decide] at h
        cases h)).1 (by decide))

theorem ConnectorStatus.loopCommit_of_not_scheduled (x : ConnectorStatus)
    (h : ¬ (x.transactionId ≤ 0 ∧ x.availability = AVAILABILITY_INOPERATIVE_SCHEDULED)) :
    x.loopCommit = x := by
  unfold ConnectorStatus.loopCommit
  exact if_neg h

theorem ConnectorStatus.loopCommit_not_scheduled (s : ConnectorStatus) :
    ¬ (s.loopCommit.transactionId ≤ 0 ∧
      s.loopCommit.availability = AVAILABILITY_INOPERATIVE_SCHEDULED) := by
  by_cases h : s.getTransactionId ≤ 0 ∧ s.availability = AVAILABILITY_INOPERATIVE_SCHEDULED
  · have h1 : s.loopCommit =
        ConnectorStatus.saveState { s with availability := AVAILABILITY_INOPERATIVE } := by
      unfold ConnectorStatus.loopCommit
      rw [if_pos h]
    rw [h1]
    simp [ConnectorStatus.saveState]
  · rw [ConnectorStatus.loopCommit_of_not_scheduled s h]
    exact h

/-- C20: when `loop` returns a StatusNotification, the next `loop` on the resulting state,
with the same sampler readings and at any time, returns nothing and leaves the state as
it is. -/
theorem loop_stabilises (s : ConnectorStatus) (now later : Nat) (c : Int)
    (status : OcppEvseState) (timestamp : Nat) (errorCode : Option String)
    (h : (s.loop now).1 =
      some (OcppMessage.StatusNotification c status timestamp errorCode)) :
    (s.loop now).2.loop later = (none, (s.loop now).2) := by
  rcases ConnectorStatus.loop_cases s now with ⟨h1, -⟩ | ⟨h1, -⟩ | ⟨h1, hnstop, hnstart⟩
  · rw [h1] at h; cases h
  · rw [h1] at h; cases h
  · by_cases hne : s.loopCommit.inferenceStatus ≠ s.loopCommit.currentStatus
    · have h2 := ConnectorStatus.loopStatus_changed s.loopCommit now hne
      rw [h1, h2]
      -- the state after the first call
      generalize hs2 : ({ s.loopCommit with currentStatus := s.loopCommit.inferenceStatus } :
        ConnectorStatus) = s2
      obtain ⟨hid, htx, hs, -, hp, -, -, -⟩ := ConnectorStatus.loopCommit_fields s
      have he := ConnectorStatus.loopCommit_getErrorCode s
      have hinf : s2.inferenceStatus = s2.currentStatus := by
        rw [← hs2]
        exact ConnectorStatus.inferenceStatus_stored s.loopCommit
      have hcommit : s2.loopCommit = s2 := by
        apply ConnectorStatus.loopCommit_of_not_scheduled
        rw [← hs2]
        exact ConnectorStatus.loopCommit_not_scheduled s
      have hf2 : s2.connectorPluggedSampler = s.connectorPluggedSampler ∧
          s2.transactionId = s.transactionId ∧ s2.session = s.session ∧
          s2.getErrorCode = s.getErrorCode ∧
          s2.availability = s.loopCommit.availability := by
        rw [← hs2]
        exact ⟨hp, htx, hs, he, rfl⟩
      rcases ConnectorStatus.loop_cases s2 later with ⟨-, hc⟩ | ⟨-, hc⟩ | ⟨h3, -, -⟩
      · rw [hf2.1, hf2.2.1, hf2.2.2.1] at hc
        exact absurd hc hnstop
      · rw [hf2.1, hf2.2.1, hf2.2.2.1, hf2.2.2.2.1, hcommit, hf2.2.2.2.2] at hc
        exact absurd hc hnstart
      · rw [h3, hcommit]
        exact ConnectorStatus.loopStatus_unchanged s2 later hinf
    · have heq : s.loopCommit.inferenceStatus = s.loopCommit.currentStatus := by
        by_contra hc
        exact hne hc
      rw [h1, ConnectorStatus.loopStatus_unchanged _ _ heq] at h
      cases h

/-- Witness for C20: the idle connector reports Faulted once and nothing at the next
call. -/
theorem loop_stabilises_witness :
    (idleConnector.loop 9).1 =
        some (OcppMessage.StatusNotification 1 OcppEvseState.Faulted 9 (some "GroundFailure")) ∧
      ((idleConnector.loop 9).2.loop 10).1 = none :=
  ⟨by decide,
    congrArg Prod.fst
      (loop_stabilises idleConnector 9 10 1 OcppEvseState.Faulted 9 (some "GroundFailure")
        (by decide))⟩

/-- C19: for a connector id that is not negative, `ocppPermitsCharge` returns `true`
exactly when the id is positive, no error code is present, the availability is not
Inoperative and the transaction id is positive. -/
theorem ocppPermitsCharge_iff (s : ConnectorStatus) (hid : 0 ≤ s.connectorId) :
    s.ocppPermitsCharge = true ↔
      (s.connectorId > 0 ∧ s.getErrorCode = none ∧
        s.availability ≠ AVAILABILITY_INOPERATIVE ∧ s.transactionId > 0) := by
  by_cases h0 : s.connectorId = 0
  · simp [ConnectorStatus.ocppPermitsCharge, h0]
  · have hpos : s.connectorId > 0 := by omega
    simp only [ConnectorStatus.ocppPermitsCharge, h0, if_false, decide_eq_true_eq,
      ConnectorStatus.inferenceStatus, ConnectorStatus.getTransactionId, hpos, true_and]
    by_cases he : s.getErrorCode = none
    · by_cases ha : s.availability = AVAILABILITY_INOPERATIVE
      · simp [he, ha]
      · by_cases htx : s.transactionId > 0
        · have h1 : ¬ s.transactionId < 0 := by omega
          have h2 : ¬ s.transactionId ≤ 0 := by omega
          simp only [he, ha, htx, h1, h2, ne_eq, not_true_eq_false, if_false, false_and,
            and_false, not_false_eq_true, and_self, iff_true]
          split_ifs <;> simp
        · have h2 : s.transactionId ≤ 0 := by omega
          simp only [he, ha, htx, h2, ne_eq, not_true_eq_false, if_false, if_true,
            and_false, iff_false]
          split_ifs <;> simp
    · simp [he]

/-- Witness for C19: the connector in transaction 5 may charge, also after
`setAvailability(false)` made it InoperativeScheduled. -/
theorem ocppPermitsCharge_iff_witness :
    0 ≤ (chargingConnector.setAvailability false).connectorId ∧
      (chargingConnector.setAvailability false).availability
        = AVAILABILITY_INOPERATIVE_SCHEDULED ∧
      (chargingConnector.setAvailability false).ocppPermitsCharge = true :=
  ⟨by decide, by decide,
    (ocppPermitsCharge_iff (chargingConnector.setAvailability false) (by decide)).mpr
      ⟨by decide, by decide, by decide, by decide⟩⟩

/-- C16: on the connector in transaction 5 without samplers for energy demand and
energization, `setConnectorEnergizedSampler` with a sampler that reports "not energized"
leaves the member empty, and `inferenceStatus` returns Charging. -/
theorem setConnectorEnergizedSampler_ignored :
    (chargingConnector.setConnectorEnergizedSampler (some false)).connectorEnergizedSampler
        = none ∧
      (chargingConnector.setConnectorEnergizedSampler (some false)).inferenceStatus
        = OcppEvseState.Charging ∧
      (chargingConnector.setEvRequestsEnergySampler (some false)).evRequestsEnergySampler
        = some false := by
  decide

/-! ## Theorems: `restore` over a storage -/

/-- C18: a new log of connector 1, transaction 7 restores the records 100, 101, 102 from
the slots 0, 1, 2 and has the slot counter 6 afterwards; a successful append of 103 is
stored in slot 6, slot 3 stays missing, and `restore` on a new log over that storage
returns the three records without 103. -/
theorem addTxData_after_restore_slot :
    restoredThree.1 = true ∧ restoredThree.2.1.txData = [100, 101, 102] ∧
      restoredThree.2.1.mvCount = 6 ∧
      appendedAfterRestore.1 = true ∧
      appendedAfterRestore.2.1.txData = [100, 101, 102, 103] ∧
      appendedAfterRestore.2.2.files ⟨1, 7, 6⟩ = some 103 ∧
      appendedAfterRestore.2.2.files ⟨1, 7, 3⟩ = none ∧
      ((TransactionMeterData.new 1 7 true).restore natPlatform appendedAfterRestore.2.2).1
        = true ∧
      ((TransactionMeterData.new 1 7 true).restore natPlatform
        appendedAfterRestore.2.2).2.1.txData = [100, 101, 102] := by
  decide

namespace TransactionMeterData

variable {MV Doc : Type}

theorem mem_loadCalls (c n : Nat) (x : FsCall) :
    ∀ (k j : Nat), x ∈ loadCalls c n j k ↔ ∃ i, j ≤ i ∧ i < j + k ∧ x = FsCall.load ⟨c, n, i⟩ := by
  intro k
  induction k with
  | zero =>
    intro j
    simp only [loadCalls, List.not_mem_nil, false_iff]
    rintro ⟨i, h1, h2, -⟩
    omega
  | succ k ih =>
    intro j
    simp only [loadCalls, List.mem_cons, ih]
    constructor
    · rintro (h | ⟨i, h1, h2, h3⟩)
      · exact ⟨j, le_refl j, by omega, h⟩
      · exact ⟨i, by omega, by omega, h3⟩
    · rintro ⟨i, h1, h2, h3⟩
      by_cases hij : i = j
      · left; rw [h3, hij]
      · right; exact ⟨i, by omega, by omega, h3⟩

theorem loadCalls_append (c n : Nat) :
    ∀ (k j m : Nat), loadCalls c n j k ++ loadCalls c n (j + k) m = loadCalls c n j (k + m) := by
  intro k
  induction k with
  | zero => intro j m; simp [loadCalls]
  | succ k ih =>
    intro j m
    have h := ih (j + 1) m
    have e1 : j + 1 + k = j + (k + 1) := by omega
    have e2 : k + 1 + m = (k + m) + 1 := by omega
    rw [e1] at h
    rw [e2]
    simp only [loadCalls, List.cons_append, h]

/-- The loop of `restore` over slots that hold the records `ms`, with the calls it makes:
one `loadJson` per slot, in order. -/
theorem restoreLoop_stored_calls (P : Platform MV Doc) (ms : List MV) :
    ∀ (fuel : Nat) (t : TransactionMeterData MV) (fs : Filesystem Doc),
      Stored P fs t.connectorId t.txNr t.mvCount ms →
      t.txData.length + ms.length ≤ MAX_STOPTXDATA_LEN →
      t.mvCount + ms.length < UINT_RANGE →
      (∀ i, i < ms.length → snprintfLen P (t.slot (t.mvCount + i)) < P.MAX_PATH_SIZE) →
      restoreLoop P (ms.length + fuel) 0 t fs =
        restoreLoop P fuel 0
          { t with txData := t.txData ++ ms, mvCount := t.mvCount + ms.length }
          { files := fs.files,
            calls := fs.calls ++ loadCalls t.connectorId t.txNr t.mvCount ms.length } := by
  induction ms with
  | nil =>
    intro fuel t fs _ _ _ _
    simp [loadCalls]
  | cons m ms ih =>
    intro fuel t fs hst hlen hcount hfit
    simp only [List.length_cons] at hlen hcount hfit
    obtain ⟨⟨doc, hdoc, hde⟩, hrest⟩ := hst
    have hfit0 : snprintfLen P (t.slot t.mvCount) < P.MAX_PATH_SIZE := by
      have := hfit 0 (by omega)
      simpa using this
    have hmod : (t.mvCount + 1) % UINT_RANGE = t.mvCount + 1 := Nat.mod_eq_of_lt (by omega)
    have hstep := restoreLoop_hit P (ms.length + fuel) 0 t fs doc m (by decide) hfit0 hdoc hde
      (by omega)
    rw [hmod] at hstep
    have hloop := ih fuel
      { t with txData := t.txData ++ [m], mvCount := t.mvCount + 1 }
      (fs.loadJson (t.slot t.mvCount)).2
      (stored_congr P fs (fs.loadJson (t.slot t.mvCount)).2 t.connectorId t.txNr ms
        (t.mvCount + 1) (fun _ _ => rfl) hrest)
      (by simp only [List.length_append, List.length_singleton]; omega)
      (by simp only; omega)
      (by
        intro i hi
        have := hfit (i + 1) (by omega)
        simpa [slot, Nat.add_assoc, Nat.add_comm 1 i] using this)
    have hfuel : (m :: ms).length + fuel = (ms.length + fuel) + 1 := by
      simp only [List.length_cons]; omega
    rw [hfuel, hstep, hloop]
    simp [List.append_assoc, Nat.add_assoc, Nat.add_comm 1 ms.length, Filesystem.loadJson,
      loadCalls, slot]

/-- The loop of `restore` over three missing or undeserializable slots, with the calls it
makes: it ends with `true` after three `loadJson` calls. -/
theorem restoreLoop_gap_calls (P : Platform MV Doc) (fuel : Nat)
    (t : TransactionMeterData MV) (fs : Filesystem Doc)
    (hgap : ∀ i, i < 3 → (fs.files (t.slot (t.mvCount + i))).bind P.deserializeSample = none)
    (hcount : t.mvCount + 3 < UINT_RANGE)
    (hfit : ∀ i, i < 3 → snprintfLen P (t.slot (t.mvCount + i)) < P.MAX_PATH_SIZE) :
    restoreLoop P (fuel + 4) 0 t fs =
      some (true, { t with mvCount := t.mvCount + 3 },
        { files := fs.files,
          calls := fs.calls ++ loadCalls t.connectorId t.txNr t.mvCount 3 }) := by
  have hm0 : (t.mvCount + 1) % UINT_RANGE = t.mvCount + 1 := Nat.mod_eq_of_lt (by omega)
  have hm1 : (t.mvCount + 1 + 1) % UINT_RANGE = t.mvCount + 2 := Nat.mod_eq_of_lt (by omega)
  have hm2 : (t.mvCount + 2 + 1) % UINT_RANGE = t.mvCount + 3 := Nat.mod_eq_of_lt (by omega)
  have s0 := restoreLoop_miss P (fuel + 3) 0 t fs (by decide)
    (by simpa using hfit 0 (by omega)) (by simpa using hgap 0 (by omega))
  rw [hm0] at s0
  have s1 := restoreLoop_miss P (fuel + 2) 1 { t with mvCount := t.mvCount + 1 }
    (fs.loadJson (t.slot t.mvCount)).2 (by decide)
    (by simpa [slot] using hfit 1 (by omega))
    (by simpa [slot, Filesystem.loadJson] using hgap 1 (by omega))
  simp only [hm1] at s1
  have s2 := restoreLoop_miss P (fuel + 1) 2 { t with mvCount := t.mvCount + 2 }
    ((fs.loadJson (t.slot t.mvCount)).2.loadJson
      (TransactionMeterData.slot { t with mvCount := t.mvCount + 1 } (t.mvCount + 1))).2
    (by decide)
    (by simpa [slot] using hfit 2 (by omega))
    (by simpa [slot, Filesystem.loadJson] using hgap 2 (by omega))
  simp only [hm2] at s2
  have s3 := restoreLoop_done P fuel 3 { t with mvCount := t.mvCount + 3 }
    (((fs.loadJson (t.slot t.mvCount)).2.loadJson
      (TransactionMeterData.slot { t with mvCount := t.mvCount + 1 } (t.mvCount + 1))).2.loadJson
      (TransactionMeterData.slot { t with mvCount := t.mvCount + 2 } (t.mvCount + 2))).2
    (by decide)
  have hall := s0.trans (s1.trans (s2.trans s3))
  rw [hall]
  simp [Filesystem.loadJson, loadCalls, slot, List.append_assoc]

end TransactionMeterData

/-- C12: when the slots `0 .. k - 1` of a key hold documents that deserialize to the `k`
records `ms` (`k` at most 10), the slots `k`, `k + 1`, `k + 2` are missing and the names
of the slots up to `k + 2` fit the buffer, `restore` on a new storage-backed log of the
key returns `true`, the log holds exactly `ms`, and the calls made on the storage are the
reads of the slots `0 .. k + 2`, none of a higher slot, whatever the higher slots hold. -/
theorem restore_trailing_gap {MV Doc : Type} (P : Platform MV Doc) (c n : Nat)
    (ms : List MV) (fs : Filesystem Doc) (hk : ms.length ≤ 10)
    (hst : Stored P fs c n 0 ms)
    (hgap : ∀ i, i < 3 → fs.files ⟨c, n, ms.length + i⟩ = none)
    (hfit : ∀ i, i < ms.length + 3 → snprintfLen P ⟨c, n, i⟩ < P.MAX_PATH_SIZE) :
    ((TransactionMeterData.new c n true : TransactionMeterData MV).restore P fs).1 = true ∧
      ((TransactionMeterData.new c n true : TransactionMeterData MV).restore P fs).2.1.txData
        = ms ∧
      ((TransactionMeterData.new c n true : TransactionMeterData MV).restore P fs).2.2.files
        = fs.files ∧
      ((TransactionMeterData.new c n true : TransactionMeterData MV).restore P fs).2.2.calls
        = fs.calls ++ loadCalls c n 0 (ms.length + 3) ∧
      (∀ x ∈ loadCalls c n 0 (ms.length + 3),
        ∃ i, i ≤ ms.length + 2 ∧ x = FsCall.load ⟨c, n, i⟩) := by
  have hloop := TransactionMeterData.restoreLoop_stored_calls P ms
    ((TransactionMeterData.new c n true : TransactionMeterData MV).restoreFuel - ms.length)
    (TransactionMeterData.new c n true) fs hst
    (by simpa [TransactionMeterData.new, MAX_STOPTXDATA_LEN] using hk)
    (by simp only [TransactionMeterData.new, UINT_RANGE]; omega)
    (fun i hi => by
      simpa [TransactionMeterData.new, TransactionMeterData.slot] using hfit i (by omega))
  have hfuel : ms.length + ((TransactionMeterData.new c n true :
      TransactionMeterData MV).restoreFuel - ms.length) =
      (TransactionMeterData.new c n true : TransactionMeterData MV).restoreFuel := by
    simp only [TransactionMeterData.restoreFuel, TransactionMeterData.new, MISSES_LIMIT,
      MAX_STOPTXDATA_LEN, List.length_nil]
    omega
  rw [hfuel] at hloop
  have hgap2 := TransactionMeterData.restoreLoop_gap_calls P
    ((TransactionMeterData.new c n true : TransactionMeterData MV).restoreFuel - ms.length - 4)
    { (TransactionMeterData.new c n true : TransactionMeterData MV) with
      txData := (TransactionMeterData.new c n true : TransactionMeterData MV).txData ++ ms,
      mvCount := (TransactionMeterData.new c n true : TransactionMeterData MV).mvCount
        + ms.length }
    { files := fs.files,
      calls := fs.calls ++ loadCalls c n 0 ms.length }
    (by
      intro i hi
      simp only [TransactionMeterData.new, TransactionMeterData.slot, Nat.zero_add]
      rw [hgap i hi]
      rfl)
    (by simp only [TransactionMeterData.new, UINT_RANGE]; omega)
    (fun i hi => by
      simpa [TransactionMeterData.new, TransactionMeterData.slot]
        using hfit (ms.length + i) (by omega))
  have hfuel2 : (TransactionMeterData.new c n true : TransactionMeterData MV).restoreFuel
      - ms.length - 4 + 4 =
      (TransactionMeterData.new c n true : TransactionMeterData MV).restoreFuel - ms.length := by
    simp only [TransactionMeterData.restoreFuel, TransactionMeterData.new, MISSES_LIMIT,
      MAX_STOPTXDATA_LEN, List.length_nil]
    omega
  rw [hfuel2] at hgap2
  have hres := TransactionMeterData.restore_eq_restoreLoop P
    (TransactionMeterData.new c n true) fs rfl
  have hboth := hloop.symm.trans hres
  have hboth2 := hgap2.symm.trans hboth
  simp only [Option.some.injEq] at hboth2
  rw [← hboth2]
  refine ⟨rfl, by simp [TransactionMeterData.new], rfl, ?_, ?_⟩
  · have := TransactionMeterData.loadCalls_append c n ms.length 0 3
    simp only [TransactionMeterData.new, Nat.zero_add, List.append_assoc]
    simp only [Nat.zero_add] at this
    rw [this]
  · intro x hx
    obtain ⟨i, -, h2, h3⟩ := (TransactionMeterData.mem_loadCalls c n x _ _).mp hx
    exact ⟨i, by omega, h3⟩

/-- Witness for C12: the scenario of the specification, slots 0, 1, 2 present and 3, 4, 5
missing. -/
theorem restore_trailing_gap_witness :
    ((TransactionMeterData.new 1 7 true).restore natPlatform threeSlotFs).2.1.txData
        = [100, 101, 102] ∧
      ((TransactionMeterData.new 1 7 true).restore natPlatform threeSlotFs).2.2.calls
        = threeSlotFs.calls ++ loadCalls 1 7 0 6 :=
  ⟨(restore_trailing_gap natPlatform 1 7 [100, 101, 102] threeSlotFs (by decide)
      ⟨⟨100, by decide, rfl⟩, ⟨101, by decide, rfl⟩, ⟨102, by decide, rfl⟩, trivial⟩
      (fun i hi => by
        have h : i = 0 ∨ i = 1 ∨ i = 2 := by omega
        rcases h with h | h | h <;> subst h <;> decide)
      (fun i hi => by
        have h : i = 0 ∨ i = 1 ∨ i = 2 ∨ i = 3 ∨ i = 4 ∨ i = 5 := by
          simp only [List.length_cons, List.length_nil] at hi
          omega
        rcases h with h | h | h | h | h | h <;> subst h <;> decide)).2.1,
    (restore_trailing_gap natPlatform 1 7 [100, 101, 102] threeSlotFs (by decide)
      ⟨⟨100, by decide, rfl⟩, ⟨101, by decide, rfl⟩, ⟨102, by decide, rfl⟩, trivial⟩
      (fun i hi => by
        have h : i = 0 ∨ i = 1 ∨ i = 2 := by omega
        rcases h with h | h | h <;> subst h <;> decide)
      (fun i hi => by
        have h : i = 0 ∨ i = 1 ∨ i = 2 ∨ i = 3 ∨ i = 4 ∨ i = 5 := by
          simp only [List.length_cons, List.length_nil] at hi
          omega
        rcases h with h | h | h | h | h | h <;> subst h <;> decide)).2.2.2.1⟩

namespace TransactionMeterData

variable {MV Doc : Type}

theorem recordsBelow_succ (P : Platform MV Doc) (files : SdPath → Option Doc) (c n j : Nat) :
    recordsBelow P files c n (j + 1) =
      recordsBelow P files c n j ++ (slotRecord P files c n j).toList := by
  unfold recordsBelow
  rw [List.range_succ, List.filterMap_append]
  cases h : slotRecord P files c n j <;> simp [List.filterMap, h]

theorem recordsBelow_length_mono (P : Platform MV Doc) (files : SdPath → Option Doc)
    (c n a : Nat) :
    ∀ d, (recordsBelow P files c n a).length ≤ (recordsBelow P files c n (a + d)).length := by
  intro d
  induction d with
  | zero => exact le_refl _
  | succ d ih =>
    have : a + (d + 1) = (a + d) + 1 := by omega
    rw [this, recordsBelow_succ, List.length_append]
    omega

theorem scanInv_new (P : Platform MV Doc) (files : SdPath → Option Doc) (c n : Nat) :
    ScanInv P files c n 0 (TransactionMeterData.new c n true) := by
  refine ⟨rfl, rfl, ?_, ?_, ?_, ?_, ?_, ?_, ?_⟩
  · simp [TransactionMeterData.new, recordsBelow]
  · simp [TransactionMeterData.new]
  · intro i _ h; simp [TransactionMeterData.new] at h
  · intro h; simp [TransactionMeterData.new] at h
  · intro g h; simp [TransactionMeterData.new] at h
  · simp [TransactionMeterData.new]
  · simp [TransactionMeterData.new]

theorem scanInv_miss (P : Platform MV Doc) (files : SdPath → Option Doc) (c n misses : Nat)
    (t : TransactionMeterData MV) (h : ScanInv P files c n misses t) (hm : misses < 3)
    (hrec : slotRecord P files c n t.mvCount = none) :
    ScanInv P files c n (misses + 1) { t with mvCount := t.mvCount + 1 } := by
  have hml := h.missesLe
  refine ⟨h.connectorId, h.txNr, ?_, ?_, ?_, ?_, ?_, ?_, h.room⟩
  · show t.txData = recordsBelow P files c n (t.mvCount + 1)
    rw [recordsBelow_succ, hrec]
    simpa using h.records
  · show misses + 1 ≤ t.mvCount + 1
    omega
  · intro i h1 h2
    have h1 : t.mvCount + 1 - (misses + 1) ≤ i := h1
    have h2 : i < t.mvCount + 1 := h2
    by_cases hi : i = t.mvCount
    · rw [hi]; exact hrec
    · exact h.trailing i (by omega) (by omega)
  · intro hlt
    have hlt : misses + 1 < t.mvCount + 1 := hlt
    show slotRecord P files c n (t.mvCount + 1 - (misses + 1) - 1) ≠ none
    have := h.before (by omega)
    have e : t.mvCount + 1 - (misses + 1) - 1 = t.mvCount - misses - 1 := by omega
    rw [e]; exact this
  · intro g hg hgap
    have hg : g + 3 ≤ t.mvCount + 1 := hg
    show 3 ≤ misses + 1 ∧ g + 3 = t.mvCount + 1
    by_cases hle : g + 3 ≤ t.mvCount
    · have := (h.nogap g hle hgap).1
      omega
    · have hgeq : g + 3 = t.mvCount + 1 := by omega
      refine ⟨?_, hgeq⟩
      by_contra hlt2
      have hm2 : misses < 2 := by omega
      by_cases hmv : misses < t.mvCount
      · have hb := h.before hmv
        obtain ⟨g0, g1, -⟩ := hgap
        have hcase : t.mvCount - misses - 1 = g ∨ t.mvCount - misses - 1 = g + 1 := by omega
        rcases hcase with e | e
        · rw [e] at hb; exact hb g0
        · rw [e] at hb; exact hb g1
      · omega
  · show t.mvCount + 1 ≤ 3 * t.txData.length + (misses + 1)
    have := h.bound
    omega

theorem scanInv_hit (P : Platform MV Doc) (files : SdPath → Option Doc) (c n misses : Nat)
    (t : TransactionMeterData MV) (m : MV) (h : ScanInv P files c n misses t)
    (hm : misses < 3) (hrec : slotRecord P files c n t.mvCount = some m)
    (hroom : t.txData.length < MAX_STOPTXDATA_LEN) :
    ScanInv P files c n 0
      { t with txData := t.txData ++ [m], mvCount := t.mvCount + 1 } := by
  refine ⟨h.connectorId, h.txNr, ?_, ?_, ?_, ?_, ?_, ?_, ?_⟩
  · show t.txData ++ [m] = recordsBelow P files c n (t.mvCount + 1)
    rw [recordsBelow_succ, hrec, ← h.records]
    rfl
  · exact Nat.zero_le _
  · intro i h1 h2
    have h1 : t.mvCount + 1 - 0 ≤ i := h1
    have h2 : i < t.mvCount + 1 := h2
    omega
  · intro _
    show slotRecord P files c n (t.mvCount + 1 - 0 - 1) ≠ none
    have e : t.mvCount + 1 - 0 - 1 = t.mvCount := by omega
    rw [e, hrec]
    simp
  · intro g hg hgap
    have hg : g + 3 ≤ t.mvCount + 1 := hg
    exfalso
    by_cases hle : g + 3 ≤ t.mvCount
    · have := (h.nogap g hle hgap).1
      omega
    · have e : g + 2 = t.mvCount := by omega
      have := hgap.2.2
      rw [e, hrec] at this
      cases this
  · show t.mvCount + 1 ≤ 3 * (t.txData ++ [m]).length + 0
    have := h.bound
    simp only [List.length_append, List.length_singleton]
    omega
  · show (t.txData ++ [m]).length ≤ MAX_STOPTXDATA_LEN
    simp only [List.length_append, List.length_singleton]
    omega

/-- What the loop of `restore` returns from a state that satisfies the invariant, when
the names of the slots 0 to 32 fit the buffer: `true` at the first gap of three, with the
records of the slots below it, or `false` at the deserializable slot that has ten
deserializable slots and no gap of three below it. -/
theorem restoreLoop_scan (P : Platform MV Doc) (files : SdPath → Option Doc) (c n : Nat)
    (hfit : ∀ i, i ≤ 32 → snprintfLen P ⟨c, n, i⟩ < P.MAX_PATH_SIZE) (fuel : Nat) :
    ∀ (misses : Nat) (t : TransactionMeterData MV) (fs : Filesystem Doc)
      (r : Bool) (t1 : TransactionMeterData MV) (fs1 : Filesystem Doc),
      fs.files = files → misses ≤ 3 → ScanInv P files c n misses t →
      restoreLoop P fuel misses t fs = some (r, t1, fs1) →
      (r = true → ∃ g, gapAt P files c n g ∧ (∀ g1, g1 < g → ¬ gapAt P files c n g1) ∧
        t1.txData = recordsBelow P files c n g ∧ t1.txData.length ≤ 10 ∧
        t1.mvCount = g + 3) ∧
      (r = false → slotRecord P files c n t1.mvCount ≠ none ∧
        t1.txData = recordsBelow P files c n t1.mvCount ∧ t1.txData.length = 10 ∧
        (∀ g, g + 2 < t1.mvCount → ¬ gapAt P files c n g)) ∧
      t1.finalized = t.finalized ∧ t1.connectorId = c ∧ t1.txNr = n := by
  induction fuel with
  | zero => intro misses t fs r t1 fs1 _ _ _ h; simp [restoreLoop] at h
  | succ fuel ih =>
    intro misses t fs r t1 fs1 hfiles hm3 hinv h
    have hslot : t.slot t.mvCount = ⟨c, n, t.mvCount⟩ := by
      simp [slot, hinv.connectorId, hinv.txNr]
    by_cases hm : misses < 3
    · have hbound : t.mvCount ≤ 32 := by
        have h1 := hinv.bound
        have h2 : t.txData.length ≤ 10 := hinv.room
        omega
      have hfit0 : snprintfLen P (t.slot t.mvCount) < P.MAX_PATH_SIZE := by
        rw [hslot]; exact hfit _ hbound
      have hmod : (t.mvCount + 1) % UINT_RANGE = t.mvCount + 1 :=
        Nat.mod_eq_of_lt (by simp only [UINT_RANGE]; omega)
      cases hrec : slotRecord P files c n t.mvCount with
      | none =>
        have hmiss : (fs.files (t.slot t.mvCount)).bind P.deserializeSample = none := by
          rw [hslot, hfiles]; exact hrec
        rw [restoreLoop_miss P fuel misses t fs hm hfit0 hmiss, hmod] at h
        have := ih (misses + 1) { t with mvCount := t.mvCount + 1 }
          (fs.loadJson (t.slot t.mvCount)).2 r t1 fs1 hfiles (by omega)
          (scanInv_miss P files c n misses t hinv hm hrec) h
        exact this
      | some m =>
        obtain ⟨doc, hdoc, hde⟩ : ∃ doc, fs.files (t.slot t.mvCount) = some doc ∧
            P.deserializeSample doc = some m := by
          rw [hslot, hfiles]
          unfold slotRecord at hrec
          cases hf : files ⟨c, n, t.mvCount⟩ with
          | none => rw [hf] at hrec; cases hrec
          | some doc => rw [hf] at hrec; exact ⟨doc, rfl, hrec⟩
        by_cases hroom : t.txData.length < MAX_STOPTXDATA_LEN
        · rw [restoreLoop_hit P fuel misses t fs doc m hm hfit0 hdoc hde hroom, hmod] at h
          have := ih 0 { t with txData := t.txData ++ [m], mvCount := t.mvCount + 1 }
            (fs.loadJson (t.slot t.mvCount)).2 r t1 fs1 hfiles (by omega)
            (scanInv_hit P files c n misses t m hinv hm hrec hroom) h
          exact this
        · rw [restoreLoop_overflow P fuel misses t fs doc m hm hfit0 hdoc hde (by omega)] at h
          simp only [Option.some.injEq, Prod.mk.injEq] at h
          obtain ⟨hr, ht, -⟩ := h
          subst hr ht
          refine ⟨?_, ?_, rfl, hinv.connectorId, hinv.txNr⟩
          · intro hc; exact Bool.noConfusion hc
          · intro _
            refine ⟨?_, hinv.records, ?_, ?_⟩
            · rw [hrec]; simp
            · have := hinv.room
              simp only [MAX_STOPTXDATA_LEN] at this hroom
              omega
            · intro g hg hgap
              have := (hinv.nogap g (by omega) hgap).1
              omega
    · have hmeq : misses = 3 := by omega
      rw [restoreLoop_done P fuel misses t fs (by simp only [MISSES_LIMIT]; omega)] at h
      simp only [Option.some.injEq, Prod.mk.injEq] at h
      obtain ⟨hr, ht, -⟩ := h
      subst hr ht
      have hml := hinv.missesLe
      refine ⟨?_, ?_, rfl, hinv.connectorId, hinv.txNr⟩
      · intro _
        refine ⟨t.mvCount - 3, ?_, ?_, ?_, hinv.room, by omega⟩
        · refine ⟨hinv.trailing _ (by omega) (by omega), hinv.trailing _ (by omega) (by omega),
            hinv.trailing _ (by omega) (by omega)⟩
        · intro g1 hg1 hgap
          have := (hinv.nogap g1 (by omega) hgap).2
          omega
        · have e : t.mvCount = (t.mvCount - 3) + 1 + 1 + 1 := by omega
          have h0 := hinv.trailing (t.mvCount - 3) (by omega) (by omega)
          have h1 := hinv.trailing (t.mvCount - 3 + 1) (by omega) (by omega)
          have h2 := hinv.trailing (t.mvCount - 3 + 1 + 1) (by omega) (by omega)
          have hrecs := hinv.records
          rw [e, recordsBelow_succ, recordsBelow_succ, recordsBelow_succ, h0, h1, h2] at hrecs
          simpa using hrecs
      · intro hc; exact Bool.noConfusion hc

end TransactionMeterData

/-- C13: when the names of the slots 0 to 32 fit the buffer, `restore` on a new
storage-backed log returns `false` exactly when the scan from slot 0 reaches an eleventh
deserializable slot `j` (ten deserializable slots below it) with no three consecutive
missing or undeserializable slots below it; when `restore` returns `true`, the log holds
the records of the deserializable slots below the first such gap, at most ten, in slot
order. -/
theorem restore_false_iff {MV Doc : Type} (P : Platform MV Doc) (c n : Nat)
    (fs : Filesystem Doc)
    (hfit : ∀ i, i ≤ 32 → snprintfLen P ⟨c, n, i⟩ < P.MAX_PATH_SIZE) :
    (((TransactionMeterData.new c n true : TransactionMeterData MV).restore P fs).1 = false ↔
        ∃ j, slotRecord P fs.files c n j ≠ none ∧
          (recordsBelow P fs.files c n j).length = 10 ∧
          ∀ g, g + 2 < j → ¬ gapAt P fs.files c n g) ∧
      (((TransactionMeterData.new c n true : TransactionMeterData MV).restore P fs).1 = true →
        ∃ g, gapAt P fs.files c n g ∧ (∀ g1, g1 < g → ¬ gapAt P fs.files c n g1) ∧
          ((TransactionMeterData.new c n true : TransactionMeterData MV).restore P fs).2.1.txData
            = recordsBelow P fs.files c n g ∧
          (recordsBelow P fs.files c n g).length ≤ 10) := by
  have hres := TransactionMeterData.restore_eq_restoreLoop P
    (TransactionMeterData.new c n true : TransactionMeterData MV) fs rfl
  rcases hr : (TransactionMeterData.new c n true : TransactionMeterData MV).restore P fs
    with ⟨r, t1, fs1⟩
  rw [hr] at hres
  obtain ⟨htrue, hfalse, -⟩ := TransactionMeterData.restoreLoop_scan P fs.files c n hfit _ 0
    (TransactionMeterData.new c n true) fs r t1 fs1 rfl (by omega)
    (TransactionMeterData.scanInv_new P fs.files c n) hres
  have htrue2 : r = true →
      ∃ g, gapAt P fs.files c n g ∧ (∀ g1, g1 < g → ¬ gapAt P fs.files c n g1) ∧
        t1.txData = recordsBelow P fs.files c n g ∧
        (recordsBelow P fs.files c n g).length ≤ 10 := by
    intro h
    obtain ⟨g, h1, h2, h3, h4, -⟩ := htrue h
    exact ⟨g, h1, h2, h3, by rw [← h3]; exact h4⟩
  refine ⟨⟨?_, ?_⟩, htrue2⟩
  · intro h
    obtain ⟨h1, h2, h3, h4⟩ := hfalse h
    exact ⟨t1.mvCount, h1, by rw [← h2]; exact h3, h4⟩
  · rintro ⟨j, hj1, hj2, hj3⟩
    cases r with
    | false => rfl
    | true =>
      exfalso
      obtain ⟨g, hg1, -, -, hg4⟩ := htrue2 rfl
      have hjg : ¬ g + 2 < j := fun h => hj3 g h hg1
      have hne : j ≠ g ∧ j ≠ g + 1 ∧ j ≠ g + 2 := by
        refine ⟨?_, ?_, ?_⟩ <;> intro e <;> subst e
        · exact hj1 hg1.1
        · exact hj1 hg1.2.1
        · exact hj1 hg1.2.2
      have hlt : j + 1 ≤ g := by omega
      obtain ⟨d, hd⟩ : ∃ d, g = (j + 1) + d := ⟨g - (j + 1), by omega⟩
      have hmono := TransactionMeterData.recordsBelow_length_mono P fs.files c n (j + 1) d
      rw [← hd, TransactionMeterData.recordsBelow_succ, List.length_append, hj2] at hmono
      cases hs : slotRecord P fs.files c n j with
      | none => exact hj1 hs
      | some m =>
        rw [hs] at hmono
        simp only [Option.toList, List.length_singleton] at hmono
        omega

/-- Witness for C13: over the slots 0 to 10 of connector 1, transaction 7, all valid,
`restore` returns `false`. -/
theorem restore_false_iff_witness :
    (∀ i, i ≤ 32 → snprintfLen natPlatform ⟨1, 7, i⟩ < natPlatform.MAX_PATH_SIZE) ∧
      ((TransactionMeterData.new 1 7 true).restore natPlatform elevenSlotFs).1 = false :=
  ⟨by decide,
    (restore_false_iff natPlatform 1 7 elevenSlotFs (by decide)).1.mpr
      ⟨10, by decide, by decide, fun g hg hgap => by
        have h : g < 8 := by omega
        have hs : slotRecord natPlatform elevenSlotFs.files 1 7 g ≠ none := by
          interval_cases g <;> decide
        exact hs hgap.1⟩⟩

/-! ## Theorems: removal and repair in the registry -/

namespace MeterStore

variable {MV Doc : Type}

theorem lock_register (w : MeterStore MV Doc) (k x : Nat) :
    (w.register k).lock x = w.lock x :=
  lock_congr w (w.register k) x rfl

theorem lock_setFs (w : MeterStore MV Doc) (fs : Filesystem Doc) (x : Nat) :
    (w.setFs fs).lock x = w.lock x :=
  lock_congr w (w.setFs fs) x rfl

theorem lock_prune (w : MeterStore MV Doc) (x : Nat) : w.prune.lock x = w.lock x :=
  lock_congr w w.prune x rfl

/-- The objects after `remove` are those after its lookup: the cached log finalized, if
there is one. -/
theorem remove_objects (P : Platform MV Doc) (fuel : Nat) (w w1 : MeterStore MV Doc)
    (c n : Nat) (r : Bool) (h : remove P fuel w c n = some (r, w1)) :
    w1.objects =
      (match w.txMeterData.find? (w.isCached c n) with
        | some h =>
          match w.lock h with
          | some cachedl => (P.getPathsCount cachedl, w.setObject h cachedl.finalize)
          | none => (0, w)
        | none => (0, w)).2.objects := by
  unfold remove at h
  simp only at h
  generalize (match w.txMeterData.find? (w.isCached c n) with
        | some h =>
          match w.lock h with
          | some cachedl => (P.getPathsCount cachedl, w.setObject h cachedl.finalize)
          | none => (0, w)
        | none => (0, w)) = found at h
  split at h
  · split at h
    · cases h
    · simp only [Option.some.injEq, Prod.mk.injEq] at h
      rw [← h.2]; rfl
    · split at h
      · simp only [Option.some.injEq, Prod.mk.injEq] at h
        rw [← h.2]; rfl
      · simp only [Option.some.injEq, Prod.mk.injEq] at h
        rw [← h.2]; rfl
  · simp only [Option.some.injEq, Prod.mk.injEq] at h
    rw [← h.2]; rfl

theorem remove_objects_not_cached (P : Platform MV Doc) (fuel : Nat)
    (w w1 : MeterStore MV Doc) (c n : Nat) (r : Bool)
    (hfind : w.txMeterData.find? (w.isCached c n) = none)
    (h : remove P fuel w c n = some (r, w1)) : w1.objects = w.objects := by
  have := remove_objects P fuel w w1 c n r h
  rw [hfind] at this
  exact this

end MeterStore

namespace TransactionMeterData

variable {MV Doc : Type}

/-- The loop of `restore` only reads the storage. -/
theorem restoreLoop_files (P : Platform MV Doc) (fuel : Nat) :
    ∀ (misses : Nat) (t : TransactionMeterData MV) (fs : Filesystem Doc)
      (r : Bool) (t1 : TransactionMeterData MV) (fs1 : Filesystem Doc),
      restoreLoop P fuel misses t fs = some (r, t1, fs1) → fs1.files = fs.files := by
  induction fuel with
  | zero => intro misses t fs r t1 fs1 h; simp [restoreLoop] at h
  | succ fuel ih =>
    intro misses t fs r t1 fs1 h
    unfold restoreLoop at h
    simp only at h
    split at h
    · split at h
      · simp only [Option.some.injEq, Prod.mk.injEq] at h
        rw [← h.2.2]
      · split at h
        · rename_i heq
          have h2 := ih _ _ _ _ _ _ h
          simp only [Filesystem.loadJson, Prod.mk.injEq] at heq
          rw [h2, ← heq.2]
        · rename_i heq
          simp only [Filesystem.loadJson, Prod.mk.injEq] at heq
          split at h
          · have h2 := ih _ _ _ _ _ _ h
            rw [h2, ← heq.2]
          · split at h
            · simp only [Option.some.injEq, Prod.mk.injEq] at h
              rw [← h.2.2, ← heq.2]
            · have h2 := ih _ _ _ _ _ _ h
              rw [h2, ← heq.2]
    · simp only [Option.some.injEq, Prod.mk.injEq] at h
      rw [← h.2.2]

theorem restore_files (P : Platform MV Doc) (t : TransactionMeterData MV)
    (fs : Filesystem Doc) : (t.restore P fs).2.2.files = fs.files := by
  unfold restore
  split
  · rfl
  · split
    · rename_i r heq
      obtain ⟨b, t1, fs1⟩ := r
      exact restoreLoop_files P _ _ _ _ _ _ _ heq
    · rfl

end TransactionMeterData


namespace MeterStore

variable {MV Doc : Type}

/-- The scan loop of `remove` over a storage whose first three consecutive missing slots
of the key start at `G`: with more than `G + 3` iterations it is left with the count `G`,
and it only reads the storage. -/
theorem removeScan_gap (P : Platform MV Doc) (files : SdPath → Option Doc) (c n G : Nat)
    (hfit : ∀ i, i < G + 3 → snprintfLen P ⟨c, n, i⟩ < P.MAX_PATH_SIZE)
    (hgap : ∀ i, i < 3 → files ⟨c, n, G + i⟩ = none)
    (hfirst : ∀ g, g < G →
      ¬ (files ⟨c, n, g⟩ = none ∧ files ⟨c, n, g + 1⟩ = none ∧ files ⟨c, n, g + 2⟩ = none))
    (hG : G + 3 < UINT_RANGE) (fuel : Nat) :
    ∀ (misses i mv : Nat) (fs : Filesystem Doc),
      fs.files = files → i = mv + misses → misses ≤ 3 → mv ≤ G →
      (∀ j, mv ≤ j → j < i → files ⟨c, n, j⟩ = none) → G + 3 - i < fuel →
      ∃ fs1, removeScan P c n fuel misses i mv fs = some (some G, fs1) ∧
        fs1.files = files := by
  induction fuel with
  | zero => intro misses i mv fs _ _ _ _ _ h; omega
  | succ fuel ih =>
    intro misses i mv fs hfiles hi hm3 hmv hmiss hfuel
    by_cases hm : misses < 3
    · have hilt : i < G + 3 := by omega
      have hnot : ¬ P.MAX_PATH_SIZE ≤ snprintfLen P ⟨c, n, i⟩ := by
        have := hfit i hilt; omega
      have hmod : (i + 1) % UINT_RANGE = i + 1 := Nat.mod_eq_of_lt (by omega)
      cases hst : files ⟨c, n, i⟩ with
      | none =>
        have hstep : removeScan P c n (fuel + 1) misses i mv fs
            = removeScan P c n fuel (misses + 1) (i + 1) mv (fs.stat ⟨c, n, i⟩).2 := by
          rw [removeScan]
          simp [MISSES_LIMIT, hm, hnot, Filesystem.stat, hfiles, hst, hmod]
        rw [hstep]
        refine ih (misses + 1) (i + 1) mv _ hfiles (by omega) (by omega) hmv ?_ (by omega)
        intro j h1 h2
        by_cases hji : j = i
        · rw [hji]; exact hst
        · exact hmiss j h1 (by omega)
      | some d =>
        have hiG : i < G := by
          by_contra hge
          have := hgap (i - G) (by omega)
          rw [show G + (i - G) = i from by omega, hst] at this
          cases this
        have hstep : removeScan P c n (fuel + 1) misses i mv fs
            = removeScan P c n fuel 0 (i + 1) (i + 1) (fs.stat ⟨c, n, i⟩).2 := by
          rw [removeScan]
          simp [MISSES_LIMIT, hm, hnot, Filesystem.stat, hfiles, hst, hmod]
        rw [hstep]
        exact ih 0 (i + 1) (i + 1) _ hfiles rfl (by omega) (by omega)
          (fun j h1 h2 => by omega) (by omega)
    · have hm3e : misses = 3 := by omega
      have hmvG : mv = G := by
        by_contra hne
        exact hfirst mv (by omega)
          ⟨hmiss mv (le_refl _) (by omega), hmiss (mv + 1) (by omega) (by omega),
            hmiss (mv + 2) (by omega) (by omega)⟩
      refine ⟨fs, ?_, hfiles⟩
      rw [removeScan]
      simp [MISSES_LIMIT, hm, hmvG]

/-- The deletion loop of `remove` with `k` iterations left, when the names fit: it runs
to its end, deletes the slots below `k`, creates no file and leaves every other file. -/
theorem removeFiles_deletes (P : Platform MV Doc) (c n mv : Nat)
    (hfit : ∀ i, i < mv → snprintfLen P ⟨c, n, i⟩ < P.MAX_PATH_SIZE) :
    ∀ (k i : Nat) (success : Bool) (fs : Filesystem Doc), k + i = mv →
      (∃ b, (removeFiles P c n mv k i success fs).1 = some b) ∧
        (∀ j, j < k → (removeFiles P c n mv k i success fs).2.files ⟨c, n, j⟩ = none) ∧
        (∀ p, fs.files p = none → (removeFiles P c n mv k i success fs).2.files p = none) ∧
        (∀ p : SdPath, (p.connectorId ≠ c ∨ p.txNr ≠ n ∨ k ≤ p.index) →
          (removeFiles P c n mv k i success fs).2.files p = fs.files p) := by
  intro k
  induction k with
  | zero =>
    intro i success fs _
    refine ⟨⟨success, rfl⟩, fun j hj => by omega, fun p hp => hp, fun p _ => rfl⟩
  | succ k ih =>
    intro i success fs hk
    have hsd : mv - 1 - i = k := by omega
    have hnot : ¬ P.MAX_PATH_SIZE ≤ snprintfLen P ⟨c, n, k⟩ := by
      have := hfit k (by omega); omega
    have hstep : removeFiles P c n mv (k + 1) i success fs
        = removeFiles P c n mv k (i + 1) (success && (fs.remove ⟨c, n, k⟩).1)
            (fs.remove ⟨c, n, k⟩).2 := by
      rw [removeFiles]
      simp [hsd, hnot]
    rw [hstep]
    obtain ⟨h1, h2, h3, h4⟩ := ih (i + 1) (success && (fs.remove ⟨c, n, k⟩).1)
      (fs.remove ⟨c, n, k⟩).2 (by omega)
    refine ⟨h1, ?_, ?_, ?_⟩
    · intro j hj
      by_cases hjk : j = k
      · rw [hjk]
        exact h3 _ (by simp [Filesystem.remove])
      · exact h2 j (by omega)
    · intro p hp
      apply h3
      simp only [Filesystem.remove]
      split
      · rfl
      · exact hp
    · intro p hp
      have hpk : p ≠ ⟨c, n, k⟩ := by
        intro e
        rw [e] at hp
        simp only [ne_eq, not_true_eq_false, false_or] at hp
        omega
      rw [h4 p (by rcases hp with h | h | h
                   · exact Or.inl h
                   · exact Or.inr (Or.inl h)
                   · exact Or.inr (Or.inr (by omega)))]
      simp only [Filesystem.remove]
      rw [if_neg hpk]

/-- `remove` for a key without a held log, over a storage whose first three consecutive
missing slots of the key start at `G`: with enough iterations it returns, leaves the
objects as they are, no slot of the key below `G + 3` is left, and every other file, the
slots of the key from `G` on among them, is as before. -/
theorem remove_scanned (P : Platform MV Doc) (fuel : Nat) (w : MeterStore MV Doc)
    (c n G : Nat) (hfind : w.txMeterData.find? (w.isCached c n) = none)
    (hfs : w.filesystem = true)
    (hfit : ∀ i, i < G + 3 → snprintfLen P ⟨c, n, i⟩ < P.MAX_PATH_SIZE)
    (hgap : ∀ i, i < 3 → w.fs.files ⟨c, n, G + i⟩ = none)
    (hfirst : ∀ g, g < G →
      ¬ (w.fs.files ⟨c, n, g⟩ = none ∧ w.fs.files ⟨c, n, g + 1⟩ = none ∧
        w.fs.files ⟨c, n, g + 2⟩ = none))
    (hG : G + 3 < UINT_RANGE) (hfuel : G + 3 < fuel) :
    ∃ r w1, remove P fuel w c n = some (r, w1) ∧ w1.objects = w.objects ∧
      (∀ j, j < G + 3 → w1.fs.files ⟨c, n, j⟩ = none) ∧
      ∀ p : SdPath, (p.connectorId ≠ c ∨ p.txNr ≠ n ∨ G ≤ p.index) →
        w1.fs.files p = w.fs.files p := by
  obtain ⟨fs1, hscan, hfiles1⟩ := removeScan_gap P w.fs.files c n G hfit hgap hfirst hG fuel
    0 0 0 w.fs rfl rfl (by omega) (by omega) (fun j h1 h2 => by omega) (by omega)
  obtain ⟨⟨b, hb⟩, hdel, hkeep, hframe⟩ := removeFiles_deletes P c n G
    (fun i hi => hfit i (by omega)) G 0 true fs1 rfl
  have hnone : ∀ j, j < G + 3 →
      (removeFiles P c n G G 0 true fs1).2.files ⟨c, n, j⟩ = none := by
    intro j hj
    by_cases hjG : j < G
    · exact hdel j hjG
    · apply hkeep
      rw [hfiles1]
      have := hgap (j - G) (by omega)
      rw [show G + (j - G) = j from by omega] at this
      exact this
  have hrest : ∀ p : SdPath, (p.connectorId ≠ c ∨ p.txNr ≠ n ∨ G ≤ p.index) →
      (removeFiles P c n G G 0 true fs1).2.files p = w.fs.files p := by
    intro p hp
    rw [hframe p hp, hfiles1]
  refine ⟨b, (w.setFs (removeFiles P c n G G 0 true fs1).2).prune, ?_, rfl, hnone, hrest⟩
  unfold remove
  rw [hfind]
  simp only [hfs, if_true, hscan]
  rcases hrf : removeFiles P c n G G 0 true fs1 with ⟨ob, fs2⟩
  rw [hrf] at hb
  simp only at hb
  subst hb
  rfl

end MeterStore


/-- C14, counterexample: over the slots 0 to 10 of connector 1, transaction 7, slot 0
exists and `restore` on a new log returns `false`; `getTxMeterData` on a new store over
that storage returns handle 0, registered, of a log that is not finalized and holds the
ten records 100 to 109, not zero records; the slots 0 to 10 are deleted. -/
theorem getTxMeterData_corrupt_keeps_records :
    (elevenSlotFs.files ⟨1, 7, 0⟩).isSome = true ∧
      ((TransactionMeterData.new 1 7 true).restore natPlatform
        (elevenSlotFs.stat ⟨1, 7, 0⟩).2).1 = false ∧
      (MeterStore.getTxMeterData natPlatform 20 (MeterStore.new true elevenSlotFs) 1 7).map
          (fun r => (r.1, (r.2.lock 0).map (fun t => (t.txData, t.finalized)),
            r.2.txMeterData, (List.range 11).map (fun i => r.2.fs.files ⟨1, 7, i⟩)))
        = some (some 0,
            some ([100, 101, 102, 103, 104, 105, 106, 107, 108, 109], false), [0],
            List.replicate 11 none) := by
  decide

/-- C14, amended: when `getTxMeterData` finds no held log of the key, an adapter is
configured, slot 0 exists and `restore` on the new log returns `false`, then, the names
of the slots fitting the buffer and the first three consecutive missing slots of the key
starting at `G`, `getTxMeterData` with more than `G + 3` scan iterations returns the handle
of the new log, registered: it is the log as `restore` left it, not finalized, holding
the records of the first ten deserializable slots, ten records; no slot of the key below
`G + 3` is left in the storage, and every other file, the slots of the key above the
three missing ones among them, is as before. -/
theorem getTxMeterData_corrupt {MV Doc : Type} (P : Platform MV Doc) (w : MeterStore MV Doc)
    (c n G fuel : Nat) (hfind : w.txMeterData.find? (w.isCached c n) = none)
    (hfs : w.filesystem = true) (hexists : (w.fs.files ⟨c, n, 0⟩).isSome = true)
    (hfit : ∀ i, i ≤ 32 → snprintfLen P ⟨c, n, i⟩ < P.MAX_PATH_SIZE)
    (hfitG : ∀ i, i < G + 3 → snprintfLen P ⟨c, n, i⟩ < P.MAX_PATH_SIZE)
    (hcorrupt : ((TransactionMeterData.new c n true : TransactionMeterData MV).restore P
      (w.fs.stat ⟨c, n, 0⟩).2).1 = false)
    (hgap : ∀ i, i < 3 → w.fs.files ⟨c, n, G + i⟩ = none)
    (hfirst : ∀ g, g < G →
      ¬ (w.fs.files ⟨c, n, g⟩ = none ∧ w.fs.files ⟨c, n, g + 1⟩ = none ∧
        w.fs.files ⟨c, n, g + 2⟩ = none))
    (hG : G + 3 < UINT_RANGE) (hfuel : G + 3 < fuel) :
    ∃ w1 t1, MeterStore.getTxMeterData P fuel w c n = some (some w.objects.length, w1) ∧
      w1.lock w.objects.length = some t1 ∧ w.objects.length ∈ w1.txMeterData ∧
      t1 = ((TransactionMeterData.new c n true : TransactionMeterData MV).restore P
        (w.fs.stat ⟨c, n, 0⟩).2).2.1 ∧
      t1.finalized = false ∧ t1.txData.length = 10 ∧
      t1.txData = recordsBelow P w.fs.files c n t1.mvCount ∧
      (∀ j, j < G + 3 → w1.fs.files ⟨c, n, j⟩ = none) ∧
      ∀ p : SdPath, (p.connectorId ≠ c ∨ p.txNr ≠ n ∨ G ≤ p.index) →
        w1.fs.files p = w.fs.files p := by
  have hget := MeterStore.getTxMeterData_restore P fuel w c n hfind hfs (hfit 0 (by omega))
    hexists
  have hres := TransactionMeterData.restore_eq_restoreLoop P
    (TransactionMeterData.new c n true : TransactionMeterData MV) (w.fs.stat ⟨c, n, 0⟩).2 rfl
  have hfiles := TransactionMeterData.restore_files P
    (TransactionMeterData.new c n true : TransactionMeterData MV) (w.fs.stat ⟨c, n, 0⟩).2
  rcases hr : (TransactionMeterData.new c n true : TransactionMeterData MV).restore P
    (w.fs.stat ⟨c, n, 0⟩).2 with ⟨r, t1, fs2⟩
  rw [hr] at hget hres hcorrupt hfiles
  simp only at hcorrupt hfiles
  subst hcorrupt
  simp only at hget
  have hfs2 : fs2.files = w.fs.files := hfiles
  obtain ⟨-, hfalse, hfin, -, -⟩ := TransactionMeterData.restoreLoop_scan P w.fs.files c n
    hfit _ 0 (TransactionMeterData.new c n true) (w.fs.stat ⟨c, n, 0⟩).2 false t1 fs2 rfl
    (by omega) (TransactionMeterData.scanInv_new P w.fs.files c n) hres
  obtain ⟨-, hrecs, hlen, -⟩ := hfalse rfl
  have hlockX : ∀ x, x < w.objects.length →
      ((((w.prune.allocate (TransactionMeterData.new c n true)).setFs fs2).setObject
        w.objects.length t1).lock x) = w.lock x := by
    intro x hx
    rw [MeterStore.lock_setObject, if_neg (by omega), MeterStore.lock_setFs,
      MeterStore.lock_allocate, if_neg (by simp only [MeterStore.prune]; omega),
      MeterStore.lock_prune]
  have hfindX : ((((w.prune.allocate (TransactionMeterData.new c n true)).setFs
      fs2).setObject w.objects.length t1).txMeterData.find?
        ((((w.prune.allocate (TransactionMeterData.new c n true)).setFs fs2).setObject
          w.objects.length t1).isCached c n)) = none := by
    rw [List.find?_eq_none] at hfind ⊢
    intro x hx
    have hx1 : x ∈ w.txMeterData.filter (fun h => !w.expired h) := hx
    rw [List.mem_filter] at hx1
    have hlive : w.lock x ≠ none := by
      have := hx1.2
      intro hn
      simp [MeterStore.expired, hn] at this
    have hxlt : x < w.objects.length := by
      cases hl : w.lock x with
      | none => exact absurd hl hlive
      | some t => exact MeterStore.lock_lt w x t hl
    have hsame := hlockX x hxlt
    have hold := hfind x hx1.1
    unfold MeterStore.isCached at hold ⊢
    rw [hsame]
    exact hold
  obtain ⟨rr, w4, hrem, hobj, hgone, hrest⟩ := MeterStore.remove_scanned P fuel
    ((((w.prune.allocate (TransactionMeterData.new c n true)).setFs fs2).setObject
      w.objects.length t1)) c n G hfindX hfs hfitG
    (fun i hi => by
      have := hgap i hi
      simpa [MeterStore.setObject, MeterStore.setFs, hfs2] using this)
    (fun g hg => by
      have := hfirst g hg
      simpa [MeterStore.setObject, MeterStore.setFs, hfs2] using this)
    hG hfuel
  rw [hrem] at hget
  simp only at hget
  have hrest2 : ∀ p : SdPath, (p.connectorId ≠ c ∨ p.txNr ≠ n ∨ G ≤ p.index) →
      w4.fs.files p = w.fs.files p := by
    intro p hp
    rw [hrest p hp]
    exact congrFun hfs2 p
  refine ⟨w4.register w.objects.length, t1, hget, ?_, by simp [MeterStore.register], rfl,
    hfin, hlen, hrecs, hgone, hrest2⟩
  rw [MeterStore.lock_register, MeterStore.lock_congr _ w4 _ hobj, MeterStore.lock_setObject,
    if_pos rfl, MeterStore.lock_setFs, MeterStore.lock_allocate,
    if_pos (by simp only [MeterStore.prune])]
  rfl

/-- Witness for C14, amended: the new store over the slots 0 to 10 and 14 of connector 1,
transaction 7, whose first three missing slots start at 11; slot 14 stays. -/
theorem getTxMeterData_corrupt_witness :
    ∃ w1 t1,
      MeterStore.getTxMeterData natPlatform 20 (MeterStore.new true elevenAndStraySlotFs) 1 7
        = some (some 0, w1) ∧
      w1.lock 0 = some t1 ∧ 0 ∈ w1.txMeterData ∧ t1.finalized = false ∧
      t1.txData.length = 10 ∧ (∀ j, j < 14 → w1.fs.files ⟨1, 7, j⟩ = none) ∧
      w1.fs.files ⟨1, 7, 14⟩ = some 114 :=
  (getTxMeterData_corrupt natPlatform (MeterStore.new true elevenAndStraySlotFs) 1 7 11 20
    (by decide) rfl (by decide) (by decide) (by decide) (by decide) (by decide) (by decide)
    (by decide) (by decide)).imp
    (fun _ h1 => h1.imp (fun _ h => ⟨h.1, h.2.1, h.2.2.1, h.2.2.2.2.1, h.2.2.2.2.2.1,
      h.2.2.2.2.2.2.2.1,
      (h.2.2.2.2.2.2.2.2 ⟨1, 7, 14⟩ (Or.inr (Or.inr (by decide)))).trans
        (show (MeterStore.new true elevenAndStraySlotFs : MeterStore Nat Nat).fs.files
          ⟨1, 7, 14⟩ = some 114 from by decide)⟩))

/-- Over the slots 0 to 10 and 14 of connector 1, transaction 7, `getTxMeterData` on a new
store returns the log with the ten records 100 to 109 and deletes the slots 0 to 10; the
slot 14 behind the three missing slots keeps its record. -/
theorem getTxMeterData_corrupt_stray_slot :
    (MeterStore.getTxMeterData natPlatform 20 (MeterStore.new true elevenAndStraySlotFs)
        1 7).map
        (fun r => ((r.2.lock 0).map (fun t => t.txData),
          (List.range 15).map (fun i => r.2.fs.files ⟨1, 7, i⟩)))
      = some (some [100, 101, 102, 103, 104, 105, 106, 107, 108, 109],
          List.replicate 14 none ++ [some 114]) := by
  decide


/-! ## Theorems: the bound on the scan of `restore` -/

namespace TransactionMeterData

variable {MV Doc : Type}

/-- More iterations do not change a result of the loop of `restore`. -/
theorem restoreLoop_more_fuel (P : Platform MV Doc) (fuel : Nat) :
    ∀ (misses : Nat) (t : TransactionMeterData MV) (fs : Filesystem Doc)
      (x : Bool × TransactionMeterData MV × Filesystem Doc),
      restoreLoop P fuel misses t fs = some x →
      ∀ k, restoreLoop P (fuel + k) misses t fs = some x := by
  induction fuel with
  | zero => intro misses t fs x h; simp [restoreLoop] at h
  | succ fuel ih =>
    intro misses t fs x h k
    rw [show fuel + 1 + k = (fuel + k) + 1 from by omega]
    by_cases hm : misses < MISSES_LIMIT
    · by_cases hret : P.MAX_PATH_SIZE ≤ snprintfLen P (t.slot t.mvCount)
      · rw [restoreLoop_too_long P fuel misses t fs hm hret] at h
        rw [restoreLoop_too_long P (fuel + k) misses t fs hm hret]
        exact h
      · have hret1 : snprintfLen P (t.slot t.mvCount) < P.MAX_PATH_SIZE := by omega
        cases hrec : (fs.files (t.slot t.mvCount)).bind P.deserializeSample with
        | none =>
          rw [restoreLoop_miss P fuel misses t fs hm hret1 hrec] at h
          rw [restoreLoop_miss P (fuel + k) misses t fs hm hret1 hrec]
          exact ih _ _ _ _ h k
        | some m =>
          obtain ⟨doc, hdoc, hde⟩ : ∃ doc, fs.files (t.slot t.mvCount) = some doc ∧
              P.deserializeSample doc = some m := by
            cases hf : fs.files (t.slot t.mvCount) with
            | none => rw [hf] at hrec; cases hrec
            | some doc => rw [hf] at hrec; exact ⟨doc, rfl, hrec⟩
          by_cases hroom : t.txData.length < MAX_STOPTXDATA_LEN
          · rw [restoreLoop_hit P fuel misses t fs doc m hm hret1 hdoc hde hroom] at h
            rw [restoreLoop_hit P (fuel + k) misses t fs doc m hm hret1 hdoc hde hroom]
            exact ih _ _ _ _ h k
          · have hfull : MAX_STOPTXDATA_LEN ≤ t.txData.length := by omega
            rw [restoreLoop_overflow P fuel misses t fs doc m hm hret1 hdoc hde hfull] at h
            rw [restoreLoop_overflow P (fuel + k) misses t fs doc m hm hret1 hdoc hde hfull]
            exact h
    · have hm1 : MISSES_LIMIT ≤ misses := by omega
      rw [restoreLoop_done P fuel misses t fs hm1] at h
      rw [restoreLoop_done P (fuel + k) misses t fs hm1]
      exact h

/-- The loop of `restore` from a state in which the slot counter is at most three times
the held records plus the misses, on any storage: it ends within `34 - mvCount`
iterations, its adapter calls are loads of consecutive slots from the slot counter on,
none above slot 32, the files stay, and the log holds at most ten records. -/
theorem restoreLoop_bounded (P : Platform MV Doc) (c n : Nat) (fuel : Nat) :
    ∀ (misses : Nat) (t : TransactionMeterData MV) (fs : Filesystem Doc),
      t.connectorId = c → t.txNr = n → misses ≤ 3 →
      t.mvCount ≤ 3 * t.txData.length + misses → t.txData.length ≤ 10 →
      33 - t.mvCount < fuel →
      ∃ r t1 fs1 m, restoreLoop P fuel misses t fs = some (r, t1, fs1) ∧
        t.mvCount + m ≤ 33 ∧ fs1.calls = fs.calls ++ loadCalls c n t.mvCount m ∧
        fs1.files = fs.files ∧ t1.txData.length ≤ 10 := by
  induction fuel with
  | zero => intro misses t fs _ _ _ _ _ h; omega
  | succ fuel ih =>
    intro misses t fs hc hn hm3 hbound hlen hfuel
    have hslot : t.slot t.mvCount = ⟨c, n, t.mvCount⟩ := by simp [slot, hc, hn]
    by_cases hm : misses < MISSES_LIMIT
    · have hm2 : misses < 3 := hm
      have hmod : (t.mvCount + 1) % UINT_RANGE = t.mvCount + 1 :=
        Nat.mod_eq_of_lt (by simp only [UINT_RANGE]; omega)
      by_cases hret : P.MAX_PATH_SIZE ≤ snprintfLen P (t.slot t.mvCount)
      · exact ⟨false, t, fs, 0, restoreLoop_too_long P fuel misses t fs hm hret, by omega,
          by simp [loadCalls], rfl, hlen⟩
      · have hret1 : snprintfLen P (t.slot t.mvCount) < P.MAX_PATH_SIZE := by omega
        cases hrec : (fs.files (t.slot t.mvCount)).bind P.deserializeSample with
        | none =>
          obtain ⟨r, t1, fs1, m, hrun, hm33, hcalls, hfiles, hlen1⟩ :=
            ih (misses + 1) { t with mvCount := t.mvCount + 1 }
              (fs.loadJson (t.slot t.mvCount)).2 hc hn (by omega)
              (by simp only; omega) hlen (by simp only; omega)
          refine ⟨r, t1, fs1, m + 1, ?_, ?_, ?_, ?_, hlen1⟩
          · rw [restoreLoop_miss P fuel misses t fs hm hret1 hrec, hmod]
            exact hrun
          · simp only at hm33; omega
          · rw [hcalls, hslot]
            simp [Filesystem.loadJson, loadCalls]
          · rw [hfiles]; rfl
        | some mv =>
          obtain ⟨doc, hdoc, hde⟩ : ∃ doc, fs.files (t.slot t.mvCount) = some doc ∧
              P.deserializeSample doc = some mv := by
            cases hf : fs.files (t.slot t.mvCount) with
            | none => rw [hf] at hrec; cases hrec
            | some doc => rw [hf] at hrec; exact ⟨doc, rfl, hrec⟩
          by_cases hroom : t.txData.length < MAX_STOPTXDATA_LEN
          · have hroom2 : t.txData.length < 10 := hroom
            obtain ⟨r, t1, fs1, m, hrun, hm33, hcalls, hfiles, hlen1⟩ :=
              ih 0 { t with txData := t.txData ++ [mv], mvCount := t.mvCount + 1 }
                (fs.loadJson (t.slot t.mvCount)).2 hc hn (by omega)
                (by simp only [List.length_append, List.length_singleton]; omega)
                (by simp only [List.length_append, List.length_singleton]; omega)
                (by simp only; omega)
            refine ⟨r, t1, fs1, m + 1, ?_, ?_, ?_, ?_, hlen1⟩
            · rw [restoreLoop_hit P fuel misses t fs doc mv hm hret1 hdoc hde hroom, hmod]
              exact hrun
            · simp only at hm33; omega
            · rw [hcalls, hslot]
              simp [Filesystem.loadJson, loadCalls]
            · rw [hfiles]; rfl
          · have hfull : MAX_STOPTXDATA_LEN ≤ t.txData.length := by omega
            refine ⟨false, t, (fs.loadJson (t.slot t.mvCount)).2, 1,
              restoreLoop_overflow P fuel misses t fs doc mv hm hret1 hdoc hde hfull,
              by omega, ?_, rfl, hlen⟩
            rw [hslot]
            simp [Filesystem.loadJson, loadCalls]
    · have hm1 : MISSES_LIMIT ≤ misses := by omega
      exact ⟨true, t, fs, 0, restoreLoop_done P fuel misses t fs hm1, by omega,
        by simp [loadCalls], rfl, hlen⟩

end TransactionMeterData

/-- C21: on a new storage-backed log, for every storage and platform, the scan loop of
`restore` ends within 34 iterations with the result of `restore`; the adapter calls of
`restore` are loads of the slots `0, 1, .., m - 1` of the key for some `m ≤ 33`, so no slot
above 32 is probed; the files are unchanged; and the log holds at most ten records
afterwards, whether `restore` returns `true` or `false`. -/
theorem restore_bounded_scan {MV Doc : Type} (P : Platform MV Doc) (c n : Nat)
    (fs : Filesystem Doc) :
    (∀ fuel, 34 ≤ fuel →
        TransactionMeterData.restoreLoop P fuel 0
            (TransactionMeterData.new c n true : TransactionMeterData MV) fs
          = some ((TransactionMeterData.new c n true : TransactionMeterData MV).restore P fs)) ∧
      (∃ m, m ≤ 33 ∧
        ((TransactionMeterData.new c n true : TransactionMeterData MV).restore P fs).2.2.calls
          = fs.calls ++ loadCalls c n 0 m) ∧
      ((TransactionMeterData.new c n true : TransactionMeterData MV).restore P fs).2.2.files
        = fs.files ∧
      ((TransactionMeterData.new c n true : TransactionMeterData MV).restore P fs).2.1.txData.length
        ≤ MAX_STOPTXDATA_LEN := by
  obtain ⟨r, t1, fs1, m, hrun, hm33, hcalls, hfiles, hlen⟩ :=
    TransactionMeterData.restoreLoop_bounded P c n 34 0
      (TransactionMeterData.new c n true : TransactionMeterData MV) fs rfl rfl (by omega)
      (by simp [TransactionMeterData.new]) (by simp [TransactionMeterData.new])
      (by simp [TransactionMeterData.new])
  have hres := TransactionMeterData.restore_eq_restoreLoop P
    (TransactionMeterData.new c n true : TransactionMeterData MV) fs rfl
  have h45 := TransactionMeterData.restoreLoop_more_fuel P 34 0
    (TransactionMeterData.new c n true : TransactionMeterData MV) fs _ hrun 11
  have heq : (TransactionMeterData.new c n true : TransactionMeterData MV).restore P fs
      = (r, t1, fs1) := by
    have h2 : some (r, t1, fs1)
        = some ((TransactionMeterData.new c n true : TransactionMeterData MV).restore P fs) :=
      h45.symm.trans hres
    exact (Option.some.inj h2).symm
  rw [heq]
  refine ⟨?_, ⟨m, ?_, ?_⟩, hfiles, hlen⟩
  · intro fuel hfuel
    have := TransactionMeterData.restoreLoop_more_fuel P 34 0
      (TransactionMeterData.new c n true : TransactionMeterData MV) fs _ hrun (fuel - 34)
    rw [show 34 + (fuel - 34) = fuel from by omega] at this
    exact this
  · simp only [TransactionMeterData.new] at hm33; omega
  · simpa [TransactionMeterData.new] using hcalls


/-- The bound of 33 probes is reached: over `everyThirdFs`, `restore` on a new log of
connector 1, transaction 7 loads the slots 0 to 32, returns `false` and holds the ten
records of the slots 2, 5, .., 29. -/
theorem restore_everyThirdFs :
    ((TransactionMeterData.new 1 7 true).restore natPlatform everyThirdFs).1 = false ∧
      ((TransactionMeterData.new 1 7 true).restore natPlatform everyThirdFs).2.2.calls
        = loadCalls 1 7 0 33 ∧
      ((TransactionMeterData.new 1 7 true).restore natPlatform everyThirdFs).2.1.txData
        = [2, 5, 8, 11, 14, 17, 20, 23, 26, 29] := by
  decide


/-! ## Theorems: the session tag -/

/-- The bytes `defaultIdTag` are those of the literal `"A0-00-00-00"`. -/
theorem defaultIdTag_eq_literal :
    ConnectorStatus.defaultIdTag = "A0-00-00-00".toUTF8.data.toList := by
  decide

/-- The tag kept by `beginSession` is cut by bytes: of the two-byte tag `0xC3 0xA9` (one
character in UTF-8) a buffer with `IDTAG_LEN_MAX = 1` keeps the first byte; a null or empty
tag gives the default tag, and bytes behind a NUL are not read. -/
theorem beginSession_cuts_bytes :
    (idleConnector.beginSession 1 (some [0xC3, 0xA9])).getSessionIdTag = some [0xC3] ∧
      (idleConnector.beginSession 20 none).getSessionIdTag
        = some ConnectorStatus.defaultIdTag ∧
      (idleConnector.beginSession 20 (some [0, 65])).getSessionIdTag
        = some ConnectorStatus.defaultIdTag ∧
      (idleConnector.beginSession 20 (some [65, 66, 0, 67])).getSessionIdTag
        = some [65, 66] ∧
      ((idleConnector.beginSession 20 (some [65, 66])).endSession).getSessionIdTag = none := by
  decide

end ArduinoOcpp
